import Mathlib

/-!
The message content filter of InspIRCd (`src/modules/m_filter.cpp`).

A shallow embedding of the filter module's rule record (`FilterResult`), of its
rule list (`ModuleFilter::filters`) and of the codec that replicates rules
between servers (`EncodeFilter` / `DecodeFilter`), followed by theorems about
them.

Conventions of the embedding:

* `std::string` is a list of characters (`Str`), one `Char` per byte;
* `unsigned long` is a natural number below `ULONG_LIMIT`;
* a C++ function that throws `ModuleException` returns `Except Str _`, the
  error being the exception's reason;
* a member function that mutates its object returns the new object;
* where the code hands `x.c_str()` to a reader of C strings, the model has
  `c_str x`, the bytes before the first zero byte;
* whether the X-line manager has a factory for `"SHUN"`
  (`ServerInstance->XLines->GetFactory("SHUN")`) is a boolean argument `shun`.
-/

/-- A `std::string`: the sequence of its bytes. -/
abbrev Str := List Char

/-- One past the largest `unsigned long` (LP64). -/
def ULONG_LIMIT : Nat := 2 ^ 64

/-- The control byte 0x07 (`'\7'` in the source). -/
def BEL : Char := Char.ofNat 7

/-- The `char` value 0, which `FillFlags` returns for "no bad flag". -/
def NUL : Char := Char.ofNat 0

/-- What a reader of the C string `s.c_str()` sees: the bytes before the first
zero byte. `InspIRCd::Format` reads its `%s` arguments this way, and so does
the construction of a `std::string` from a `const char*`. -/
def c_str (s : Str) : Str := s.takeWhile (fun c => c != NUL)

/-- The actions of a rule (`enum FilterAction`). -/
inductive FilterAction where
  | FA_GLINE
  | FA_ZLINE
  | FA_WARN
  | FA_BLOCK
  | FA_SILENT
  | FA_KILL
  | FA_SHUN
  | FA_NONE
  deriving DecidableEq, Repr

open FilterAction

/-- A compiled pattern (`class Regex`): all the filter uses of it is `Matches`. -/
structure Regex where
  Matches : Str → Bool

/-- A pattern backend (`class RegexFactory`). `Create` either compiles the
pattern or throws; `addr` stands for the object's address, which the module
compares to notice a changed backend. -/
structure RegexFactory where
  addr : Nat
  name : Str
  Create : Str → Except Str Regex

/-- A `dynamic_reference<RegexFactory>`: the provider name it looks up and what
that name currently resolves to (`none` when no such service is loaded). -/
structure dynamic_reference where
  provider : Str
  value : Option RegexFactory

/-- The class `FilterResult`: one rule. `regex` is an owning pointer; it is `none`
only in an object that came from the default constructor. -/
structure FilterResult where
  regex : Option Regex
  freeform : Str
  reason : Str
  action : FilterAction
  duration : Nat
  from_config : Bool
  flag_no_opers : Bool
  flag_part_message : Bool
  flag_quit_message : Bool
  flag_privmsg : Bool
  flag_notice : Bool
  flag_strip_color : Bool

namespace FilterResult

/-- The loop of `FilterResult::FillFlags`: one `switch` per character, leaving
at the first character that has no case. -/
def FillFlagsLoop (self : FilterResult) : Str → Char × FilterResult
  | [] => (NUL, self)
  | n :: rest =>
    if n = 'o' then FillFlagsLoop { self with flag_no_opers := true } rest
    else if n = 'P' then FillFlagsLoop { self with flag_part_message := true } rest
    else if n = 'q' then FillFlagsLoop { self with flag_quit_message := true } rest
    else if n = 'p' then FillFlagsLoop { self with flag_privmsg := true } rest
    else if n = 'n' then FillFlagsLoop { self with flag_notice := true } rest
    else if n = 'c' then FillFlagsLoop { self with flag_strip_color := true } rest
    else if n = '*' then
      FillFlagsLoop { self with
        flag_no_opers := true, flag_part_message := true, flag_quit_message := true,
        flag_privmsg := true, flag_notice := true, flag_strip_color := true } rest
    else (n, self)

/-- Method `FilterResult::FillFlags`: clears the six flags, then runs the loop. The
result is the returned `char` and the object afterwards. -/
def FillFlags (self : FilterResult) (fl : Str) : Char × FilterResult :=
  FillFlagsLoop { self with
    flag_no_opers := false, flag_part_message := false, flag_quit_message := false,
    flag_privmsg := false, flag_notice := false, flag_strip_color := false } fl

/-- Method `FilterResult::GetFlags`: the flag string, built by `push_back`. -/
def GetFlags (self : FilterResult) : Str :=
  let flags : Str := []
  let flags := if self.flag_no_opers then flags ++ ['o'] else flags
  let flags := if self.flag_part_message then flags ++ ['P'] else flags
  let flags := if self.flag_quit_message then flags ++ ['q'] else flags
  let flags := if self.flag_privmsg then flags ++ ['p'] else flags
  let flags := if self.flag_notice then flags ++ ['n'] else flags
  let flags := if self.flag_strip_color then flags ++ ['c'] else flags
  if flags.isEmpty then flags ++ ['-'] else flags

/-- The default constructor `FilterResult()`. The strings start empty; the
other members are indeterminate in the source, and every path that uses such an
object assigns them before reading them (`regex` and `from_config` are never
read). They are given fixed values here. -/
def default : FilterResult :=
  { regex := none, freeform := [], reason := [], action := FA_NONE, duration := 0,
    from_config := false, flag_no_opers := false, flag_part_message := false,
    flag_quit_message := false, flag_privmsg := false, flag_notice := false,
    flag_strip_color := false }

/-- The constructor `FilterResult(RegexEngine, free, rea, act, gt, fla, cfg)`.
It throws when no backend is bound and lets the exception of `Create` through;
the value returned by `FillFlags` is discarded. -/
def new (RegexEngine : dynamic_reference) (free rea : Str) (act : FilterAction)
    (gt : Nat) (fla : Str) (cfg : Bool) : Except Str FilterResult :=
  match RegexEngine.value with
  | none =>
    .error ("Regex module implementing '".toList ++ RegexEngine.provider ++ "' is not loaded!".toList)
  | some engine =>
    match engine.Create free with
    | .error e => .error e
    | .ok rx =>
      let self : FilterResult :=
        { default with
          regex := some rx, freeform := free, reason := rea, action := act,
          duration := gt, from_config := cfg }
      .ok (self.FillFlags fla).2

end FilterResult

/-- The state of `class ModuleFilter`. `factory` is the address of the backend
seen at the last configuration read (`none` for `NULL`); the exemption sets are
kept as lists of names. -/
structure ModuleFilter where
  initing : Bool
  notifyuser : Bool
  factory : Option Nat
  RegexEngine : dynamic_reference
  filters : List FilterResult
  flags : Nat
  exemptedchans : List Str
  exemptednicks : List Str

/-- Modelled from the spec: `stdalgo::string::equalsci` is declared outside
src/. The spec calls the comparison of action names case-insensitive; the two
strings are equal when they have the same length and agree byte for byte once
the letters `A`..`Z` are folded to lower case. -/
def equalsci (str1 str2 : Str) : Bool :=
  str1.length == str2.length &&
    (List.zipWith (fun a b => a.toLower == b.toLower) str1 str2).all id

/-- Modelled from the spec: `operator<<` on an `unsigned long` is library code
outside src/. The spec calls the field decimal: the digits of `n` in base ten,
most significant first, `0` for zero. -/
def ConvToStr (n : Nat) : Str := Nat.toDigits 10 n

/-- The value of a decimal digit, `none` for any other byte. -/
def digitValue (c : Char) : Option Nat :=
  if 48 ≤ c.toNat ∧ c.toNat ≤ 57 then some (c.toNat - 48) else none

/-- Reads the leading decimal digits of a string onto an accumulator; the
boolean tells whether there was at least one digit. -/
def readDigits : Str → Nat → Bool → Nat × Bool
  | [], acc, seen => (acc, seen)
  | c :: rest, acc, seen =>
    match digitValue c with
    | some d => readDigits rest (10 * acc + d) true
    | none => (acc, seen)

/-- Modelled from the spec: `ConvToNum<unsigned long>` is declared outside
src/. The spec calls the duration field decimal; the text is read as leading
decimal digits, and a text that does not start with a digit, or whose value
does not fit an `unsigned long`, gives 0. -/
def ConvToNum (s : Str) : Nat :=
  match readDigits s 0 false with
  | (v, true) => if v < ULONG_LIMIT then v else 0
  | (_, false) => 0

/-- Modelled from the spec: `irc::tokenstream` is declared outside src/. The
spec describes a line of space-separated fields whose last field, introduced by
a colon, runs to the end of the line. The stream is represented by the part of
the message that has not been read yet; it is exhausted when that part is
empty. -/
structure tokenstream where
  rest : Str

namespace tokenstream

/-- Modelled from the spec: `irc::tokenstream::GetMiddle`, the next
space-separated field. On an exhausted stream the token is cleared. Otherwise
the token runs up to the next space (or to the end of the line), and the stream
moves past that space and the spaces that follow it. -/
def GetMiddle (self : tokenstream) : Str × tokenstream :=
  match self.rest with
  | [] => ([], self)
  | _ :: _ =>
    let token := self.rest.takeWhile (fun c => c != ' ')
    let after := self.rest.dropWhile (fun c => c != ' ')
    (token, { rest := after.dropWhile (fun c => c == ' ') })

/-- Modelled from the spec: `irc::tokenstream::GetTrailing`, the last field.
When the unread part starts with a colon the token is everything after that
colon; otherwise it is read like a middle field. -/
def GetTrailing (self : tokenstream) : Str × tokenstream :=
  match self.rest with
  | [] => ([], self)
  | c :: tail => if c = ':' then (tail, { rest := [] }) else self.GetMiddle

end tokenstream

namespace ModuleFilter

/-- Function `ModuleFilter::FilterActionToString`. -/
def FilterActionToString (fa : FilterAction) : Str :=
  match fa with
  | FA_GLINE => "gline".toList
  | FA_ZLINE => "zline".toList
  | FA_WARN => "warn".toList
  | FA_BLOCK => "block".toList
  | FA_SILENT => "silent".toList
  | FA_KILL => "kill".toList
  | FA_SHUN => "shun".toList
  | _ => "none".toList

/-- Function `ModuleFilter::StringToFilterAction`: `some fa` when the source returns
true after assigning `fa`, `none` when it returns false. -/
def StringToFilterAction (shun : Bool) (str : Str) : Option FilterAction :=
  if equalsci str "gline".toList then some FA_GLINE
  else if equalsci str "zline".toList then some FA_ZLINE
  else if equalsci str "warn".toList then some FA_WARN
  else if equalsci str "block".toList then some FA_BLOCK
  else if equalsci str "silent".toList then some FA_SILENT
  else if equalsci str "kill".toList then some FA_KILL
  else if equalsci str "shun".toList && shun then some FA_SHUN
  else if equalsci str "none".toList then some FA_NONE
  else none

/-- The first loop of `EncodeFilter`: every space becomes byte 0x07. -/
def escapeSpaces : Str → Str
  | [] => []
  | n :: rest => (if n = ' ' then BEL else n) :: escapeSpaces rest

/-- The last loop of `DecodeFilter`: every byte 0x07 becomes a space. -/
def unescapeSpaces : Str → Str
  | [] => []
  | n :: rest => (if n = BEL then ' ' else n) :: unescapeSpaces rest

/-- Method `ModuleFilter::EncodeFilter`. -/
def EncodeFilter (filter : FilterResult) : Str :=
  let x := escapeSpaces filter.freeform
  x ++ " ".toList ++ FilterActionToString filter.action ++ " ".toList ++ filter.GetFlags
    ++ " ".toList ++ ConvToStr filter.duration ++ " :".toList ++ filter.reason

/-- Method `ModuleFilter::DecodeFilter`. -/
def DecodeFilter (shun : Bool) (data : Str) : Except Str FilterResult :=
  let res := FilterResult.default
  let tokens : tokenstream := { rest := data }
  let (freeform, tokens) := tokens.GetMiddle
  let res := { res with freeform := freeform }
  let (filteraction, tokens) := tokens.GetMiddle
  match StringToFilterAction shun filteraction with
  | none => .error ("Invalid action: ".toList ++ filteraction)
  | some fa =>
    let res := { res with action := fa }
    let (filterflags, tokens) := tokens.GetMiddle
    let (c, res) := res.FillFlags filterflags
    if c ≠ NUL then .error ("Invalid flag: '".toList ++ [c] ++ "'".toList)
    else
      let (duration, tokens) := tokens.GetMiddle
      let res := { res with duration := ConvToNum duration }
      let (reason, _) := tokens.GetTrailing
      let res := { res with reason := reason }
      .ok { res with freeform := unescapeSpaces res.freeform }

/-- Method `ModuleFilter::AddFilter`: the returned pair and the module afterwards.
(The log line written when the constructor throws is not modelled.) -/
def AddFilter (self : ModuleFilter) (freeform : Str) (type : FilterAction) (reason : Str)
    (duration : Nat) (flgs : Str) : (Bool × Str) × ModuleFilter :=
  if self.filters.any (fun i => i.freeform == freeform) then
    ((false, "Filter already exists".toList), self)
  else
    match FilterResult.new self.RegexEngine freeform reason type duration flgs false with
    | .ok f => ((true, []), { self with filters := self.filters ++ [f] })
    | .error e => ((false, e), self)

end ModuleFilter

/-! ## Specification-side definitions and sample data -/

/-- At least one of the six applicability flags is set. -/
def FilterResult.anyFlag (r : FilterResult) : Bool :=
  r.flag_no_opers || r.flag_part_message || r.flag_quit_message || r.flag_privmsg ||
    r.flag_notice || r.flag_strip_color

/-- Whether the applicability flag that the wire character `c` names is set. -/
def FilterResult.hasFlag (r : FilterResult) (c : Char) : Bool :=
  (c == 'o' && r.flag_no_opers) || (c == 'P' && r.flag_part_message) ||
    (c == 'q' && r.flag_quit_message) || (c == 'p' && r.flag_privmsg) ||
    (c == 'n' && r.flag_notice) || (c == 'c' && r.flag_strip_color)

/-- The escaped label in the words of the wire format: the label with every
space replaced by byte 0x07. -/
def escapedLabel (label : Str) : Str :=
  label.map (fun c => if c = ' ' then BEL else c)

/-- Whether `s` is an upper/lower-case variant of `name`: the same length, and
every byte is the byte of `name` at that place or its upper-case form. -/
def isCaseVariant : Str → Str → Bool
  | [], [] => true
  | c :: s, d :: name => (c == d || c == d.toUpper) && isCaseVariant s name
  | _, _ => false

/-- The characters `FillFlags` has a case for. -/
def recognisedFlag (c : Char) : Bool :=
  c == 'o' || c == 'P' || c == 'q' || c == 'p' || c == 'n' || c == 'c' || c == '*'

/-- The first character of a flag field that `FillFlags` has no case for. -/
def firstUnrecognised (fl : Str) : Option Char :=
  fl.find? (fun c => !recognisedFlag c)

/-- The second field of a wire line, as `DecodeFilter` reads it. -/
def actionField (data : Str) : Str :=
  ((tokenstream.GetMiddle { rest := data }).2.GetMiddle).1

/-- The third field of a wire line, as `DecodeFilter` reads it. -/
def flagField (data : Str) : Str :=
  (((tokenstream.GetMiddle { rest := data }).2.GetMiddle).2.GetMiddle).1

/-- The rule of the worked example: label `hello world`, BLOCK, flag `c`,
duration 0, reason `test reason`. -/
def helloRule : FilterResult :=
  { FilterResult.default with
    freeform := "hello world".toList, action := FA_BLOCK, flag_strip_color := true,
    duration := 0, reason := "test reason".toList }

/-- The wire line of the worked example. -/
def helloLine : Str := "hello\x07world block c 0 :test reason".toList

/-- A SHUN rule with one flag set. -/
def shunRule : FilterResult :=
  { FilterResult.default with
    freeform := "x".toList, action := FA_SHUN, flag_strip_color := true,
    duration := 60, reason := "r".toList }

/-- A BLOCK rule with no applicability flag set. -/
def plainRule : FilterResult :=
  { FilterResult.default with
    freeform := "x".toList, action := FA_BLOCK, duration := 0, reason := "r".toList }

/-- The wire line of `plainRule`. -/
def dashLine : Str := "x block - 0 :r".toList

/-- A wire line whose flag field is the single byte 0. -/
def nulFlagLine : Str := "x kill ".toList ++ [NUL] ++ " 7 :r".toList

/-- A toy backend: a pattern compiles unless it is empty, and matches exactly
the texts equal to it. -/
def exactFactory : RegexFactory :=
  { addr := 1, name := "regex/exact".toList,
    Create := fun p =>
      if p.isEmpty then .error "Error in regex: empty pattern".toList
      else .ok { Matches := fun t => t == p } }

/-- A module bound to `exactFactory` that holds no rule. -/
def emptyModule : ModuleFilter :=
  { initing := false, notifyuser := true, factory := some 1,
    RegexEngine := { provider := "regex/exact".toList, value := some exactFactory },
    filters := [], flags := 0, exemptedchans := [], exemptednicks := [] }

/-- The module after the rule of the worked example has been added. -/
def boundModule : ModuleFilter :=
  (emptyModule.AddFilter "hello world".toList FA_BLOCK "test reason".toList 0 "c".toList).2

/-- The same module after its backend has gone away. -/
def unboundModule : ModuleFilter :=
  { boundModule with RegexEngine := { provider := "regex/exact".toList, value := none } }

/-- Whether a flag string names the flag of the wire character `c`: `c` or `*`
occurs in it before the first character that is not recognised. -/
def namesFlag (c : Char) (fl : Str) : Bool :=
  (fl.takeWhile recognisedFlag).any (fun x => x == c || x == '*')

/-- The module `emptyModule` after its backend has gone away. -/
def emptyUnboundModule : ModuleFilter :=
  { emptyModule with RegexEngine := { provider := "regex/exact".toList, value := none } }

/-- A string of lower-case letters `a`..`z`. -/
def lowerLetters (name : Str) : Prop := ∀ d ∈ name, 97 ≤ d.toNat ∧ d.toNat ≤ 122

/-! ## Events, senders and enforcement -/

/-- The event kinds of `enum FilterFlags`. -/
inductive FilterFlags where
  | FLAG_PART
  | FLAG_QUIT
  | FLAG_PRIVMSG
  | FLAG_NOTICE
  deriving DecidableEq, Repr

/-- The integer value of an enumerator of `FilterFlags`. -/
def FilterFlags.toInt : FilterFlags → Nat
  | .FLAG_PART => 2
  | .FLAG_QUIT => 4
  | .FLAG_PRIVMSG => 8
  | .FLAG_NOTICE => 16

/-- What the filter reads of a `User`: the nickname, `IsOper()`, `IS_LOCAL` and
`GetIPString()`. -/
structure User where
  nick : Str
  IsOper : Bool
  IsLocal : Bool
  GetIPString : Str
  deriving DecidableEq

/-- A `MessageTarget`: its type together with the user or the channel name it
holds. -/
inductive MessageTarget where
  | TYPE_USER (t : User)
  | TYPE_CHANNEL (name : Str)
  | TYPE_SERVER (name : Str)
  deriving DecidableEq

/-- The message kinds of `enum MessageType`. -/
inductive MessageType where
  | MSG_PRIVMSG
  | MSG_NOTICE
  deriving DecidableEq, Repr

/-- What the filter reads and writes of a `MessageDetails`. -/
structure MessageDetails where
  type : MessageType
  text : Str
  echo_original : Bool
  deriving DecidableEq

/-- The results a hook can return (`ModResult`). -/
inductive ModResult where
  | MOD_RES_ALLOW
  | MOD_RES_PASSTHRU
  | MOD_RES_DENY
  deriving DecidableEq, Repr

/-- The ban objects the filter creates, with the arguments of their
constructors: set time, duration, source, reason and the mask. -/
inductive XLine where
  | Shun (s_time d : Nat) (src re shunmask : Str)
  | GLine (s_time d : Nat) (src re ident host : Str)
  | ZLine (s_time d : Nat) (src re ip : Str)
  deriving DecidableEq

/-- The calls a hook makes on its collaborators, in the order it makes them:
server notices, numerics and notices to a user (named by nickname),
disconnection requests, ban requests and log lines. -/
inductive Effect where
  | WriteGlobalSno (letter : Char) (text : Str)
  | WriteToSnoMask (letter : Char) (text : Str)
  | WriteNumeric (nick : Str) (numeric : Nat) (target text : Str)
  | WriteNotice (nick : Str) (text : Str)
  | QuitUser (nick : Str) (quitreason : Str)
  | AddLine (line : XLine)
  | ApplyLines
  | Log (text : Str)
  deriving DecidableEq

/-- What the filter uses of the global `ServerInstance`: the clock, the server
name, whether the X-line manager has a factory for `SHUN`, whether
`XLines->AddLine` accepts a line, and `InspIRCd::StripColor`. -/
structure InspIRCd where
  Time : Nat
  ServerName : Str
  shun : Bool
  AddLine : XLine → Bool
  StripColor : Str → Str

/-- Modelled from the spec: the numeric `ERR_CANNOTSENDTOCHAN` is declared
outside src/; the spec only calls it a rejection notice. It is given its value
in the IRC protocol. -/
def ERR_CANNOTSENDTOCHAN : Nat := 404

/-- Modelled from the spec: `ExemptTargetSet::count` on a set ordered by
`irc::insensitive_swo`, which is declared outside src/. The spec calls the set
case-insensitive: a name is in it when some member equals it up to case. -/
def ExemptTargetSet.count (set : List Str) (name : Str) : Bool :=
  set.any (fun member => equalsci member name)

/-- Modelled from the spec: `ExemptTargetSet::insert`, which adds a name unless
the set holds it already (up to case). -/
def ExemptTargetSet.insert (set : List Str) (name : Str) : List Str :=
  if ExemptTargetSet.count set name then set else set ++ [name]

/-- The call `filter->regex->Matches(text)`. The source dereferences the
pointer unconditionally; a rule that has no matcher (which no stored rule is)
matches nothing here. -/
def FilterResult.regexMatches (filter : FilterResult) (text : Str) : Bool :=
  match filter.regex with
  | some rx => rx.Matches text
  | none => false

/-- One `keyword` tag of the configuration, with its duration already read by
`getDuration("duration", 10*60, 1)`. -/
structure KeywordTag where
  pattern : Str
  reason : Str
  action : Str
  flags : Str
  duration : Nat

/-- What `ReadConfig` reads of the configuration: the `target` of every
`exemptfromfilter` tag, the `engine` and `notifyuser` of `filteropts`, and the
`keyword` tags. -/
structure FilterConfig where
  exemptfromfilter : List Str
  engine : Str
  notifyuser : Bool
  keyword : List KeywordTag

namespace ModuleFilter

/-- Method `ModuleFilter::AppliesToMe`; `iflags & FLAG_X` is the bitwise test
of the source. -/
def AppliesToMe (user : User) (filter : FilterResult) (iflags : Nat) : Bool :=
  if filter.flag_no_opers && user.IsOper then false
  else if (iflags &&& FilterFlags.FLAG_PRIVMSG.toInt != 0) && !filter.flag_privmsg then false
  else if (iflags &&& FilterFlags.FLAG_NOTICE.toInt != 0) && !filter.flag_notice then false
  else if (iflags &&& FilterFlags.FLAG_QUIT.toInt != 0) && !filter.flag_quit_message then false
  else if (iflags &&& FilterFlags.FLAG_PART.toInt != 0) && !filter.flag_part_message then false
  else true

/-- The loop of `ModuleFilter::FilterMatch`. The last argument is the static
`stripped_text`; the result is the rule the returned pointer designates (`none`
for `NULL`) and `stripped_text` afterwards. -/
def FilterMatchLoop (ServerInstance : InspIRCd) (user : User) (text : Str) (flgs : Nat) :
    List FilterResult → Str → Option FilterResult × Str
  | [], stripped_text => (none, stripped_text)
  | filter :: rest, stripped_text =>
    if !AppliesToMe user filter flgs then
      FilterMatchLoop ServerInstance user text flgs rest stripped_text
    else
      let stripped_text :=
        if filter.flag_strip_color && stripped_text.isEmpty then ServerInstance.StripColor text
        else stripped_text
      if filter.regexMatches (if filter.flag_strip_color then stripped_text else text) then
        (some filter, stripped_text)
      else FilterMatchLoop ServerInstance user text flgs rest stripped_text

/-- Method `ModuleFilter::FilterMatch`: clears `stripped_text` and scans the
rule list. -/
def FilterMatch (self : ModuleFilter) (ServerInstance : InspIRCd) (user : User) (text : Str)
    (flgs : Nat) : Option FilterResult :=
  (FilterMatchLoop ServerInstance user text flgs self.filters []).1

/-- The request for a ban line: `XLines->AddLine(line, NULL)` followed by
`ApplyLines()` when the line was accepted (it is deleted otherwise). -/
def addLine (ServerInstance : InspIRCd) (line : XLine) : List Effect :=
  if ServerInstance.AddLine line then [Effect.AddLine line, Effect.ApplyLines]
  else [Effect.AddLine line]

/-- The part of `ModuleFilter::OnUserPreMessage` that acts on the matched rule
`f` once `target` is known, from the test for `FA_WARN` on. `InspIRCd::Format`
is written out as the concatenation of the C strings it is given, and a ban
object is built from the C strings of the server name and of the reason. -/
def OnUserPreMessageAction (self : ModuleFilter) (ServerInstance : InspIRCd) (user : User)
    (msgtarget : MessageTarget) (details : MessageDetails) (f : FilterResult) (target : Str) :
    ModResult × MessageDetails × ModuleFilter × List Effect :=
  let matched := c_str f.freeform ++ " (".toList ++ c_str f.reason ++ ")".toList
  if f.action = FA_WARN then
    (.MOD_RES_PASSTHRU, details, self,
      [Effect.WriteGlobalSno 'f' ("WARNING: ".toList ++ c_str user.nick
        ++ "'s message to ".toList ++ c_str target ++ " matched ".toList ++ matched)])
  else
    let acted : MessageDetails × List Effect :=
      if f.action = FA_BLOCK then
        let sno := Effect.WriteGlobalSno 'f' (c_str user.nick
          ++ " had their message to ".toList ++ c_str target
          ++ " filtered as it matched ".toList ++ matched)
        if self.notifyuser then
          match msgtarget with
          | .TYPE_CHANNEL _ =>
            (details, [sno, Effect.WriteNumeric user.nick ERR_CANNOTSENDTOCHAN target
              ("Message to channel blocked and opers notified (".toList ++ c_str f.reason
                ++ ")".toList)])
          | _ =>
            (details, [sno, Effect.WriteNotice user.nick ("Your message to ".toList ++ target
              ++ " was blocked and opers notified: ".toList ++ f.reason)])
        else ({ details with echo_original := true }, [sno])
      else if f.action = FA_SILENT then
        if self.notifyuser then
          match msgtarget with
          | .TYPE_CHANNEL _ =>
            (details, [Effect.WriteNumeric user.nick ERR_CANNOTSENDTOCHAN target
              ("Message to channel blocked (".toList ++ c_str f.reason ++ ")".toList)])
          | _ =>
            (details, [Effect.WriteNotice user.nick ("Your message to ".toList ++ target
              ++ " was blocked: ".toList ++ f.reason)])
        else ({ details with echo_original := true }, [])
      else if f.action = FA_KILL then
        (details,
          [Effect.WriteGlobalSno 'f' (c_str user.nick
            ++ " was killed because their message to ".toList ++ c_str target
            ++ " matched ".toList ++ matched),
           Effect.QuitUser user.nick ("Filtered: ".toList ++ f.reason)])
      else if f.action = FA_SHUN && ServerInstance.shun then
        (details,
          Effect.WriteGlobalSno 'f' (c_str user.nick
            ++ " was shunned because their message to ".toList ++ c_str target
            ++ " matched ".toList ++ matched)
          :: addLine ServerInstance (XLine.Shun ServerInstance.Time f.duration
              (c_str ServerInstance.ServerName) (c_str f.reason) user.GetIPString))
      else if f.action = FA_GLINE then
        (details,
          Effect.WriteGlobalSno 'f' (c_str user.nick
            ++ " was G-lined because their message to ".toList ++ c_str target
            ++ " matched ".toList ++ matched)
          :: addLine ServerInstance (XLine.GLine ServerInstance.Time f.duration
              (c_str ServerInstance.ServerName) (c_str f.reason) "*".toList user.GetIPString))
      else if f.action = FA_ZLINE then
        (details,
          Effect.WriteGlobalSno 'f' (c_str user.nick
            ++ " was Z-lined because their message to ".toList ++ c_str target
            ++ " matched ".toList ++ matched)
          :: addLine ServerInstance (XLine.ZLine ServerInstance.Time f.duration
              (c_str ServerInstance.ServerName) (c_str f.reason) user.GetIPString))
      else (details, [])
    (.MOD_RES_DENY, acted.1, self,
      acted.2 ++ [Effect.Log (user.nick ++ " had their message filtered, target was ".toList
        ++ target ++ ": ".toList ++ f.reason ++ " Action: ".toList
        ++ FilterActionToString f.action)])

/-- Method `ModuleFilter::OnUserPreMessage`: the result, the message details
and the module afterwards, and the calls made. -/
def OnUserPreMessage (self : ModuleFilter) (ServerInstance : InspIRCd) (user : User)
    (msgtarget : MessageTarget) (details : MessageDetails) :
    ModResult × MessageDetails × ModuleFilter × List Effect :=
  if !user.IsLocal then (.MOD_RES_PASSTHRU, details, self, [])
  else
    let flags :=
      if details.type = .MSG_PRIVMSG then FilterFlags.FLAG_PRIVMSG.toInt
      else FilterFlags.FLAG_NOTICE.toInt
    let self := { self with flags := flags }
    match self.FilterMatch ServerInstance user details.text flags with
    | none => (.MOD_RES_PASSTHRU, details, self, [])
    | some f =>
      match msgtarget with
      | .TYPE_USER t =>
        if ExemptTargetSet.count self.exemptednicks t.nick then
          (.MOD_RES_PASSTHRU, details, self, [])
        else OnUserPreMessageAction self ServerInstance user msgtarget details f t.nick
      | .TYPE_CHANNEL name =>
        if ExemptTargetSet.count self.exemptedchans name then
          (.MOD_RES_PASSTHRU, details, self, [])
        else OnUserPreMessageAction self ServerInstance user msgtarget details f name
      | .TYPE_SERVER _ =>
        OnUserPreMessageAction self ServerInstance user msgtarget details f []

end ModuleFilter

namespace ModuleFilter

/-- The part of `ModuleFilter::OnPreCommand` that follows the choice between
QUIT and PART, from the call of `FilterMatch` on; `self.flags` has been
assigned already. `InspIRCd::Format` and the ban objects read C strings, as in
`OnUserPreMessageAction`. -/
def OnPreCommandMatch (self : ModuleFilter) (ServerInstance : InspIRCd) (command : Str)
    (parameters : List Str) (user : User) (parting : Bool) :
    ModResult × List Str × ModuleFilter × List Effect :=
  let index := if parting then 1 else 0
  match self.FilterMatch ServerInstance user (parameters.getD index []) self.flags with
  | none => (.MOD_RES_PASSTHRU, parameters, self, [])
  | some f =>
    let parameters := parameters.set index "Reason filtered".toList
    if f.action = FA_WARN ∨ f.action = FA_BLOCK ∨ (parting = false ∧ f.action = FA_KILL)
        ∨ f.action = FA_SILENT then
      (.MOD_RES_PASSTHRU, parameters, self, [])
    else
      let matched := " message matched ".toList ++ c_str f.freeform ++ " (".toList
        ++ c_str f.reason ++ ")".toList
      let killed : List Effect :=
        if parting = true ∧ f.action = FA_KILL then
          [Effect.WriteNotice user.nick
              ("*** Your PART message was filtered: ".toList ++ f.reason),
            Effect.QuitUser user.nick ("Filtered: ".toList ++ f.reason)]
        else []
      let glined : List Effect :=
        if f.action = FA_GLINE then
          Effect.WriteGlobalSno 'f' (c_str user.nick ++ " was G-lined because their ".toList
            ++ c_str command ++ matched)
          :: addLine ServerInstance (XLine.GLine ServerInstance.Time f.duration
              (c_str ServerInstance.ServerName) (c_str f.reason) "*".toList user.GetIPString)
        else []
      let zlined : List Effect :=
        if f.action = FA_ZLINE then
          Effect.WriteGlobalSno 'f' (c_str user.nick ++ " was Z-lined because their ".toList
            ++ c_str command ++ matched)
          :: addLine ServerInstance (XLine.ZLine ServerInstance.Time f.duration
              (c_str ServerInstance.ServerName) (c_str f.reason) user.GetIPString)
        else if f.action = FA_SHUN && ServerInstance.shun then
          Effect.WriteGlobalSno 'f' (c_str user.nick ++ " was shunned because their ".toList
            ++ c_str command ++ matched)
          :: addLine ServerInstance (XLine.Shun ServerInstance.Time f.duration
              (c_str ServerInstance.ServerName) (c_str f.reason) user.GetIPString)
        else []
      (.MOD_RES_DENY, parameters, self, killed ++ glined ++ zlined)

/-- Method `ModuleFilter::OnPreCommand`: the result, the parameters and the
module afterwards, and the calls made. -/
def OnPreCommand (self : ModuleFilter) (ServerInstance : InspIRCd) (command : Str)
    (parameters : List Str) (user : User) (validated : Bool) :
    ModResult × List Str × ModuleFilter × List Effect :=
  if validated then
    let self := { self with flags := 0 }
    if command = "QUIT".toList then
      if parameters.length < 1 then (.MOD_RES_PASSTHRU, parameters, self, [])
      else
        OnPreCommandMatch { self with flags := FilterFlags.FLAG_QUIT.toInt } ServerInstance
          command parameters user false
    else if command = "PART".toList then
      if parameters.length < 2 then (.MOD_RES_PASSTHRU, parameters, self, [])
      else if ExemptTargetSet.count self.exemptedchans (parameters.getD 0 []) then
        (.MOD_RES_PASSTHRU, parameters, self, [])
      else
        OnPreCommandMatch { self with flags := FilterFlags.FLAG_PART.toInt } ServerInstance
          command parameters user true
    else (.MOD_RES_PASSTHRU, parameters, self, [])
  else (.MOD_RES_PASSTHRU, parameters, self, [])

/-- Method `ModuleFilter::FreeFilters`: every matcher is deleted and the list
cleared. -/
def FreeFilters (self : ModuleFilter) : ModuleFilter :=
  { self with filters := [] }

/-- The first loop of `ReadFilters`: every rule that came from the
configuration is erased, the others stay in place. (The server notice written
for each erased rule is not modelled.) -/
def eraseConfigFilters : List FilterResult → List FilterResult
  | [] => []
  | filter :: rest =>
    if filter.from_config then eraseConfigFilters rest
    else filter :: eraseConfigFilters rest

/-- The body of the second loop of `ReadFilters` for one `keyword` tag: the
rule is pushed unless its constructor throws. (The log lines are not
modelled.) -/
def ReadKeyword (self : ModuleFilter) (shun : Bool) (tag : KeywordTag) : ModuleFilter :=
  let flgs := if tag.flags.isEmpty then "*".toList else tag.flags
  let fa :=
    match StringToFilterAction shun tag.action with
    | some fa => fa
    | none => FA_NONE
  match FilterResult.new self.RegexEngine tag.pattern tag.reason fa tag.duration flgs true with
  | .ok f => { self with filters := self.filters ++ [f] }
  | .error _ => self

/-- Method `ModuleFilter::ReadFilters`, on the `keyword` tags of the
configuration. -/
def ReadFilters (self : ModuleFilter) (shun : Bool) (keyword : List KeywordTag) : ModuleFilter :=
  keyword.foldl (fun self tag => ReadKeyword self shun tag)
    { self with filters := eraseConfigFilters self.filters }

/-- The first loop of `ReadConfig`, for the `target` of one `exemptfromfilter`
tag. -/
def ReadExempt (self : ModuleFilter) (target : Str) : ModuleFilter :=
  match target with
  | [] => self
  | c :: _ =>
    if c = '#' then
      { self with exemptedchans := ExemptTargetSet.insert self.exemptedchans target }
    else { self with exemptednicks := ExemptTargetSet.insert self.exemptednicks target }

/-- Method `ModuleFilter::ReadConfig`. `services` is the lookup of a provider
name among the services that are loaded, which `SetProvider` performs. (The
server notices are not modelled.) -/
def ReadConfig (self : ModuleFilter) (shun : Bool) (services : Str → Option RegexFactory)
    (config : FilterConfig) : ModuleFilter :=
  let self := { self with exemptedchans := [], exemptednicks := [] }
  let self := config.exemptfromfilter.foldl ReadExempt self
  let newrxengine := config.engine
  let self := { self with notifyuser := config.notifyuser }
  let self := { self with factory := self.RegexEngine.value.map (fun (engine : RegexFactory) => engine.addr) }
  let provider := if newrxengine.isEmpty then "regex".toList else "regex/".toList ++ newrxengine
  let self := { self with RegexEngine := { provider := provider, value := services provider } }
  match self.RegexEngine.value with
  | none => FreeFilters { self with initing := false }
  | some engine =>
    let self :=
      if !self.initing && self.factory != some engine.addr then FreeFilters self else self
    ReadFilters { self with initing := false } shun config.keyword

/-- Method `ModuleFilter::OnUnloadModule`. The module that is unloaded is not
looked at; `self.RegexEngine.value` is what the reference resolves to when the
event arrives. -/
def OnUnloadModule (self : ModuleFilter) : ModuleFilter :=
  match self.RegexEngine.value with
  | none => FreeFilters self
  | some engine =>
    if self.factory != some engine.addr then
      FreeFilters { self with factory := some engine.addr }
    else self

end ModuleFilter

/-- Whether a rule is applicable to the sender and the event and its matcher
matches the comparison text: the formatting-stripped text when the rule has
`stripFormatting`, the raw text otherwise. -/
def ruleHits (ServerInstance : InspIRCd) (user : User) (text : Str) (flgs : Nat)
    (r : FilterResult) : Bool :=
  ModuleFilter.AppliesToMe user r flgs &&
    r.regexMatches (if r.flag_strip_color then ServerInstance.StripColor text else text)

/-- The applicability flag of a rule that corresponds to an event kind. -/
def FilterResult.appliesTo (r : FilterResult) : FilterFlags → Bool
  | .FLAG_PART => r.flag_part_message
  | .FLAG_QUIT => r.flag_quit_message
  | .FLAG_PRIVMSG => r.flag_privmsg
  | .FLAG_NOTICE => r.flag_notice

/-- A second toy backend: every pattern compiles, and matches exactly the
texts equal to it. -/
def otherFactory : RegexFactory :=
  { addr := 2, name := "regex/other".toList,
    Create := fun p => .ok { Matches := fun t => t == p } }

/-- The services of a server on which both toy backends are loaded. -/
def sampleServices (provider : Str) : Option RegexFactory :=
  if provider = "regex/exact".toList then some exactFactory
  else if provider = "regex/other".toList then some otherFactory
  else none

/-- A server without the shun capability, which accepts every ban line and
strips the control bytes of a text. -/
def sampleServer : InspIRCd :=
  { Time := 1000, ServerName := "irc.example.net".toList, shun := false,
    AddLine := fun _ => true, StripColor := fun t => t.filter (fun c => decide (32 ≤ c.toNat)) }

/-- A local sender who is not an operator. -/
def alice : User :=
  { nick := "alice".toList, IsOper := false, IsLocal := true, GetIPString := "192.0.2.7".toList }

/-- The module after the rule `badword` of the first scenario has been added
to the empty store with the flag string `-`. -/
def badwordModule : ModuleFilter :=
  (emptyModule.AddFilter "badword".toList FA_BLOCK "no".toList 0 "-".toList).2

/-- A PRIVMSG with the text `badword`. -/
def badwordMessage : MessageDetails :=
  { type := .MSG_PRIVMSG, text := "badword".toList, echo_original := false }

/-- The rules that `ReadFilters` builds from the `keyword` tags with the
backend `engine`: one rule of origin CONFIG per tag whose pattern compiles, in
the order of the tags. -/
def configRules (RegexEngine : dynamic_reference) (shun : Bool) (keyword : List KeywordTag) :
    List FilterResult :=
  keyword.filterMap (fun tag =>
    match FilterResult.new RegexEngine tag.pattern tag.reason
      (match ModuleFilter.StringToFilterAction shun tag.action with
        | some fa => fa
        | none => FA_NONE)
      tag.duration (if tag.flags.isEmpty then "*".toList else tag.flags) true with
    | .ok f => some f
    | .error _ => none)

/-- A `keyword` tag for the pattern `spam`. -/
def spamTag : KeywordTag :=
  { pattern := "spam".toList, reason := "no spam".toList, action := "block".toList,
    flags := [], duration := 600 }

/-- A configuration that selects the backend `other`, with the given `keyword`
tags. -/
def otherConfig (keyword : List KeywordTag) : FilterConfig :=
  { exemptfromfilter := [], engine := "other".toList, notifyuser := true, keyword := keyword }

/-- The module as its constructor leaves it, before the first `ReadConfig`:
`initing` is set and the reference looks for the provider `regex`. The members
the constructor does not initialise are given fixed values. -/
def freshModule : ModuleFilter :=
  { initing := true, notifyuser := false, factory := none,
    RegexEngine := { provider := "regex".toList, value := none },
    filters := [], flags := 0, exemptedchans := [], exemptednicks := [] }

/-- The module `boundModule`, which is bound to `exactFactory`, after a
configuration reload that selects `otherFactory` and configures no `keyword`
tag, and after the rule `x` has then been added at run time. -/
def switchedModule : ModuleFilter :=
  ((boundModule.ReadConfig false sampleServices (otherConfig [])).AddFilter
    "x".toList FA_BLOCK "r".toList 0 "*".toList).2

/-- The event kind under which a message of a given type is matched. -/
def MessageType.flag : MessageType → FilterFlags
  | .MSG_PRIVMSG => .FLAG_PRIVMSG
  | .MSG_NOTICE => .FLAG_NOTICE

/-- The flag character that names the applicability flag of an event kind. -/
def FilterFlags.flagChar : FilterFlags → Char
  | .FLAG_PART => 'P'
  | .FLAG_QUIT => 'q'
  | .FLAG_PRIVMSG => 'p'
  | .FLAG_NOTICE => 'n'

/-- Whether the destination of a message is exempted: its nickname (for a
private message) or its channel name (for a channel message) equals a member of
the corresponding exemption set once both are folded to lower case. -/
def ModuleFilter.exemptedTarget (self : ModuleFilter) : MessageTarget → Bool
  | .TYPE_USER t =>
    self.exemptednicks.any (fun member =>
      decide (member.map Char.toLower = t.nick.map Char.toLower))
  | .TYPE_CHANNEL name =>
    self.exemptedchans.any (fun member =>
      decide (member.map Char.toLower = name.map Char.toLower))
  | .TYPE_SERVER _ => false

/-- The module of the third scenario: a BLOCK rule for `badword` that applies
to every event, with the nickname `Alice` and the channel `#Help` exempted. -/
def exemptModule : ModuleFilter :=
  { (emptyModule.AddFilter "badword".toList FA_BLOCK "no".toList 0 "*".toList).2 with
    exemptednicks := ["Alice".toList], exemptedchans := ["#Help".toList] }

/-- A module with a KILL rule for `bye` that applies to every event. -/
def killModule : ModuleFilter :=
  (emptyModule.AddFilter "bye".toList FA_KILL "bad".toList 0 "*".toList).2

/-- The provider name that `ReadConfig` gives to `SetProvider` for the
configured `engine`. -/
def providerName (engine : Str) : Str :=
  if engine.isEmpty then "regex".toList else "regex/".toList ++ engine

/-- The reference of a module that is bound to `otherFactory`. -/
def otherReference : dynamic_reference :=
  { provider := "regex/other".toList, value := some otherFactory }

/-! ## Administration and replication -/

/-- The results of a command handler (`CmdResult`). -/
inductive CmdResult where
  | CMD_FAILURE
  | CMD_SUCCESS
  | CMD_INVALID
  deriving DecidableEq, Repr

namespace ModuleFilter

/-- The loop of `ModuleFilter::DeleteFilter`: the list after the first rule
with the label has been erased, `none` when the loop ends without finding
one. -/
def DeleteFilterLoop (freeform : Str) : List FilterResult → Option (List FilterResult)
  | [] => none
  | i :: rest =>
    if i.freeform = freeform then some rest
    else
      match DeleteFilterLoop freeform rest with
      | some erased => some (i :: erased)
      | none => none

/-- Method `ModuleFilter::DeleteFilter`: the returned boolean and the module
afterwards. -/
def DeleteFilter (self : ModuleFilter) (freeform : Str) : Bool × ModuleFilter :=
  match DeleteFilterLoop freeform self.filters with
  | some erased => (true, { self with filters := erased })
  | none => (false, self)

/-- The loop of `ModuleFilter::OnSyncNetwork`: the key and the value of every
`server.SendMetaData` call, in order. -/
def OnSyncNetworkLoop : List FilterResult → List (Str × Str)
  | [] => []
  | filter :: rest =>
    if filter.from_config then OnSyncNetworkLoop rest
    else ("filter".toList, EncodeFilter filter) :: OnSyncNetworkLoop rest

/-- Method `ModuleFilter::OnSyncNetwork`: the metadata records sent to the
server, and the module afterwards. -/
def OnSyncNetwork (self : ModuleFilter) : List (Str × Str) × ModuleFilter :=
  (OnSyncNetworkLoop self.filters, self)

/-- Method `ModuleFilter::OnDecodeMetaData`. `target` is the address of the
object the record is about, `none` for `NULL`. A `ModuleException` of
`DecodeFilter` is caught (the debug log line is not modelled). -/
def OnDecodeMetaData (self : ModuleFilter) (shun : Bool) (target : Option Nat)
    (extname extdata : Str) : ModuleFilter :=
  if target = none ∧ extname = "filter".toList then
    match DecodeFilter shun extdata with
    | .ok data =>
      (self.AddFilter data.freeform data.action data.reason data.duration data.GetFlags).2
    | .error _ => self
  else self

/-- The loop of `FilterMatch` once more, with a count of the calls of
`InspIRCd::StripColor` it makes: the returned rule, `stripped_text` and the
count afterwards. -/
def FilterMatchCount (ServerInstance : InspIRCd) (user : User) (text : Str) (flgs : Nat) :
    List FilterResult → Str → Nat → Option FilterResult × Str × Nat
  | [], stripped_text, calls => (none, stripped_text, calls)
  | filter :: rest, stripped_text, calls =>
    if !AppliesToMe user filter flgs then
      FilterMatchCount ServerInstance user text flgs rest stripped_text calls
    else
      let stripped : Str × Nat :=
        if filter.flag_strip_color && stripped_text.isEmpty then
          (ServerInstance.StripColor text, calls + 1)
        else (stripped_text, calls)
      if filter.regexMatches (if filter.flag_strip_color then stripped.1 else text) then
        (some filter, stripped.1, stripped.2)
      else FilterMatchCount ServerInstance user text flgs rest stripped.1 stripped.2

end ModuleFilter

/-- Method `CommandFilter::Handle`, on the module that created the command:
the result, the module afterwards and the calls made. `Duration` stands for
`InspIRCd::Duration`, which gives the seconds a duration text denotes, or
fails. -/
def CommandFilter.Handle (creator : ModuleFilter) (ServerInstance : InspIRCd)
    (Duration : Str → Option Nat) (user : User) (parameters : List Str) :
    CmdResult × ModuleFilter × List Effect :=
  let p0 := parameters.getD 0 []
  let p1 := parameters.getD 1 []
  if parameters.length = 1 then
    match creator.DeleteFilter p0 with
    | (true, me) =>
      (.CMD_SUCCESS, me,
        [Effect.WriteNotice user.nick ("*** Removed filter '".toList ++ p0 ++ "'".toList),
          Effect.WriteToSnoMask (if user.IsLocal then 'f' else 'F')
            ("FILTER: ".toList ++ user.nick ++ " removed filter '".toList ++ p0 ++ "'".toList)])
    | (false, me) =>
      (.CMD_FAILURE, me,
        [Effect.WriteNotice user.nick ("*** Filter '".toList ++ p0
          ++ "' not found in list, try /stats s.".toList)])
  else if parameters.length ≥ 4 then
    let freeform := p0
    let flags := parameters.getD 2 []
    match ModuleFilter.StringToFilterAction ServerInstance.shun p1 with
    | none =>
      (.CMD_FAILURE, creator,
        [Effect.WriteNotice user.nick ("*** Invalid filter type '".toList ++ p1 ++
          (if ServerInstance.shun then
            "'. Supported types are 'gline', 'zline', 'none', 'warn', 'block', 'silent', 'kill', and 'shun'.".toList
          else
            "'. Supported types are 'gline', 'zline', 'none', 'warn', 'block', 'silent', and 'kill'.".toList))])
    | some type =>
      let timed : Except (List Effect) (Nat × Nat) :=
        if type = FA_GLINE ∨ type = FA_ZLINE ∨ type = FA_SHUN then
          if parameters.length ≥ 5 then
            match Duration (parameters.getD 3 []) with
            | none => .error [Effect.WriteNotice user.nick "*** Invalid duration for filter".toList]
            | some duration => .ok (4, duration)
          else
            .error [Effect.WriteNotice user.nick
              ("*** Not enough parameters: When setting a '".toList ++ p1
                ++ "' type filter, a duration must be specified as the third parameter.".toList)]
        else .ok (3, 0)
      match timed with
      | .error notices => (.CMD_FAILURE, creator, notices)
      | .ok (reasonindex, duration) =>
        let reason := parameters.getD reasonindex []
        match creator.AddFilter freeform type reason duration flags with
        | ((true, _), me) =>
          (.CMD_SUCCESS, me,
            [Effect.WriteNotice user.nick ("*** Added filter '".toList ++ freeform
                ++ "', type '".toList ++ p1 ++ "'".toList
                ++ (if duration ≠ 0 then ", duration ".toList ++ parameters.getD 3 [] else [])
                ++ ", flags '".toList ++ flags ++ "', reason: '".toList ++ reason ++ "'".toList),
              Effect.WriteToSnoMask (if user.IsLocal then 'f' else 'F')
                ("FILTER: ".toList ++ user.nick ++ " added filter '".toList ++ freeform
                  ++ "', type '".toList ++ p1 ++ "', ".toList
                  ++ (if duration ≠ 0 then "duration ".toList ++ parameters.getD 3 []
                      ++ ", ".toList else [])
                  ++ "flags '".toList ++ flags ++ "', reason: ".toList ++ reason)])
        | ((false, second), me) =>
          (.CMD_FAILURE, me,
            [Effect.WriteNotice user.nick ("*** Filter '".toList ++ freeform
              ++ "' could not be added: ".toList ++ second)])
  else (.CMD_FAILURE, creator, [Effect.WriteNotice user.nick "*** Not enough parameters.".toList])

/-- The ban lines a list of calls asks the X-line manager to add, in order. -/
def banRequests : List Effect → List XLine
  | [] => []
  | Effect.AddLine line :: rest => line :: banRequests rest
  | _ :: rest => banRequests rest

/-- The server notices to operators in a list of calls, in order. -/
def operNotices : List Effect → List Str
  | [] => []
  | Effect.WriteGlobalSno _ text :: rest => text :: operNotices rest
  | _ :: rest => operNotices rest

/-- The name `OnUserPreMessage` uses for the destination of a message: the
nickname, the channel name, or nothing for a server target. -/
def MessageTarget.targetName : MessageTarget → Str
  | .TYPE_USER t => t.nick
  | .TYPE_CHANNEL name => name
  | .TYPE_SERVER _ => []

/-- The rejection a sender gets for a blocked message: the numeric
`ERR_CANNOTSENDTOCHAN` for a channel message, which holds the reason as a C
string, and a notice otherwise, which holds the whole reason. `opers` is the
wording that goes with BLOCK, which mentions the operators. -/
def rejection (opers : Bool) (user : User) (msgtarget : MessageTarget) (reason : Str) : Effect :=
  match msgtarget with
  | .TYPE_CHANNEL name =>
    Effect.WriteNumeric user.nick ERR_CANNOTSENDTOCHAN name
      ((if opers then "Message to channel blocked and opers notified (".toList
        else "Message to channel blocked (".toList) ++ c_str reason ++ ")".toList)
  | _ =>
    Effect.WriteNotice user.nick ("Your message to ".toList ++ msgtarget.targetName
      ++ (if opers then " was blocked and opers notified: ".toList
          else " was blocked: ".toList) ++ reason)

/-- The log line that ends the enforcement on a message. -/
def filteredLog (user : User) (msgtarget : MessageTarget) (f : FilterResult) : Effect :=
  Effect.Log (user.nick ++ " had their message filtered, target was ".toList
    ++ msgtarget.targetName ++ ": ".toList ++ f.reason ++ " Action: ".toList
    ++ ModuleFilter.FilterActionToString f.action)

/-- The three actions that carry a duration. -/
def FilterAction.timed : FilterAction → Bool
  | FA_GLINE => true
  | FA_ZLINE => true
  | FA_SHUN => true
  | _ => false

/-- A module with a GLINE rule of 600 seconds for the text `spam bot`, which
applies to every event. -/
def glineModule : ModuleFilter :=
  (emptyModule.AddFilter "spam bot".toList FA_GLINE "spam bot".toList 600 "*".toList).2

/-- A module with two rules that have `stripFormatting`, for the texts `a` and
`b`. -/
def stripModule : ModuleFilter :=
  ((emptyModule.AddFilter "a".toList FA_BLOCK "r".toList 0 "*".toList).2.AddFilter
    "b".toList FA_BLOCK "r".toList 0 "*".toList).2

/-- A text made of one formatting byte (bold), which `sampleServer` strips to
the empty text. -/
def boldOnly : Str := [Char.ofNat 2]

/-- A duration reader for the samples: decimal seconds, and nothing else. -/
def sampleDuration (s : Str) : Option Nat :=
  match readDigits s 0 false with
  | (v, true) => if s.all (fun c => (digitValue c).isSome) then some v else none
  | (_, false) => none

/-- The ban lines the action of a matched rule asks for: a G-line on `*` at
the sender's address for GLINE, a Z-line on the address for ZLINE, a shun on the
address for SHUN while the shun capability is available, and none otherwise;
each with the rule's duration and, as C strings, the server name and the rule's
reason. -/
def requestedBans (ServerInstance : InspIRCd) (user : User) (f : FilterResult) : List XLine :=
  match f.action with
  | FA_GLINE =>
    [XLine.GLine ServerInstance.Time f.duration (c_str ServerInstance.ServerName)
      (c_str f.reason) "*".toList user.GetIPString]
  | FA_ZLINE =>
    [XLine.ZLine ServerInstance.Time f.duration (c_str ServerInstance.ServerName)
      (c_str f.reason) user.GetIPString]
  | FA_SHUN =>
    if ServerInstance.shun then
      [XLine.Shun ServerInstance.Time f.duration (c_str ServerInstance.ServerName)
        (c_str f.reason) user.GetIPString]
    else []
  | _ => []

/-- The text that a numeric or a notice carries to a user. -/
def Effect.userText : Effect → Str
  | .WriteNumeric _ _ _ text => text
  | .WriteNotice _ text => text
  | _ => []

/-- A module with a rule of action NONE for the text `badword`, which applies
to every event. -/
def noneModule : ModuleFilter :=
  (emptyModule.AddFilter "badword".toList FA_NONE "no".toList 0 "*".toList).2

/-- A module with a BLOCK rule for the text `badword`, which applies to every
event; sender notification is on. -/
def blockModule : ModuleFilter :=
  (emptyModule.AddFilter "badword".toList FA_BLOCK "no".toList 0 "*".toList).2

/-- Whether a backend compiles a pattern. -/
def compiles (engine : RegexFactory) (pattern : Str) : Bool :=
  match engine.Create pattern with
  | .ok _ => true
  | .error _ => false

/-- A `keyword` tag whose pattern is empty, which `exactFactory` does not
compile. -/
def emptyTag : KeywordTag :=
  { pattern := [], reason := "nothing".toList, action := "block".toList, flags := [],
    duration := 600 }

/-- The parameters of `FILTER x block * 60 :spam`: the five-parameter form with
an action that carries no duration. -/
def blockFiveParameters : List Str :=
  ["x".toList, "block".toList, "*".toList, "60".toList, "spam".toList]

/-- The parameters of `FILTER x gline * 60 :spam`. -/
def glineFiveParameters : List Str :=
  ["x".toList, "gline".toList, "*".toList, "60".toList, "spam".toList]

/-- A reason that holds a zero byte between `a` and `b`. -/
def nulReason : Str := ['a', NUL, 'b']

/-- A module with a BLOCK rule for `badword` whose reason is `nulReason`. -/
def nulReasonModule : ModuleFilter :=
  (emptyModule.AddFilter "badword".toList FA_BLOCK nulReason 0 "*".toList).2

/-- A module with a GLINE rule of 600 seconds for `spam bot` whose reason is
`nulReason`. -/
def nulGlineModule : ModuleFilter :=
  (emptyModule.AddFilter "spam bot".toList FA_GLINE nulReason 600 "*".toList).2

/-- A PRIVMSG with the text `spam bot`. -/
def spamMessage : MessageDetails :=
  { type := .MSG_PRIVMSG, text := "spam bot".toList, echo_original := false }

/-- The module `glineModule` with the channel `#Help` exempted. -/
def glineExemptModule : ModuleFilter :=
  { glineModule with exemptedchans := ["#Help".toList] }

/-- The module `killModule` with the channel `#Help` exempted. -/
def killExemptModule : ModuleFilter :=
  { killModule with exemptedchans := ["#Help".toList] }

/-! ## The CTCP-blocking module (`src/modules/m_noctcp.cpp`) -/

/-- Modelled from the spec: the numeric `ERR_CANTSENDTOUSER` is declared
outside src/; the spec does not name it. It is given the value InspIRCd uses
for it. -/
def ERR_CANTSENDTOUSER : Nat := 531

/-- What `ModuleNoCTCP::OnUserPreMessage` asks of the module's members and of
the core, none of which is under src/: `IsCTCP` is `details.IsCTCP(ctcpname)`
(the CTCP name, `none` when the message is not a CTCP); `exemption` is
`CheckExemption::Call(exemptionprov, user, c, "noctcp")` for the channel named;
`extbanCheck` is `c->GetExtBanStatus(user, 'C').check(def)`; `nc` tells whether
the channel has mode `+C` and `ncu` whether the user has mode `+T`. -/
structure ModuleNoCTCP where
  IsCTCP : MessageDetails → Option Str
  exemption : User → Str → ModResult
  extbanCheck : User → Str → Bool → Bool
  nc : Str → Bool
  ncu : User → Bool

/-- Method `ModuleNoCTCP::OnUserPreMessage`: the result and the calls made.
`irc::equals` is the case-insensitive comparison `equalsci`. -/
def ModuleNoCTCP.OnUserPreMessage (self : ModuleNoCTCP) (user : User) (target : MessageTarget)
    (details : MessageDetails) : ModResult × List Effect :=
  if !user.IsLocal then (.MOD_RES_PASSTHRU, [])
  else
    match self.IsCTCP details with
    | none => (.MOD_RES_PASSTHRU, [])
    | some ctcpname =>
      if equalsci ctcpname "ACTION".toList then (.MOD_RES_PASSTHRU, [])
      else
        match target with
        | .TYPE_CHANNEL name =>
          if self.exemption user name = .MOD_RES_ALLOW then (.MOD_RES_PASSTHRU, [])
          else if !self.extbanCheck user name (!self.nc name) then
            (.MOD_RES_DENY,
              [Effect.WriteNumeric user.nick ERR_CANNOTSENDTOCHAN name
                "Can't send CTCP to channel (+C set)".toList])
          else (.MOD_RES_PASSTHRU, [])
        | .TYPE_USER u =>
          if self.ncu u then
            (.MOD_RES_PASSTHRU,
              [Effect.WriteNumeric user.nick ERR_CANTSENDTOUSER u.nick
                "Can't send CTCP to user (+T set)".toList])
          else (.MOD_RES_PASSTHRU, [])
        | .TYPE_SERVER _ => (.MOD_RES_PASSTHRU, [])

/-- Method `ModuleNoCTCP::GetVersion`: the description of the module. -/
def ModuleNoCTCP.GetVersion : Str :=
  "Provides user mode +T and channel mode +C to block CTCPs".toList

/-- A reading of CTCP messages for the samples: a text that starts with the
byte 1 is a CTCP, whose name runs up to the next space or byte 1. -/
def sampleIsCTCP (details : MessageDetails) : Option Str :=
  match details.text with
  | c :: rest =>
    if c = Char.ofNat 1 then some (rest.takeWhile (fun x => x != ' ' && x != Char.ofNat 1))
    else none
  | [] => none

/-- A CTCP-blocking module on a server where no channel is exempted or has
`+C`, and exactly the user `bob` has `+T`. -/
def sampleNoCTCP : ModuleNoCTCP :=
  { IsCTCP := sampleIsCTCP, exemption := fun _ _ => .MOD_RES_PASSTHRU,
    extbanCheck := fun _ _ allowed => allowed, nc := fun _ => false,
    ncu := fun u => u.nick == "bob".toList }

/-- The user `bob`, who has `+T` on the sample server. -/
def bob : User :=
  { nick := "bob".toList, IsOper := false, IsLocal := true, GetIPString := "192.0.2.8".toList }

/-- The CTCP `VERSION` as a PRIVMSG. -/
def versionRequest : MessageDetails :=
  { type := .MSG_PRIVMSG, text := [Char.ofNat 1] ++ "VERSION".toList ++ [Char.ofNat 1],
    echo_original := false }

/-! ## Auxiliary facts -/

section Auxiliary

open FilterAction ModuleFilter

theorem digitValue_digitChar (d : Nat) (h : d < 10) : digitValue (Nat.digitChar d) = some d := by
  interval_cases d <;> decide

theorem digitChar_ne_space (d : Nat) (h : d < 10) : Nat.digitChar d ≠ ' ' := by
  interval_cases d <;> decide

theorem readDigits_toDigitsCore (fuel : Nat) :
    ∀ (n : Nat) (ds : Str) (seen : Bool), n < fuel →
      readDigits (Nat.toDigitsCore 10 fuel n ds) 0 seen = readDigits ds n true := by
  induction fuel with
  | zero => intro n ds seen h; omega
  | succ fuel ih =>
    intro n ds seen h
    have hd : digitValue (Nat.digitChar (n % 10)) = some (n % 10) :=
      digitValue_digitChar _ (Nat.mod_lt _ (by decide))
    by_cases h0 : n / 10 = 0
    · have hn : n % 10 = n := by omega
      rw [hn] at hd
      simp [Nat.toDigitsCore, h0, readDigits, hd, hn]
    · have hlt : n / 10 < fuel := by omega
      have hn : 10 * (n / 10) + n % 10 = n := by omega
      simp [Nat.toDigitsCore, h0, ih (n / 10) _ seen hlt, readDigits, hd, hn]

theorem ConvToNum_ConvToStr (n : Nat) (h : n < ULONG_LIMIT) : ConvToNum (ConvToStr n) = n := by
  have := readDigits_toDigitsCore (n + 1) n [] false (by omega)
  simp [ConvToNum, ConvToStr, Nat.toDigits, this, readDigits, h]

theorem toDigitsCore_no_space (fuel : Nat) :
    ∀ (n : Nat) (ds : Str), ' ' ∉ ds → ' ' ∉ Nat.toDigitsCore 10 fuel n ds := by
  induction fuel with
  | zero => intro n ds h; simpa [Nat.toDigitsCore] using h
  | succ fuel ih =>
    intro n ds h
    have hd : ' ' ≠ Nat.digitChar (n % 10) :=
      fun e => digitChar_ne_space _ (Nat.mod_lt _ (by decide)) e.symm
    have hc : ' ' ∉ Nat.digitChar (n % 10) :: ds := by
      simp only [List.mem_cons, not_or]; exact ⟨hd, h⟩
    by_cases h0 : n / 10 = 0
    · simpa [Nat.toDigitsCore, h0] using hc
    · simpa [Nat.toDigitsCore, h0] using ih (n / 10) _ hc

theorem ConvToStr_no_space (n : Nat) : ' ' ∉ ConvToStr n :=
  toDigitsCore_no_space (n + 1) n [] (by simp)

theorem toDigitsCore_ne_nil (fuel : Nat) :
    ∀ (n : Nat) (ds : Str), ds ≠ [] → Nat.toDigitsCore 10 fuel n ds ≠ [] := by
  induction fuel with
  | zero => intro n ds h; simpa [Nat.toDigitsCore] using h
  | succ fuel ih =>
    intro n ds _
    by_cases h0 : n / 10 = 0
    · simp [Nat.toDigitsCore, h0]
    · simpa [Nat.toDigitsCore, h0] using ih (n / 10) (Nat.digitChar (n % 10) :: ds) (by simp)

theorem ConvToStr_ne_nil (n : Nat) : ConvToStr n ≠ [] := by
  unfold ConvToStr Nat.toDigits
  by_cases h0 : n / 10 = 0
  · simp [Nat.toDigitsCore, h0]
  · simpa [Nat.toDigitsCore, h0] using
      toDigitsCore_ne_nil n (n / 10) [Nat.digitChar (n % 10)] (by simp)

theorem c_str_of_not_mem (s : Str) (h : NUL ∉ s) : c_str s = s := by
  unfold c_str
  rw [List.takeWhile_eq_self_iff]
  intro c hc
  simp only [bne_iff_ne, ne_eq]
  intro e
  exact h (e ▸ hc)

theorem c_str_initial (s : Str) : List.IsPrefix (c_str s) s :=
  List.takeWhile_prefix _

end Auxiliary

section Codec

open FilterAction ModuleFilter FilterResult

theorem escapeSpaces_eq_map (l : Str) :
    escapeSpaces l = l.map (fun c => if c = ' ' then BEL else c) := by
  induction l with
  | nil => rfl
  | cons c l ih => simp [escapeSpaces, ih]

theorem escapeSpaces_length (l : Str) : (escapeSpaces l).length = l.length := by
  induction l with
  | nil => rfl
  | cons c l ih => simp [escapeSpaces, ih]

theorem escapeSpaces_no_space (l : Str) : ' ' ∉ escapeSpaces l := by
  induction l with
  | nil => simp [escapeSpaces]
  | cons c l ih =>
    simp only [escapeSpaces, List.mem_cons, not_or]
    refine ⟨?_, ih⟩
    by_cases hc : c = ' '
    · simp only [hc, if_true]; decide
    · simp only [hc, if_false]; exact fun e => hc e.symm

theorem unescapeSpaces_escapeSpaces (l : Str) (h : BEL ∉ l) :
    unescapeSpaces (escapeSpaces l) = l := by
  induction l with
  | nil => rfl
  | cons c l ih =>
    simp only [List.mem_cons, not_or] at h
    have hc : c ≠ BEL := fun e => h.1 e.symm
    by_cases hs : c = ' '
    · subst hs
      simp [escapeSpaces, unescapeSpaces, ih h.2]
    · simp [escapeSpaces, unescapeSpaces, ih h.2, hs, hc]

/-- Reading a middle field that is followed by a single space and by a field
that does not start with a space. -/
theorem GetMiddle_field (a b : Str) (ha : ' ' ∉ a) (hb : ∀ c ∈ b.head?, c ≠ ' ') :
    tokenstream.GetMiddle { rest := a ++ ' ' :: b } = (a, { rest := b }) := by
  have hne : a ++ ' ' :: b ≠ [] := by simp
  have htake : (a ++ ' ' :: b).takeWhile (fun c => c != ' ') = a := by
    rw [List.takeWhile_append_of_pos (fun c hc => by
      have : c ≠ ' ' := fun e => ha (e ▸ hc)
      simpa using this)]
    simp
  have hdrop : (a ++ ' ' :: b).dropWhile (fun c => c != ' ') = ' ' :: b := by
    rw [List.dropWhile_append_of_pos (fun c hc => by
      have : c ≠ ' ' := fun e => ha (e ▸ hc)
      simpa using this)]
    simp
  have hskip : (' ' :: b).dropWhile (fun c => c == ' ') = b := by
    cases b with
    | nil => simp
    | cons c b =>
      have : c ≠ ' ' := hb c (by simp)
      simp [List.dropWhile_cons, this]
  unfold tokenstream.GetMiddle
  split
  · rename_i h; exact absurd h hne
  · simp only [htake, hdrop, hskip]

theorem FilterActionToString_no_space (fa : FilterAction) : ' ' ∉ FilterActionToString fa := by
  cases fa <;> decide

theorem StringToFilterAction_FilterActionToString (shun : Bool) (fa : FilterAction)
    (h : fa = FA_SHUN → shun = true) :
    StringToFilterAction shun (FilterActionToString fa) = some fa := by
  cases fa <;> cases shun <;> first | rfl | simp at h

end Codec

section RoundTrip

open FilterAction ModuleFilter FilterResult

theorem GetFlags_no_space (r : FilterResult) : ' ' ∉ r.GetFlags := by
  obtain ⟨rx, ff, rs, a, d, fc, b1, b2, b3, b4, b5, b6⟩ := r
  cases b1 <;> cases b2 <;> cases b3 <;> cases b4 <;> cases b5 <;> cases b6 <;> simp [GetFlags]

theorem GetFlags_ne_nil (r : FilterResult) : r.GetFlags ≠ [] := by
  obtain ⟨rx, ff, rs, a, d, fc, b1, b2, b3, b4, b5, b6⟩ := r
  cases b1 <;> cases b2 <;> cases b3 <;> cases b4 <;> cases b5 <;> cases b6 <;> simp [GetFlags]

theorem FillFlags_GetFlags (self r : FilterResult) (h : r.anyFlag = true) :
    self.FillFlags r.GetFlags =
      (NUL, { self with
        flag_no_opers := r.flag_no_opers, flag_part_message := r.flag_part_message,
        flag_quit_message := r.flag_quit_message, flag_privmsg := r.flag_privmsg,
        flag_notice := r.flag_notice, flag_strip_color := r.flag_strip_color }) := by
  obtain ⟨rx, ff, rs, a, d, fc, b1, b2, b3, b4, b5, b6⟩ := r
  cases b1 <;> cases b2 <;> cases b3 <;> cases b4 <;> cases b5 <;> cases b6 <;>
    first | rfl | simp [FilterResult.anyFlag] at h

theorem head_ne_space (a b : Str) (ha : ' ' ∉ a) (hne : a ≠ []) :
    ∀ c ∈ (a ++ b).head?, c ≠ ' ' := by
  cases a with
  | nil => exact absurd rfl hne
  | cons x a =>
    intro c hc e
    simp at hc
    exact ha (by rw [hc, e]; exact List.mem_cons_self _ _)

theorem EncodeFilter_eq (r : FilterResult) :
    EncodeFilter r =
      escapeSpaces r.freeform ++ ' ' :: (FilterActionToString r.action ++ ' ' ::
        (r.GetFlags ++ ' ' :: (ConvToStr r.duration ++ ' ' :: ':' :: r.reason))) := by
  simp [EncodeFilter]

theorem FilterActionToString_ne_nil (fa : FilterAction) : FilterActionToString fa ≠ [] := by
  cases fa <;> decide

/-- The decoder undoes the encoder on every rule the wire format can carry. -/
theorem DecodeFilter_EncodeFilter (shun : Bool) (r : FilterResult)
    (hbel : BEL ∉ r.freeform) (hflag : r.anyFlag = true)
    (hact : r.action = FA_SHUN → shun = true) (hdur : r.duration < ULONG_LIMIT) :
    DecodeFilter shun (EncodeFilter r) = .ok { r with regex := none, from_config := false } := by
  have t1 := GetMiddle_field (escapeSpaces r.freeform)
    (FilterActionToString r.action ++ ' ' ::
      (r.GetFlags ++ ' ' :: (ConvToStr r.duration ++ ' ' :: ':' :: r.reason)))
    (escapeSpaces_no_space _)
    (head_ne_space _ _ (FilterActionToString_no_space _) (FilterActionToString_ne_nil _))
  have t2 := GetMiddle_field (FilterActionToString r.action)
    (r.GetFlags ++ ' ' :: (ConvToStr r.duration ++ ' ' :: ':' :: r.reason))
    (FilterActionToString_no_space _)
    (head_ne_space _ _ (GetFlags_no_space _) (GetFlags_ne_nil _))
  have t3 := GetMiddle_field r.GetFlags (ConvToStr r.duration ++ ' ' :: ':' :: r.reason)
    (GetFlags_no_space _)
    (head_ne_space _ _ (ConvToStr_no_space _) (ConvToStr_ne_nil _))
  have t4 := GetMiddle_field (ConvToStr r.duration) (':' :: r.reason)
    (ConvToStr_no_space _) (by simp)
  have t5 : tokenstream.GetTrailing { rest := ':' :: r.reason } = (r.reason, { rest := [] }) := by
    simp [tokenstream.GetTrailing]
  unfold DecodeFilter
  rw [EncodeFilter_eq]
  simp only [t1, t2, t3, t4, t5, StringToFilterAction_FilterActionToString shun _ hact,
    FillFlags_GetFlags _ r hflag, ConvToNum_ConvToStr _ hdur,
    unescapeSpaces_escapeSpaces _ hbel]
  simp [FilterResult.default]

end RoundTrip

section CaseFolding

theorem toNat_ofNat_small (n : Nat) (h : n < 55296) : (Char.ofNat n).toNat = n := by
  have hv : n.isValidChar := Or.inl h
  unfold Char.ofNat
  rw [dif_pos hv]
  rfl

theorem toLower_eq_iff (c d : Char) (hd : 97 ≤ d.toNat ∧ d.toNat ≤ 122) :
    c.toLower = d ↔ c = d ∨ c = d.toUpper := by
  have hdl : d.toLower = d := by
    have : ¬ (65 ≤ d.toNat ∧ d.toNat ≤ 90) := by omega
    simp [Char.toLower, this]
  have hdu : d.toUpper = Char.ofNat (d.toNat - 32) := by
    simp [Char.toUpper, hd]
  constructor
  · intro h
    by_cases hu : 65 ≤ c.toNat ∧ c.toNat ≤ 90
    · right
      have h1 : Char.ofNat (c.toNat + 32) = d := by
        simpa [Char.toLower, hu] using h
      have h2 : d.toNat = c.toNat + 32 := by
        rw [← h1]
        exact toNat_ofNat_small _ (by omega)
      rw [hdu, h2, Nat.add_sub_cancel, Char.ofNat_toNat]
    · left
      simpa [Char.toLower, hu] using h
  · rintro (rfl | rfl)
    · exact hdl
    · have h3 : (Char.ofNat (d.toNat - 32)).toNat = d.toNat - 32 :=
        toNat_ofNat_small _ (by omega)
      have hu : 65 ≤ (Char.ofNat (d.toNat - 32)).toNat ∧ (Char.ofNat (d.toNat - 32)).toNat ≤ 90 := by
        omega
      rw [hdu]
      simp only [Char.toLower, ge_iff_le, hu, and_self, if_true]
      rw [h3]
      have : d.toNat - 32 + 32 = d.toNat := by omega
      rw [this, Char.ofNat_toNat]

end CaseFolding

section Actions

open FilterAction ModuleFilter FilterResult

theorem toLower_of_lower (d : Char) (hd : 97 ≤ d.toNat ∧ d.toNat ≤ 122) : d.toLower = d := by
  have : ¬ (65 ≤ d.toNat ∧ d.toNat ≤ 90) := by omega
  simp [Char.toLower, this]

theorem isCaseVariant_iff_map (name : Str) (hlow : lowerLetters name) :
    ∀ s : Str, isCaseVariant s name = true ↔ s.map Char.toLower = name := by
  induction name with
  | nil => intro s; cases s <;> simp [isCaseVariant]
  | cons d ds ih =>
    intro s
    have hd := hlow d (List.mem_cons_self _ _)
    have hds : lowerLetters ds := fun x hx => hlow x (List.mem_cons_of_mem _ hx)
    cases s with
    | nil => simp [isCaseVariant]
    | cons c cs =>
      simp only [isCaseVariant, Bool.and_eq_true, Bool.or_eq_true, beq_iff_eq, List.map_cons,
        List.cons.injEq, ih hds cs, toLower_eq_iff c d hd]

theorem equalsci_iff_map (name : Str) (hlow : lowerLetters name) :
    ∀ s : Str, equalsci s name = true ↔ s.map Char.toLower = name := by
  induction name with
  | nil => intro s; cases s <;> simp [equalsci]
  | cons d ds ih =>
    intro s
    have hd := hlow d (List.mem_cons_self _ _)
    have hds : lowerLetters ds := fun x hx => hlow x (List.mem_cons_of_mem _ hx)
    cases s with
    | nil => simp [equalsci]
    | cons c cs =>
      have step : equalsci (c :: cs) (d :: ds) = (c.toLower == d.toLower && equalsci cs ds) := by
        simp only [equalsci, List.length_cons, List.zipWith_cons_cons, List.all_cons, id_eq]
        cases hl : (cs.length == ds.length) <;> cases hc : (c.toLower == d.toLower) <;>
          simp_all
      rw [step]
      simp only [Bool.and_eq_true, beq_iff_eq, List.map_cons, List.cons.injEq, ih hds cs,
        toLower_of_lower d hd]

theorem equalsci_eq_decide (name : Str) (hlow : lowerLetters name) (s : Str) :
    equalsci s name = decide (s.map Char.toLower = name) := by
  rw [Bool.eq_iff_iff]
  simpa using equalsci_iff_map name hlow s

theorem lowerLetters_name (fa : FilterAction) : lowerLetters (FilterActionToString fa) := by
  cases fa <;> (unfold lowerLetters; decide)

theorem StringToFilterAction_iff (shun : Bool) (s : Str) (a : FilterAction) :
    StringToFilterAction shun s = some a ↔
      s.map Char.toLower = FilterActionToString a ∧ (a = FA_SHUN → shun = true) := by
  have e1 := equalsci_eq_decide _ (lowerLetters_name FA_GLINE) s
  have e2 := equalsci_eq_decide _ (lowerLetters_name FA_ZLINE) s
  have e3 := equalsci_eq_decide _ (lowerLetters_name FA_WARN) s
  have e4 := equalsci_eq_decide _ (lowerLetters_name FA_BLOCK) s
  have e5 := equalsci_eq_decide _ (lowerLetters_name FA_SILENT) s
  have e6 := equalsci_eq_decide _ (lowerLetters_name FA_KILL) s
  have e7 := equalsci_eq_decide _ (lowerLetters_name FA_SHUN) s
  have e8 := equalsci_eq_decide _ (lowerLetters_name FA_NONE) s
  simp only [FilterActionToString] at e1 e2 e3 e4 e5 e6 e7 e8
  unfold StringToFilterAction
  rw [e1, e2, e3, e4, e5, e6, e7, e8]
  generalize s.map Char.toLower = t
  constructor
  · intro hres
    split_ifs at hres with h1 h2 h3 h4 h5 h6 h7 h8
    · cases hres; exact ⟨of_decide_eq_true h1, by simp⟩
    · cases hres; exact ⟨of_decide_eq_true h2, by simp⟩
    · cases hres; exact ⟨of_decide_eq_true h3, by simp⟩
    · cases hres; exact ⟨of_decide_eq_true h4, by simp⟩
    · cases hres; exact ⟨of_decide_eq_true h5, by simp⟩
    · cases hres; exact ⟨of_decide_eq_true h6, by simp⟩
    · cases hres
      rw [Bool.and_eq_true] at h7
      exact ⟨of_decide_eq_true h7.1, fun _ => h7.2⟩
    · cases hres; exact ⟨of_decide_eq_true h8, by simp⟩
  · rintro ⟨ht, hs⟩
    subst ht
    cases a
    case FA_SHUN => rw [hs rfl]; rfl
    all_goals rfl

end Actions

section Flags

open FilterAction ModuleFilter FilterResult

theorem FillFlagsLoop_fst (fl : Str) :
    ∀ self : FilterResult, (FillFlagsLoop self fl).1 = (firstUnrecognised fl).getD NUL := by
  induction fl with
  | nil => intro self; rfl
  | cons n rest ih =>
    intro self
    unfold FillFlagsLoop
    split_ifs with h1 h2 h3 h4 h5 h6 h7
    all_goals first
      | (rw [ih]; simp [firstUnrecognised, recognisedFlag, *])
      | simp [firstUnrecognised, recognisedFlag, *]

theorem FillFlagsLoop_fields (fl : Str) :
    ∀ self : FilterResult,
      (FillFlagsLoop self fl).2.regex = self.regex ∧
      (FillFlagsLoop self fl).2.freeform = self.freeform ∧
      (FillFlagsLoop self fl).2.reason = self.reason ∧
      (FillFlagsLoop self fl).2.action = self.action ∧
      (FillFlagsLoop self fl).2.duration = self.duration ∧
      (FillFlagsLoop self fl).2.from_config = self.from_config := by
  induction fl with
  | nil => intro self; exact ⟨rfl, rfl, rfl, rfl, rfl, rfl⟩
  | cons n rest ih =>
    intro self
    unfold FillFlagsLoop
    split_ifs
    all_goals first
      | exact ih _
      | exact ⟨rfl, rfl, rfl, rfl, rfl, rfl⟩

theorem DecodeFilter_eq (shun : Bool) (data : Str) :
    DecodeFilter shun data =
      (match StringToFilterAction shun (actionField data) with
      | none => .error ("Invalid action: ".toList ++ actionField data)
      | some fa =>
        let t3 := ((tokenstream.GetMiddle { rest := data }).2.GetMiddle).2.GetMiddle
        let res := ({ FilterResult.default with
          freeform := (tokenstream.GetMiddle { rest := data }).1, action := fa }).FillFlags t3.1
        if res.1 ≠ NUL then .error ("Invalid flag: '".toList ++ [res.1] ++ "'".toList)
        else
          .ok { res.2 with
            duration := ConvToNum t3.2.GetMiddle.1,
            reason := t3.2.GetMiddle.2.GetTrailing.1,
            freeform := unescapeSpaces res.2.freeform }) := by
  unfold DecodeFilter actionField
  rfl

end Flags

section StoreFacts

open FilterAction ModuleFilter FilterResult

theorem any_freeform_iff (l : List FilterResult) (freeform : Str) :
    l.any (fun i => i.freeform == freeform) = true ↔ ∃ f ∈ l, f.freeform = freeform := by
  simp [List.any_eq_true]

theorem FillFlags_fields (self : FilterResult) (fl : Str) :
    (self.FillFlags fl).2.regex = self.regex ∧
      (self.FillFlags fl).2.freeform = self.freeform ∧
      (self.FillFlags fl).2.reason = self.reason ∧
      (self.FillFlags fl).2.action = self.action ∧
      (self.FillFlags fl).2.duration = self.duration ∧
      (self.FillFlags fl).2.from_config = self.from_config :=
  FillFlagsLoop_fields fl _

theorem FillFlagsLoop_namesFlag (fl : Str) :
    ∀ self : FilterResult,
      (FillFlagsLoop self fl).2.flag_no_opers = (self.flag_no_opers || namesFlag 'o' fl) ∧
      (FillFlagsLoop self fl).2.flag_part_message = (self.flag_part_message || namesFlag 'P' fl) ∧
      (FillFlagsLoop self fl).2.flag_quit_message = (self.flag_quit_message || namesFlag 'q' fl) ∧
      (FillFlagsLoop self fl).2.flag_privmsg = (self.flag_privmsg || namesFlag 'p' fl) ∧
      (FillFlagsLoop self fl).2.flag_notice = (self.flag_notice || namesFlag 'n' fl) ∧
      (FillFlagsLoop self fl).2.flag_strip_color = (self.flag_strip_color || namesFlag 'c' fl) := by
  induction fl with
  | nil => intro self; simp [FillFlagsLoop, namesFlag]
  | cons n rest ih =>
    intro self
    unfold FillFlagsLoop
    split_ifs with h1 h2 h3 h4 h5 h6 h7
    all_goals first
      | (subst n
         obtain ⟨i1, i2, i3, i4, i5, i6⟩ := ih _
         rw [i1, i2, i3, i4, i5, i6]
         simp [namesFlag, recognisedFlag, List.takeWhile_cons])
      | simp [namesFlag, recognisedFlag, List.takeWhile_cons, *]

theorem FillFlags_namesFlag (self : FilterResult) (fl : Str) :
    (self.FillFlags fl).2.flag_no_opers = namesFlag 'o' fl ∧
      (self.FillFlags fl).2.flag_part_message = namesFlag 'P' fl ∧
      (self.FillFlags fl).2.flag_quit_message = namesFlag 'q' fl ∧
      (self.FillFlags fl).2.flag_privmsg = namesFlag 'p' fl ∧
      (self.FillFlags fl).2.flag_notice = namesFlag 'n' fl ∧
      (self.FillFlags fl).2.flag_strip_color = namesFlag 'c' fl := by
  have h := FillFlagsLoop_namesFlag fl { self with
    flag_no_opers := false, flag_part_message := false, flag_quit_message := false,
    flag_privmsg := false, flag_notice := false, flag_strip_color := false }
  simpa [FilterResult.FillFlags] using h

end StoreFacts

/-! ## The wire codec -/

section WireCodec

open FilterAction ModuleFilter FilterResult

/-- C1 (counterexample): `shunRule` has no 0x07 byte in its label, yet while the
shun capability is unavailable the decoder rejects its encoding with
`Invalid action: shun`. -/
theorem C1_shun_without_capability_not_decoded :
    BEL ∉ shunRule.freeform ∧
      DecodeFilter false (EncodeFilter shunRule) = .error "Invalid action: shun".toList :=
  ⟨by decide, rfl⟩

/-- C1 (amended): for every rule whose label has no 0x07 byte, that has at
least one applicability flag set, whose action is not SHUN unless the shun
capability is available, and whose duration is an `unsigned long`, decoding the
encoded rule succeeds and gives back the label, the action, the six flags, the
duration and the reason. -/
theorem C1_decode_encode_fields (shun : Bool) (r : FilterResult)
    (hbel : BEL ∉ r.freeform) (hflag : r.anyFlag = true)
    (hact : r.action = FA_SHUN → shun = true) (hdur : r.duration < ULONG_LIMIT) :
    ∃ d, DecodeFilter shun (EncodeFilter r) = .ok d ∧
      d.freeform = r.freeform ∧ d.action = r.action ∧
      d.flag_no_opers = r.flag_no_opers ∧ d.flag_part_message = r.flag_part_message ∧
      d.flag_quit_message = r.flag_quit_message ∧ d.flag_privmsg = r.flag_privmsg ∧
      d.flag_notice = r.flag_notice ∧ d.flag_strip_color = r.flag_strip_color ∧
      d.duration = r.duration ∧ d.reason = r.reason :=
  ⟨_, DecodeFilter_EncodeFilter shun r hbel hflag hact hdur,
    rfl, rfl, rfl, rfl, rfl, rfl, rfl, rfl, rfl, rfl⟩

/-- C1 (witness): the amended round trip at `shunRule` with the shun
capability available. -/
theorem C1_decode_encode_fields_witness :
    ∃ d, DecodeFilter true (EncodeFilter shunRule) = .ok d ∧
      d.freeform = shunRule.freeform ∧ d.action = shunRule.action ∧
      d.flag_no_opers = shunRule.flag_no_opers ∧
      d.flag_part_message = shunRule.flag_part_message ∧
      d.flag_quit_message = shunRule.flag_quit_message ∧
      d.flag_privmsg = shunRule.flag_privmsg ∧
      d.flag_notice = shunRule.flag_notice ∧ d.flag_strip_color = shunRule.flag_strip_color ∧
      d.duration = shunRule.duration ∧ d.reason = shunRule.reason :=
  C1_decode_encode_fields true shunRule (by decide) (by decide) (by decide) (by decide)

/-- C2: for every rule with at least one applicability flag set, a label
without a 0x07 byte and an action whose name the decoder accepts, decoding the
encoded rule returns the rule itself (its wire fields; the matcher and the
origin are not on the wire); and the line of the worked example decodes to
label `hello world`, BLOCK, only `stripFormatting`, duration 0, reason
`test reason`. -/
theorem C2_decode_encode_accepted (shun : Bool) (r : FilterResult)
    (hflag : r.anyFlag = true) (hbel : BEL ∉ r.freeform)
    (hact : (StringToFilterAction shun (FilterActionToString r.action)).isSome = true)
    (hdur : r.duration < ULONG_LIMIT) :
    DecodeFilter shun (EncodeFilter r) = .ok { r with regex := none, from_config := false } ∧
      DecodeFilter shun helloLine = .ok helloRule ∧
      helloRule.freeform = "hello world".toList ∧ helloRule.action = FA_BLOCK ∧
      helloRule.GetFlags = "c".toList ∧ helloRule.duration = 0 ∧
      helloRule.reason = "test reason".toList := by
  have hs : r.action = FA_SHUN → shun = true := by
    intro e
    rw [e] at hact
    cases shun
    · exact absurd hact (by decide)
    · rfl
  refine ⟨DecodeFilter_EncodeFilter shun r hbel hflag hs hdur, ?_, rfl, rfl, rfl, rfl, rfl⟩
  cases shun <;> rfl

/-- C2 (witness): the round trip at the rule of the worked example. -/
theorem C2_decode_encode_accepted_witness :
    DecodeFilter false (EncodeFilter helloRule) =
        .ok { helloRule with regex := none, from_config := false } ∧
      DecodeFilter false helloLine = .ok helloRule ∧
      helloRule.freeform = "hello world".toList ∧ helloRule.action = FA_BLOCK ∧
      helloRule.GetFlags = "c".toList ∧ helloRule.duration = 0 ∧
      helloRule.reason = "test reason".toList :=
  C2_decode_encode_accepted false helloRule (by decide) (by decide) (by decide) (by decide)

/-- C3: `EncodeFilter` returns the escaped label, the canonical action name,
`GetFlags()`, the decimal duration and `:` plus the verbatim reason, separated
by single spaces; the escaped label is the label with every space replaced by
byte 0x07, has the label's length and contains no space; the worked example
encodes to `hello\x07world block c 0 :test reason`. -/
theorem C3_EncodeFilter_format (r : FilterResult) :
    EncodeFilter r =
        escapedLabel r.freeform ++ " ".toList ++ FilterActionToString r.action ++ " ".toList
          ++ r.GetFlags ++ " ".toList ++ (Nat.repr r.duration).toList ++ " :".toList ++ r.reason ∧
      (escapedLabel r.freeform).length = r.freeform.length ∧
      ' ' ∉ escapedLabel r.freeform ∧
      EncodeFilter helloRule = "hello\x07world block c 0 :test reason".toList := by
  refine ⟨?_, ?_, ?_, rfl⟩
  · unfold EncodeFilter escapedLabel
    rw [escapeSpaces_eq_map]
    rfl
  · simp [escapedLabel]
  · rw [escapedLabel, ← escapeSpaces_eq_map]
    exact escapeSpaces_no_space _

/-- C4: `GetFlags` returns the characters of `oPqpnc` whose flag is set, in
that order, and `-` when none is set; `c` is the last character exactly when
`stripFormatting` is set; with all six set the result is `oPqpnc`. -/
theorem C4_GetFlags_canonical (r : FilterResult) :
    r.GetFlags = (if r.anyFlag then "oPqpnc".toList.filter r.hasFlag else "-".toList) ∧
      (r.GetFlags.getLast? = some 'c' ↔ r.flag_strip_color = true) ∧
      List.Sublist (if r.anyFlag then r.GetFlags else []) "oPqpnc".toList ∧
      GetFlags { r with
        flag_no_opers := true, flag_part_message := true, flag_quit_message := true,
        flag_privmsg := true, flag_notice := true, flag_strip_color := true } = "oPqpnc".toList ∧
      GetFlags { r with
        flag_no_opers := false, flag_part_message := false, flag_quit_message := false,
        flag_privmsg := false, flag_notice := false, flag_strip_color := false } = "-".toList := by
  have h1 : r.GetFlags =
      (if r.anyFlag then "oPqpnc".toList.filter r.hasFlag else "-".toList) := by
    obtain ⟨rx, ff, rs, a, d, fc, b1, b2, b3, b4, b5, b6⟩ := r
    cases b1 <;> cases b2 <;> cases b3 <;> cases b4 <;> cases b5 <;> cases b6 <;> rfl
  refine ⟨h1, ?_, ?_, rfl, rfl⟩
  · obtain ⟨rx, ff, rs, a, d, fc, b1, b2, b3, b4, b5, b6⟩ := r
    cases b1 <;> cases b2 <;> cases b3 <;> cases b4 <;> cases b5 <;> cases b6 <;>
      simp [GetFlags]
  · cases h : r.anyFlag
    · simp
    · rw [h1, h]
      exact List.filter_sublist _

/-- C5 (the code at the failing input): `dashLine` is the encoding of
`plainRule`, a rule with no applicability flag set, and `DecodeFilter` rejects
it with `Invalid flag: '-'`, whether or not the shun capability is there. -/
theorem C5_dash_flag_field_rejected :
    plainRule.anyFlag = false ∧ EncodeFilter plainRule = dashLine ∧
      flagField dashLine = "-".toList ∧
      DecodeFilter false dashLine = .error "Invalid flag: '-'".toList ∧
      DecodeFilter true dashLine = .error "Invalid flag: '-'".toList :=
  ⟨rfl, rfl, rfl, rfl, rfl⟩

/-- C6 (counterexample): in `nulFlagLine` the action `kill` is accepted and the
flag field holds a character `FillFlags` has no case for, the byte 0; the
decoder reports no error and produces a rule. -/
theorem C6_nul_flag_not_reported :
    StringToFilterAction false (actionField nulFlagLine) = some FA_KILL ∧
      firstUnrecognised (flagField nulFlagLine) = some NUL ∧
      DecodeFilter false nulFlagLine =
        .ok { FilterResult.default with
          freeform := "x".toList, action := FA_KILL, duration := 7, reason := "r".toList } :=
  ⟨rfl, rfl, rfl⟩

/-- C6 (amended): when the second field is not an accepted action name,
`DecodeFilter` fails with `Invalid action: ` followed by that field, whatever
the flag field is; when the action is accepted and the first character of the
flag field that is not recognised is not the byte 0, it fails with
`Invalid flag: ` carrying that character in quotes. No rule is produced in
either case. -/
theorem C6_decode_errors (shun : Bool) (data : Str) :
    (StringToFilterAction shun (actionField data) = none →
        DecodeFilter shun data = .error ("Invalid action: ".toList ++ actionField data)) ∧
      (∀ c : Char, (StringToFilterAction shun (actionField data)).isSome = true →
        firstUnrecognised (flagField data) = some c → c ≠ NUL →
        DecodeFilter shun data = .error ("Invalid flag: '".toList ++ [c] ++ "'".toList)) := by
  constructor
  · intro h
    rw [DecodeFilter_eq, h]
  · intro c hact hc hnul
    rw [DecodeFilter_eq]
    cases hfa : StringToFilterAction shun (actionField data) with
    | none => rw [hfa] at hact; exact absurd hact (by decide)
    | some fa =>
      have hfst : ∀ self : FilterResult, (self.FillFlags (flagField data)).1 = c := by
        intro self
        unfold FilterResult.FillFlags
        rw [FillFlagsLoop_fst, hc]
        rfl
      simp only [← flagField.eq_1, hfst, ne_eq, hnul, not_false_eq_true, if_true]

/-- C6 (witness): the line `x bogus c 0 :r` fails on its action, and the line
`x block oz 5 :r` on its flag `z`. -/
theorem C6_decode_errors_witness :
    DecodeFilter false "x bogus c 0 :r".toList = .error "Invalid action: bogus".toList ∧
      DecodeFilter false "x block oz 5 :r".toList = .error "Invalid flag: 'z'".toList :=
  ⟨(C6_decode_errors false "x bogus c 0 :r".toList).1 (by decide),
    (C6_decode_errors false "x block oz 5 :r".toList).2 'z' (by decide) (by decide) (by decide)⟩

/-- C7 (counterexample): `shun` is the canonical name of SHUN, and while the
shun capability is unavailable `StringToFilterAction` rejects it. -/
theorem C7_shun_name_rejected_without_capability :
    FilterActionToString FA_SHUN = "shun".toList ∧
      isCaseVariant "shun".toList (FilterActionToString FA_SHUN) = true ∧
      StringToFilterAction false "shun".toList = none :=
  ⟨rfl, rfl, rfl⟩

/-- C7 (amended): `FilterActionToString` gives the eight lower-case names; and
`StringToFilterAction` returns the action `a` for the string `s` exactly when
`s` is an upper/lower-case variant of the name of `a` and, if `a` is SHUN, the
shun capability is available; it rejects `s` exactly when there is no such
action. -/
theorem C7_action_names (shun : Bool) (s : Str) :
    (FilterActionToString FA_GLINE = "gline".toList ∧
      FilterActionToString FA_ZLINE = "zline".toList ∧
      FilterActionToString FA_WARN = "warn".toList ∧
      FilterActionToString FA_BLOCK = "block".toList ∧
      FilterActionToString FA_SILENT = "silent".toList ∧
      FilterActionToString FA_KILL = "kill".toList ∧
      FilterActionToString FA_SHUN = "shun".toList ∧
      FilterActionToString FA_NONE = "none".toList) ∧
    (∀ a : FilterAction, StringToFilterAction shun s = some a ↔
      (isCaseVariant s (FilterActionToString a) = true ∧ (a = FA_SHUN → shun = true))) ∧
    (StringToFilterAction shun s = none ↔
      ∀ a : FilterAction, isCaseVariant s (FilterActionToString a) = true →
        a = FA_SHUN ∧ shun = false) := by
  have key : ∀ a : FilterAction, StringToFilterAction shun s = some a ↔
      (isCaseVariant s (FilterActionToString a) = true ∧ (a = FA_SHUN → shun = true)) := by
    intro a
    rw [StringToFilterAction_iff, isCaseVariant_iff_map _ (lowerLetters_name a)]
  refine ⟨⟨rfl, rfl, rfl, rfl, rfl, rfl, rfl, rfl⟩, key, ?_⟩
  constructor
  · intro hnone a ha
    have hno : ¬ (isCaseVariant s (FilterActionToString a) = true ∧ (a = FA_SHUN → shun = true)) :=
      fun h => by
        have := (key a).2 h
        rw [hnone] at this
        exact Option.noConfusion this
    by_cases hs : a = FA_SHUN
    · refine ⟨hs, ?_⟩
      cases shun
      · rfl
      · exact absurd ⟨ha, fun _ => rfl⟩ hno
    · exact absurd ⟨ha, fun e => absurd e hs⟩ hno
  · intro hall
    cases hres : StringToFilterAction shun s with
    | none => rfl
    | some a =>
      have h := (key a).1 hres
      have h2 := hall a h.1
      have h3 := h.2 h2.1
      rw [h2.2] at h3
      exact Bool.noConfusion h3

/-- C7 (witness): `GLine` is read as GLINE, and `sHUN` as SHUN while the shun
capability is available. -/
theorem C7_action_names_witness :
    StringToFilterAction false "GLine".toList = some FA_GLINE ∧
      StringToFilterAction true "sHUN".toList = some FA_SHUN :=
  ⟨((C7_action_names false "GLine".toList).2.1 FA_GLINE).2 ⟨by decide, by decide⟩,
    ((C7_action_names true "sHUN".toList).2.1 FA_SHUN).2 ⟨by decide, by decide⟩⟩

end WireCodec

/-! ## The rule store -/

section Store

open FilterAction ModuleFilter FilterResult

/-- C8: when some stored rule already has the label, `AddFilter` returns
`(false, "Filter already exists")` and the module, in particular the rule
list, is exactly what it was, whatever the other arguments are. -/
theorem C8_AddFilter_duplicate (self : ModuleFilter) (freeform : Str) (type : FilterAction)
    (reason : Str) (duration : Nat) (flgs : Str)
    (hdup : ∃ f ∈ self.filters, f.freeform = freeform) :
    (self.AddFilter freeform type reason duration flgs).1 =
        (false, "Filter already exists".toList) ∧
      (self.AddFilter freeform type reason duration flgs).2 = self ∧
      (self.AddFilter freeform type reason duration flgs).2.filters = self.filters := by
  have h := (any_freeform_iff self.filters freeform).2 hdup
  unfold AddFilter
  rw [if_pos h]
  exact ⟨rfl, rfl, rfl⟩

/-- C8 (witness): adding the label `hello world` a second time to
`boundModule`, with another action, reason, duration and flags. -/
theorem C8_AddFilter_duplicate_witness :
    (boundModule.AddFilter "hello world".toList FA_KILL "again".toList 5 "*".toList).1 =
        (false, "Filter already exists".toList) ∧
      (boundModule.AddFilter "hello world".toList FA_KILL "again".toList 5 "*".toList).2 =
        boundModule ∧
      (boundModule.AddFilter "hello world".toList FA_KILL "again".toList 5 "*".toList).2.filters =
        boundModule.filters :=
  C8_AddFilter_duplicate boundModule "hello world".toList FA_KILL "again".toList 5 "*".toList
    ⟨_, List.mem_singleton.2 rfl, rfl⟩

/-- C9 (counterexample): `unboundModule` has no backend bound and already holds
the label `hello world`; adding that label fails, but what the failure carries
is `Filter already exists`, not the diagnostic of the missing backend. -/
theorem C9_duplicate_reported_before_diagnostic :
    unboundModule.RegexEngine.value = none ∧
      (unboundModule.AddFilter "hello world".toList FA_BLOCK "r".toList 0 "c".toList).1 =
        (false, "Filter already exists".toList) ∧
      "Filter already exists".toList ≠
        "Regex module implementing 'regex/exact' is not loaded!".toList :=
  ⟨rfl, rfl, by decide⟩

/-- C9 (amended): when no backend is bound, or the bound backend fails to
compile the pattern, `AddFilter` returns failure and leaves the module, in
particular the rule list, unchanged; if moreover the label is not already
stored, the failure carries the diagnostic (the text about the backend that is
not loaded, or the backend's own error). And whatever the arguments, every rule
in the list after `AddFilter` was there before or carries the matcher the bound
backend compiled from its label. -/
theorem C9_AddFilter_compile_failure (self : ModuleFilter) (freeform : Str)
    (type : FilterAction) (reason : Str) (duration : Nat) (flgs : Str) :
    (∀ diag : Str,
      ((self.RegexEngine.value = none ∧
          diag = "Regex module implementing '".toList ++ self.RegexEngine.provider
            ++ "' is not loaded!".toList) ∨
        (∃ engine, self.RegexEngine.value = some engine ∧
          engine.Create freeform = .error diag)) →
      (self.AddFilter freeform type reason duration flgs).1.1 = false ∧
      (self.AddFilter freeform type reason duration flgs).2 = self ∧
      ((∀ f ∈ self.filters, f.freeform ≠ freeform) →
        (self.AddFilter freeform type reason duration flgs).1 = (false, diag))) ∧
    (∀ f ∈ (self.AddFilter freeform type reason duration flgs).2.filters,
      f ∈ self.filters ∨
        ∃ engine rx, self.RegexEngine.value = some engine ∧
          engine.Create freeform = .ok rx ∧ f.regex = some rx ∧ f.freeform = freeform) := by
  constructor
  · intro diag hfail
    have hnew : FilterResult.new self.RegexEngine freeform reason type duration flgs false
        = .error diag := by
      unfold FilterResult.new
      rcases hfail with ⟨hv, hd⟩ | ⟨engine, hv, hc⟩
      · rw [hv, hd]
      · rw [hv]; simp only [hc]
    unfold AddFilter
    by_cases hany : self.filters.any (fun i => i.freeform == freeform) = true
    · rw [if_pos hany]
      refine ⟨rfl, rfl, fun hnot => ?_⟩
      obtain ⟨f, hf, he⟩ := (any_freeform_iff _ _).1 hany
      exact absurd he (hnot f hf)
    · rw [if_neg hany, hnew]
      exact ⟨rfl, rfl, fun _ => rfl⟩
  · intro f hf
    unfold AddFilter at hf
    by_cases hany : self.filters.any (fun i => i.freeform == freeform) = true
    · rw [if_pos hany] at hf
      exact Or.inl hf
    · rw [if_neg hany] at hf
      unfold FilterResult.new at hf
      cases hv : self.RegexEngine.value with
      | none => rw [hv] at hf; exact Or.inl hf
      | some engine =>
        rw [hv] at hf
        cases hc : engine.Create freeform with
        | error e => simp only [hc] at hf; exact Or.inl hf
        | ok rx =>
          simp only [hc, List.mem_append, List.mem_singleton] at hf
          rcases hf with hf | hf
          · exact Or.inl hf
          · refine Or.inr ⟨engine, rx, rfl, hc, ?_, ?_⟩
            · rw [hf]; exact (FillFlags_fields _ _).1
            · rw [hf]; exact (FillFlags_fields _ _).2.1

/-- C9 (witness): the empty pattern, which `exactFactory` refuses, on
`emptyModule`, and any pattern on the module without a backend. -/
theorem C9_AddFilter_compile_failure_witness :
    ((emptyModule.AddFilter [] FA_BLOCK "r".toList 0 "c".toList).1.1 = false ∧
      (emptyModule.AddFilter [] FA_BLOCK "r".toList 0 "c".toList).2 = emptyModule ∧
      ((∀ f ∈ emptyModule.filters, f.freeform ≠ []) →
        (emptyModule.AddFilter [] FA_BLOCK "r".toList 0 "c".toList).1 =
          (false, "Error in regex: empty pattern".toList))) ∧
    ((emptyUnboundModule.AddFilter "x".toList FA_BLOCK "r".toList 0 "c".toList).1.1 = false ∧
      (emptyUnboundModule.AddFilter "x".toList FA_BLOCK "r".toList 0 "c".toList).2 =
        emptyUnboundModule ∧
      ((∀ f ∈ emptyUnboundModule.filters, f.freeform ≠ "x".toList) →
        (emptyUnboundModule.AddFilter "x".toList FA_BLOCK "r".toList 0 "c".toList).1 =
          (false, "Regex module implementing 'regex/exact' is not loaded!".toList))) :=
  ⟨(C9_AddFilter_compile_failure emptyModule [] FA_BLOCK "r".toList 0 "c".toList).1
      "Error in regex: empty pattern".toList (Or.inr ⟨exactFactory, rfl, rfl⟩),
    (C9_AddFilter_compile_failure emptyUnboundModule "x".toList FA_BLOCK "r".toList 0
      "c".toList).1
      "Regex module implementing 'regex/exact' is not loaded!".toList (Or.inl ⟨rfl, rfl⟩)⟩

/-- C10: when the label is not stored yet and the bound backend compiles the
pattern, `AddFilter` returns `(true, "")` and the rule list becomes the old
list followed by one rule, which has the given label, action, reason and
duration, the matcher just compiled, origin RUNTIME, and exactly the flags the
flag string names; nothing else in the module changes. -/
theorem C10_AddFilter_appends (self : ModuleFilter) (freeform : Str) (type : FilterAction)
    (reason : Str) (duration : Nat) (flgs : Str) (engine : RegexFactory) (rx : Regex)
    (hnew : ∀ f ∈ self.filters, f.freeform ≠ freeform)
    (hv : self.RegexEngine.value = some engine) (hc : engine.Create freeform = .ok rx) :
    ∃ f : FilterResult,
      self.AddFilter freeform type reason duration flgs =
        ((true, []), { self with filters := self.filters ++ [f] }) ∧
      f.freeform = freeform ∧ f.action = type ∧ f.reason = reason ∧ f.duration = duration ∧
      f.from_config = false ∧ f.regex = some rx ∧
      f.flag_no_opers = namesFlag 'o' flgs ∧ f.flag_part_message = namesFlag 'P' flgs ∧
      f.flag_quit_message = namesFlag 'q' flgs ∧ f.flag_privmsg = namesFlag 'p' flgs ∧
      f.flag_notice = namesFlag 'n' flgs ∧ f.flag_strip_color = namesFlag 'c' flgs := by
  have hany : ¬ self.filters.any (fun i => i.freeform == freeform) = true := by
    intro h
    obtain ⟨f, hf, he⟩ := (any_freeform_iff _ _).1 h
    exact hnew f hf he
  have hflags := FillFlags_namesFlag
    { FilterResult.default with
      regex := some rx, freeform := freeform, reason := reason, action := type,
      duration := duration, from_config := false } flgs
  have hfields := FillFlags_fields
    { FilterResult.default with
      regex := some rx, freeform := freeform, reason := reason, action := type,
      duration := duration, from_config := false } flgs
  refine ⟨_, ?_, hfields.2.1, hfields.2.2.2.1, hfields.2.2.1, hfields.2.2.2.2.1,
    hfields.2.2.2.2.2, hfields.1, hflags⟩
  unfold AddFilter
  rw [if_neg hany]
  unfold FilterResult.new
  rw [hv]
  simp only [hc]

/-- C10 (witness): adding `badword` with flags `-` to `boundModule`. -/
theorem C10_AddFilter_appends_witness :
    ∃ f : FilterResult,
      boundModule.AddFilter "badword".toList FA_BLOCK "no".toList 0 "-".toList =
        ((true, []), { boundModule with filters := boundModule.filters ++ [f] }) ∧
      f.freeform = "badword".toList ∧ f.action = FA_BLOCK ∧ f.reason = "no".toList ∧
      f.duration = 0 ∧ f.from_config = false ∧
      f.regex = some { Matches := fun t => t == "badword".toList } ∧
      f.flag_no_opers = namesFlag 'o' "-".toList ∧
      f.flag_part_message = namesFlag 'P' "-".toList ∧
      f.flag_quit_message = namesFlag 'q' "-".toList ∧
      f.flag_privmsg = namesFlag 'p' "-".toList ∧
      f.flag_notice = namesFlag 'n' "-".toList ∧
      f.flag_strip_color = namesFlag 'c' "-".toList :=
  C10_AddFilter_appends boundModule "badword".toList FA_BLOCK "no".toList 0 "-".toList
    exactFactory { Matches := fun t => t == "badword".toList }
    (by
      intro f hf
      rw [List.mem_singleton.1 hf]
      decide)
    rfl rfl

end Store

/-! ## Matching -/

section Matching

open FilterAction ModuleFilter FilterResult

theorem FilterMatchLoop_find (ServerInstance : InspIRCd) (user : User) (text : Str)
    (flgs : Nat) :
    ∀ (l : List FilterResult) (stripped_text : Str),
      (stripped_text = [] ∨ stripped_text = ServerInstance.StripColor text) →
      (FilterMatchLoop ServerInstance user text flgs l stripped_text).1 =
        l.find? (ruleHits ServerInstance user text flgs) := by
  intro l
  induction l with
  | nil => intro st _; rfl
  | cons filter rest ih =>
    intro st hst
    have ih2 := ih (ServerInstance.StripColor text) (Or.inr rfl)
    cases happ : AppliesToMe user filter flgs with
    | false => simp [FilterMatchLoop, ruleHits, happ, ih _ hst]
    | true =>
      cases hc : filter.flag_strip_color with
      | false =>
        cases hm : filter.regexMatches text with
        | false => simp [FilterMatchLoop, ruleHits, happ, hc, hm, ih _ hst]
        | true => simp [FilterMatchLoop, ruleHits, happ, hc, hm]
      | true =>
        cases hm : filter.regexMatches (ServerInstance.StripColor text) with
        | false =>
          rcases hst with rfl | rfl
          · simp [FilterMatchLoop, ruleHits, happ, hc, hm, ih2]
          · simp [FilterMatchLoop, ruleHits, happ, hc, hm, ih2]
        | true =>
          rcases hst with rfl | rfl
          · simp [FilterMatchLoop, ruleHits, happ, hc, hm]
          · simp [FilterMatchLoop, ruleHits, happ, hc, hm]

theorem FilterMatch_find (self : ModuleFilter) (ServerInstance : InspIRCd) (user : User)
    (text : Str) (flgs : Nat) :
    self.FilterMatch ServerInstance user text flgs =
      self.filters.find? (ruleHits ServerInstance user text flgs) :=
  FilterMatchLoop_find ServerInstance user text flgs self.filters [] (Or.inl rfl)

theorem AppliesToMe_flag (user : User) (filter : FilterResult) (flag : FilterFlags) :
    AppliesToMe user filter flag.toInt =
      (!(filter.flag_no_opers && user.IsOper) && filter.appliesTo flag) := by
  obtain ⟨rx, ff, rs, a, d, fc, b1, b2, b3, b4, b5, b6⟩ := filter
  cases flag <;> cases b1 <;> cases b2 <;> cases b3 <;> cases b4 <;> cases b5 <;>
    cases hu : user.IsOper <;>
    (simp [AppliesToMe, FilterFlags.toInt, FilterResult.appliesTo, hu]; try decide)

/-- C11: `FilterMatch` returns the first rule of the list that is applicable
and whose matcher matches the comparison text; it returns no rule exactly when
no rule of the list is applicable and matching; and every rule before the
returned one fails to be applicable and matching. -/
theorem C11_FilterMatch_first_match (self : ModuleFilter) (ServerInstance : InspIRCd)
    (user : User) (text : Str) (flgs : Nat) :
    self.FilterMatch ServerInstance user text flgs =
        self.filters.find? (ruleHits ServerInstance user text flgs) ∧
      (self.FilterMatch ServerInstance user text flgs = none ↔
        ∀ r ∈ self.filters, ruleHits ServerInstance user text flgs r = false) ∧
      (∀ f : FilterResult, self.FilterMatch ServerInstance user text flgs = some f ↔
        (ruleHits ServerInstance user text flgs f = true ∧
          ∃ before after : List FilterResult, self.filters = before ++ f :: after ∧
            ∀ r ∈ before, ruleHits ServerInstance user text flgs r = false)) := by
  rw [FilterMatch_find]
  refine ⟨rfl, ?_, ?_⟩
  · simp [List.find?_eq_none]
  · intro f
    simp [List.find?_eq_some]

/-- C12: for every rule, sender and event kind, `AppliesToMe` returns false
exactly when the rule has `noOperators` and the sender is an operator, or the
rule does not have the applicability flag that corresponds to the event kind;
otherwise it returns true. -/
theorem C12_AppliesToMe_cases (user : User) (filter : FilterResult) (flag : FilterFlags) :
    (AppliesToMe user filter flag.toInt = false ↔
        ((filter.flag_no_opers = true ∧ user.IsOper = true) ∨ filter.appliesTo flag = false)) ∧
      (AppliesToMe user filter flag.toInt = true ↔
        (¬ (filter.flag_no_opers = true ∧ user.IsOper = true) ∧ filter.appliesTo flag = true)) ∧
      filter.appliesTo .FLAG_PRIVMSG = filter.flag_privmsg ∧
      filter.appliesTo .FLAG_NOTICE = filter.flag_notice ∧
      filter.appliesTo .FLAG_QUIT = filter.flag_quit_message ∧
      filter.appliesTo .FLAG_PART = filter.flag_part_message := by
  rw [AppliesToMe_flag]
  refine ⟨?_, ?_, rfl, rfl, rfl, rfl⟩
  · cases filter.flag_no_opers <;> cases user.IsOper <;> cases filter.appliesTo flag <;> simp
  · cases filter.flag_no_opers <;> cases user.IsOper <;> cases filter.appliesTo flag <;> simp

end Matching

/-! ## Messages -/

section Messages

open FilterAction ModuleFilter FilterResult

theorem AddFilter_fresh (self : ModuleFilter) (freeform : Str) (type : FilterAction)
    (reason : Str) (duration : Nat) (flgs : Str) (engine : RegexFactory) (rx : Regex)
    (hnew : ∀ f ∈ self.filters, f.freeform ≠ freeform)
    (hv : self.RegexEngine.value = some engine) (hc : engine.Create freeform = .ok rx) :
    self.AddFilter freeform type reason duration flgs =
      ((true, []), { self with filters := self.filters ++
        [(FilterResult.FillFlags { FilterResult.default with
          regex := some rx, freeform := freeform, reason := reason, action := type,
          duration := duration, from_config := false } flgs).2] }) := by
  have hany : ¬ self.filters.any (fun i => i.freeform == freeform) = true := by
    intro h
    obtain ⟨f, hf, he⟩ := (any_freeform_iff _ _).1 h
    exact hnew f hf he
  unfold AddFilter
  rw [if_neg hany]
  unfold FilterResult.new
  rw [hv]
  simp only [hc]

theorem AddFilter_fresh_fields (self : ModuleFilter) (freeform : Str) (type : FilterAction)
    (reason : Str) (duration : Nat) (flgs : Str) (engine : RegexFactory) (rx : Regex)
    (hnew : ∀ f ∈ self.filters, f.freeform ≠ freeform)
    (hv : self.RegexEngine.value = some engine) (hc : engine.Create freeform = .ok rx) :
    ∃ f : FilterResult,
      self.AddFilter freeform type reason duration flgs =
        ((true, []), { self with filters := self.filters ++ [f] }) ∧
      (f.regex = some rx ∧ f.freeform = freeform ∧ f.reason = reason ∧ f.action = type ∧
        f.duration = duration ∧ f.from_config = false) ∧
      (f.flag_no_opers = namesFlag 'o' flgs ∧ f.flag_part_message = namesFlag 'P' flgs ∧
        f.flag_quit_message = namesFlag 'q' flgs ∧ f.flag_privmsg = namesFlag 'p' flgs ∧
        f.flag_notice = namesFlag 'n' flgs ∧ f.flag_strip_color = namesFlag 'c' flgs) :=
  ⟨_, AddFilter_fresh self freeform type reason duration flgs engine rx hnew hv hc,
    FillFlags_fields _ _, FillFlags_namesFlag _ _⟩

theorem FilterMatch_flags (self : ModuleFilter) (n : Nat) (ServerInstance : InspIRCd)
    (user : User) (text : Str) (flgs : Nat) :
    FilterMatch { self with flags := n } ServerInstance user text flgs =
      self.FilterMatch ServerInstance user text flgs := rfl

theorem OnUserPreMessage_remote (self : ModuleFilter) (ServerInstance : InspIRCd) (user : User)
    (msgtarget : MessageTarget) (details : MessageDetails) (hlocal : user.IsLocal = false) :
    self.OnUserPreMessage ServerInstance user msgtarget details =
      (.MOD_RES_PASSTHRU, details, self, []) := by
  simp [OnUserPreMessage, hlocal]

theorem OnUserPreMessage_none (self : ModuleFilter) (ServerInstance : InspIRCd) (user : User)
    (msgtarget : MessageTarget) (details : MessageDetails) (hlocal : user.IsLocal = true)
    (hf : self.FilterMatch ServerInstance user details.text details.type.flag.toInt = none) :
    self.OnUserPreMessage ServerInstance user msgtarget details =
      (.MOD_RES_PASSTHRU, details, { self with flags := details.type.flag.toInt }, []) := by
  unfold OnUserPreMessage
  cases ht : details.type <;> rw [ht] at hf <;> simp only [MessageType.flag] at hf <;>
    simp [hlocal, MessageType.flag, FilterMatch_flags, hf]

theorem OnUserPreMessage_some (self : ModuleFilter) (ServerInstance : InspIRCd) (user : User)
    (msgtarget : MessageTarget) (details : MessageDetails) (f : FilterResult)
    (hlocal : user.IsLocal = true)
    (hf : self.FilterMatch ServerInstance user details.text details.type.flag.toInt = some f) :
    self.OnUserPreMessage ServerInstance user msgtarget details =
      (match msgtarget with
      | .TYPE_USER t =>
        if ExemptTargetSet.count self.exemptednicks t.nick then
          (.MOD_RES_PASSTHRU, details, { self with flags := details.type.flag.toInt }, [])
        else
          OnUserPreMessageAction { self with flags := details.type.flag.toInt } ServerInstance
            user msgtarget details f t.nick
      | .TYPE_CHANNEL name =>
        if ExemptTargetSet.count self.exemptedchans name then
          (.MOD_RES_PASSTHRU, details, { self with flags := details.type.flag.toInt }, [])
        else
          OnUserPreMessageAction { self with flags := details.type.flag.toInt } ServerInstance
            user msgtarget details f name
      | .TYPE_SERVER _ =>
        OnUserPreMessageAction { self with flags := details.type.flag.toInt } ServerInstance
          user msgtarget details f []) := by
  unfold OnUserPreMessage
  cases ht : details.type <;> rw [ht] at hf <;> simp only [MessageType.flag] at hf <;>
    simp [hlocal, MessageType.flag, FilterMatch_flags, hf]

end Messages

section MessageClaims

open FilterAction ModuleFilter FilterResult

theorem equalsci_eq_map (a : Str) :
    ∀ b : Str, equalsci a b = decide (a.map Char.toLower = b.map Char.toLower) := by
  induction a with
  | nil => intro b; cases b <;> simp [equalsci]
  | cons c cs ih =>
    intro b
    cases b with
    | nil => simp [equalsci]
    | cons d ds =>
      have step : equalsci (c :: cs) (d :: ds) = (c.toLower == d.toLower && equalsci cs ds) := by
        simp only [equalsci, List.length_cons, List.zipWith_cons_cons, List.all_cons, id_eq]
        cases hl : (cs.length == ds.length) <;> cases hc : (c.toLower == d.toLower) <;>
          simp_all
      rw [step, ih ds, Bool.eq_iff_iff]
      simp

theorem count_eq_any (set : List Str) (name : Str) :
    ExemptTargetSet.count set name =
      set.any (fun member => decide (member.map Char.toLower = name.map Char.toLower)) := by
  unfold ExemptTargetSet.count
  congr 1
  funext member
  exact equalsci_eq_map member name

theorem OnUserPreMessageAction_block_channel (self : ModuleFilter) (ServerInstance : InspIRCd)
    (user : User) (name : Str) (details : MessageDetails) (f : FilterResult) (target : Str)
    (ha : f.action = FA_BLOCK) (hn : self.notifyuser = true) :
    OnUserPreMessageAction self ServerInstance user (.TYPE_CHANNEL name) details f target =
      (.MOD_RES_DENY, details, self,
        [Effect.WriteGlobalSno 'f' (c_str user.nick ++ " had their message to ".toList
            ++ c_str target ++ " filtered as it matched ".toList ++ c_str f.freeform
            ++ " (".toList ++ c_str f.reason ++ ")".toList),
          Effect.WriteNumeric user.nick ERR_CANNOTSENDTOCHAN target
            ("Message to channel blocked and opers notified (".toList ++ c_str f.reason
              ++ ")".toList),
          Effect.Log (user.nick ++ " had their message filtered, target was ".toList ++ target
            ++ ": ".toList ++ f.reason ++ " Action: block".toList)]) := by
  simp [OnUserPreMessageAction, ha, hn, FilterActionToString]

/-- C13 (counterexample): the rule `badword` added with the flag string `-` has
no applicability flag, so although its matcher matches the text of the channel
message of a local non-operator sender, to a channel that is not exempted and
with sender notification on, the message passes through and nothing is sent. -/
theorem C13_dash_rule_lets_message_through :
    badwordModule.filters.map (fun f => (f.freeform, f.regexMatches badwordMessage.text)) =
        [("badword".toList, true)] ∧
      alice.IsLocal = true ∧ alice.IsOper = false ∧
      ExemptTargetSet.count badwordModule.exemptedchans "#chan".toList = false ∧
      badwordModule.notifyuser = true ∧
      (badwordModule.OnUserPreMessage sampleServer alice (.TYPE_CHANNEL "#chan".toList)
        badwordMessage).1 = .MOD_RES_PASSTHRU ∧
      (badwordModule.OnUserPreMessage sampleServer alice (.TYPE_CHANNEL "#chan".toList)
        badwordMessage).2.2.2 = [] := by
  refine ⟨by decide, rfl, rfl, by decide, rfl, by decide, by decide⟩

/-- C13 (amended): after the rule label `badword`, BLOCK, duration 0, reason
`no` is added to an empty store with a flag string that names the flag of the
message's type (`p` for a PRIVMSG, `n` for a NOTICE), a channel message whose
comparison text the rule's matcher matches, sent by a local non-operator sender
to a channel that is not exempted, with sender notification on, is denied; the
sender receives the numeric `ERR_CANNOTSENDTOCHAN` with the text
`Message to channel blocked and opers notified (no)`. (The server notice names
the sender and the channel by their C strings.) -/
theorem C13_block_rule_denies_channel_message (self : ModuleFilter)
    (ServerInstance : InspIRCd) (user : User) (name flgs : Str) (details : MessageDetails)
    (engine : RegexFactory) (rx : Regex)
    (hempty : self.filters = [])
    (hv : self.RegexEngine.value = some engine)
    (hc : engine.Create "badword".toList = .ok rx)
    (hflag : namesFlag details.type.flag.flagChar flgs = true)
    (hm : rx.Matches
      (if namesFlag 'c' flgs then ServerInstance.StripColor details.text else details.text) = true)
    (hlocal : user.IsLocal = true) (hoper : user.IsOper = false)
    (hex : ExemptTargetSet.count self.exemptedchans name = false)
    (hnotify : self.notifyuser = true) :
    ((self.AddFilter "badword".toList FA_BLOCK "no".toList 0 flgs).2.OnUserPreMessage
        ServerInstance user (.TYPE_CHANNEL name) details).1 = .MOD_RES_DENY ∧
      ((self.AddFilter "badword".toList FA_BLOCK "no".toList 0 flgs).2.OnUserPreMessage
        ServerInstance user (.TYPE_CHANNEL name) details).2.2.2 =
        [Effect.WriteGlobalSno 'f' (c_str user.nick ++ " had their message to ".toList
            ++ c_str name ++ " filtered as it matched badword (no)".toList),
          Effect.WriteNumeric user.nick ERR_CANNOTSENDTOCHAN name
            "Message to channel blocked and opers notified (no)".toList,
          Effect.Log (user.nick ++ " had their message filtered, target was ".toList ++ name
            ++ ": no Action: block".toList)] := by
  obtain ⟨f0, hadd, ⟨g1, g2, g3, g4, _, _⟩, ⟨_, _, _, n4, n5, n6⟩⟩ :=
    AddFilter_fresh_fields self "badword".toList FA_BLOCK "no".toList 0 flgs engine rx
      (by rw [hempty]; intro f hf; cases hf) hv hc
  rw [hadd]
  have happ : f0.appliesTo details.type.flag = true := by
    cases ht : details.type
    · rw [ht] at hflag
      show f0.flag_privmsg = true
      rw [n4]; exact hflag
    · rw [ht] at hflag
      show f0.flag_notice = true
      rw [n5]; exact hflag
  have hhit : ruleHits ServerInstance user details.text details.type.flag.toInt f0 = true := by
    simp only [ruleHits, AppliesToMe_flag, hoper, happ, n6, FilterResult.regexMatches, g1, hm]
    simp
  have hfm : FilterMatch { self with filters := self.filters ++ [f0] } ServerInstance user
      details.text details.type.flag.toInt = some f0 := by
    rw [FilterMatch_find]
    simp [hempty, List.find?, hhit]
  rw [OnUserPreMessage_some _ _ _ _ _ f0 hlocal hfm]
  simp only [hex, Bool.false_eq_true, if_false]
  have hb := OnUserPreMessageAction_block_channel
    { self with filters := self.filters ++ [f0], flags := details.type.flag.toInt }
    ServerInstance user name details f0 name g4 hnotify
  have e1 : c_str "badword".toList = "badword".toList := by decide
  have e2 : c_str "no".toList = "no".toList := by decide
  rw [hb]
  simp only [g2, g3, e1, e2]
  simp

/-- C13 (witness): the rule added with the flag string `p` to `emptyModule`,
and the PRIVMSG `badword` sent by `alice` to `#chan`. -/
theorem C13_block_rule_denies_channel_message_witness :
    ((emptyModule.AddFilter "badword".toList FA_BLOCK "no".toList 0 "p".toList).2.OnUserPreMessage
        sampleServer alice (.TYPE_CHANNEL "#chan".toList) badwordMessage).1 = .MOD_RES_DENY ∧
      ((emptyModule.AddFilter "badword".toList FA_BLOCK "no".toList 0
          "p".toList).2.OnUserPreMessage
        sampleServer alice (.TYPE_CHANNEL "#chan".toList) badwordMessage).2.2.2 =
        [Effect.WriteGlobalSno 'f' (alice.nick ++ " had their message to ".toList
            ++ "#chan".toList ++ " filtered as it matched badword (no)".toList),
          Effect.WriteNumeric alice.nick ERR_CANNOTSENDTOCHAN "#chan".toList
            "Message to channel blocked and opers notified (no)".toList,
          Effect.Log (alice.nick ++ " had their message filtered, target was ".toList
            ++ "#chan".toList ++ ": no Action: block".toList)] :=
  C13_block_rule_denies_channel_message emptyModule sampleServer alice "#chan".toList
    "p".toList badwordMessage exactFactory { Matches := fun t => t == "badword".toList }
    rfl rfl rfl (by decide) (by decide) rfl rfl (by decide) rfl

/-- C19: when the destination nickname of a private message, or the channel
name of a channel message, is in the corresponding exemption set up to case,
`OnUserPreMessage` returns pass-through, leaves the message details (the
echo-original flag included) and the rule list as they were and makes no call
at all: no notice, no operator notice, no disconnection and no ban request;
this holds for every rule list, whatever matches the text. -/
theorem C19_exempted_target_passes (self : ModuleFilter) (ServerInstance : InspIRCd)
    (user : User) (msgtarget : MessageTarget) (details : MessageDetails)
    (hex : self.exemptedTarget msgtarget = true) :
    (self.OnUserPreMessage ServerInstance user msgtarget details).1 = .MOD_RES_PASSTHRU ∧
      (self.OnUserPreMessage ServerInstance user msgtarget details).2.1 = details ∧
      (self.OnUserPreMessage ServerInstance user msgtarget details).2.2.1.filters =
        self.filters ∧
      (self.OnUserPreMessage ServerInstance user msgtarget details).2.2.2 = [] := by
  cases hlocal : user.IsLocal with
  | false =>
    rw [OnUserPreMessage_remote _ _ _ _ _ hlocal]
    exact ⟨rfl, rfl, rfl, rfl⟩
  | true =>
    cases hf : self.FilterMatch ServerInstance user details.text details.type.flag.toInt with
    | none =>
      rw [OnUserPreMessage_none _ _ _ _ _ hlocal hf]
      exact ⟨rfl, rfl, rfl, rfl⟩
    | some f =>
      rw [OnUserPreMessage_some _ _ _ _ _ f hlocal hf]
      cases msgtarget with
      | TYPE_USER t =>
        have h : ExemptTargetSet.count self.exemptednicks t.nick = true := by
          rw [count_eq_any]; exact hex
        simp [h]
      | TYPE_CHANNEL name =>
        have h : ExemptTargetSet.count self.exemptedchans name = true := by
          rw [count_eq_any]; exact hex
        simp [h]
      | TYPE_SERVER name => exact absurd hex (by simp [ModuleFilter.exemptedTarget])

/-- C19 (witness): with `Alice` exempted, a private message `badword` to the
user `ALICE`, which the BLOCK rule of `exemptModule` matches. -/
theorem C19_exempted_target_passes_witness :
    exemptModule.FilterMatch sampleServer alice badwordMessage.text
        FilterFlags.FLAG_PRIVMSG.toInt ≠ none ∧
      (exemptModule.OnUserPreMessage sampleServer alice
        (.TYPE_USER { alice with nick := "ALICE".toList }) badwordMessage).1
          = .MOD_RES_PASSTHRU ∧
      (exemptModule.OnUserPreMessage sampleServer alice
        (.TYPE_USER { alice with nick := "ALICE".toList }) badwordMessage).2.1
          = badwordMessage ∧
      (exemptModule.OnUserPreMessage sampleServer alice
        (.TYPE_USER { alice with nick := "ALICE".toList }) badwordMessage).2.2.1.filters
          = exemptModule.filters ∧
      (exemptModule.OnUserPreMessage sampleServer alice
        (.TYPE_USER { alice with nick := "ALICE".toList }) badwordMessage).2.2.2 = [] :=
  ⟨by
      intro h
      have h2 := congrArg Option.isSome h
      exact absurd h2 (by decide),
    C19_exempted_target_passes exemptModule sampleServer alice
      (.TYPE_USER { alice with nick := "ALICE".toList }) badwordMessage (by decide)⟩

end MessageClaims

/-! ## PART and QUIT -/

section Commands

open FilterAction ModuleFilter FilterResult

theorem OnPreCommand_QUIT (self : ModuleFilter) (ServerInstance : InspIRCd)
    (parameters : List Str) (user : User) (hlen : 1 ≤ parameters.length) :
    self.OnPreCommand ServerInstance "QUIT".toList parameters user true =
      OnPreCommandMatch { self with flags := FilterFlags.FLAG_QUIT.toInt } ServerInstance
        "QUIT".toList parameters user false := by
  have h : ¬ parameters.length < 1 := by omega
  simp [OnPreCommand, h]

theorem OnPreCommand_PART (self : ModuleFilter) (ServerInstance : InspIRCd)
    (parameters : List Str) (user : User) (hlen : 2 ≤ parameters.length)
    (hex : ExemptTargetSet.count self.exemptedchans (parameters.getD 0 []) = false) :
    self.OnPreCommand ServerInstance "PART".toList parameters user true =
      OnPreCommandMatch { self with flags := FilterFlags.FLAG_PART.toInt } ServerInstance
        "PART".toList parameters user true := by
  have h : ¬ parameters.length < 2 := by omega
  have hne : ¬ "PART".toList = "QUIT".toList := by decide
  simp only [OnPreCommand, if_true, if_neg hne, if_neg h, hex, Bool.false_eq_true, if_false]

theorem OnPreCommandMatch_none (self : ModuleFilter) (ServerInstance : InspIRCd)
    (command : Str) (parameters : List Str) (user : User) (parting : Bool)
    (hf : self.FilterMatch ServerInstance user (parameters.getD (if parting then 1 else 0) [])
      self.flags = none) :
    OnPreCommandMatch self ServerInstance command parameters user parting =
      (.MOD_RES_PASSTHRU, parameters, self, []) := by
  unfold OnPreCommandMatch
  simp only [hf]

theorem OnPreCommandMatch_parameters (self : ModuleFilter) (ServerInstance : InspIRCd)
    (command : Str) (parameters : List Str) (user : User) (parting : Bool) (f : FilterResult)
    (hf : self.FilterMatch ServerInstance user (parameters.getD (if parting then 1 else 0) [])
      self.flags = some f) :
    (OnPreCommandMatch self ServerInstance command parameters user parting).2.1 =
      parameters.set (if parting then 1 else 0) "Reason filtered".toList := by
  unfold OnPreCommandMatch
  simp only [hf]
  split_ifs <;> rfl

theorem getD_set_self (parameters : List Str) (n : Nat) (x : Str) (h : n < parameters.length) :
    (parameters.set n x).getD n [] = x := by
  simp [List.getD, h]

/-- C17: for a validated QUIT with a reason, and for a validated PART with a
reason whose channel is not exempted, when `FilterMatch` finds a rule for the
reason the reason parameter becomes exactly `Reason filtered` and the other
parameters stay, whatever the rule's action is; when it finds none the
parameters are unchanged, the result is pass-through and no call is made. -/
theorem C17_reason_replaced (self : ModuleFilter) (ServerInstance : InspIRCd)
    (parameters : List Str) (user : User) :
    (1 ≤ parameters.length →
      (∀ f : FilterResult,
        self.FilterMatch ServerInstance user (parameters.getD 0 [])
          FilterFlags.FLAG_QUIT.toInt = some f →
        (self.OnPreCommand ServerInstance "QUIT".toList parameters user true).2.1 =
            parameters.set 0 "Reason filtered".toList ∧
          (self.OnPreCommand ServerInstance "QUIT".toList parameters user true).2.1.getD 0 [] =
            "Reason filtered".toList) ∧
      (self.FilterMatch ServerInstance user (parameters.getD 0 [])
          FilterFlags.FLAG_QUIT.toInt = none →
        (self.OnPreCommand ServerInstance "QUIT".toList parameters user true).1 =
            .MOD_RES_PASSTHRU ∧
          (self.OnPreCommand ServerInstance "QUIT".toList parameters user true).2.1 =
            parameters ∧
          (self.OnPreCommand ServerInstance "QUIT".toList parameters user true).2.2.2 = [])) ∧
    (2 ≤ parameters.length →
      ExemptTargetSet.count self.exemptedchans (parameters.getD 0 []) = false →
      (∀ f : FilterResult,
        self.FilterMatch ServerInstance user (parameters.getD 1 [])
          FilterFlags.FLAG_PART.toInt = some f →
        (self.OnPreCommand ServerInstance "PART".toList parameters user true).2.1 =
            parameters.set 1 "Reason filtered".toList ∧
          (self.OnPreCommand ServerInstance "PART".toList parameters user true).2.1.getD 1 [] =
            "Reason filtered".toList) ∧
      (self.FilterMatch ServerInstance user (parameters.getD 1 [])
          FilterFlags.FLAG_PART.toInt = none →
        (self.OnPreCommand ServerInstance "PART".toList parameters user true).1 =
            .MOD_RES_PASSTHRU ∧
          (self.OnPreCommand ServerInstance "PART".toList parameters user true).2.1 =
            parameters ∧
          (self.OnPreCommand ServerInstance "PART".toList parameters user true).2.2.2 = [])) := by
  constructor
  · intro hlen
    rw [OnPreCommand_QUIT _ _ _ _ hlen]
    constructor
    · intro f hf
      have hp := OnPreCommandMatch_parameters { self with flags := FilterFlags.FLAG_QUIT.toInt }
        ServerInstance "QUIT".toList parameters user false f hf
      rw [hp]
      exact ⟨rfl, getD_set_self parameters 0 _ (by omega)⟩
    · intro hf
      have hn := OnPreCommandMatch_none { self with flags := FilterFlags.FLAG_QUIT.toInt }
        ServerInstance "QUIT".toList parameters user false hf
      rw [hn]
      exact ⟨rfl, rfl, rfl⟩
  · intro hlen hex
    rw [OnPreCommand_PART _ _ _ _ hlen hex]
    constructor
    · intro f hf
      have hp := OnPreCommandMatch_parameters { self with flags := FilterFlags.FLAG_PART.toInt }
        ServerInstance "PART".toList parameters user true f hf
      rw [hp]
      exact ⟨rfl, getD_set_self parameters 1 _ (by omega)⟩
    · intro hf
      have hn := OnPreCommandMatch_none { self with flags := FilterFlags.FLAG_PART.toInt }
        ServerInstance "PART".toList parameters user true hf
      rw [hn]
      exact ⟨rfl, rfl, rfl⟩

/-- C17 (witness): on `killModule` the QUIT reason `bye` is replaced, and the
PART reason `see you`, which no rule matches, is left alone. -/
theorem C17_reason_replaced_witness :
    ((killModule.OnPreCommand sampleServer "QUIT".toList ["bye".toList] alice true).2.1 =
        ["bye".toList].set 0 "Reason filtered".toList ∧
      (killModule.OnPreCommand sampleServer "QUIT".toList ["bye".toList] alice true).2.1.getD 0 []
        = "Reason filtered".toList) ∧
    ((killModule.OnPreCommand sampleServer "PART".toList ["#c".toList, "see you".toList] alice
        true).1 = .MOD_RES_PASSTHRU ∧
      (killModule.OnPreCommand sampleServer "PART".toList ["#c".toList, "see you".toList] alice
        true).2.1 = ["#c".toList, "see you".toList] ∧
      (killModule.OnPreCommand sampleServer "PART".toList ["#c".toList, "see you".toList] alice
        true).2.2.2 = []) :=
  ⟨((C17_reason_replaced killModule sampleServer ["bye".toList] alice).1 (by decide)).1 _ rfl,
    ((C17_reason_replaced killModule sampleServer ["#c".toList, "see you".toList] alice).2
      (by decide) (by decide)).2 rfl⟩

/-- C18 (counterexample): on `killExemptModule` the channel `#Help` is exempted
and the KILL rule matches the reason `bye` of a PART; the validated PART of
`alice` from `#help` with that reason passes through with its parameters
unchanged and without any call, so no disconnection is requested. On
`killModule` a QUIT with the reason `bye` that is not validated passes through
with its reason left as it was. -/
theorem C18_part_from_exempted_channel_not_killed :
    (killExemptModule.FilterMatch sampleServer alice "bye".toList
        FilterFlags.FLAG_PART.toInt).map (fun f => f.action) = some FA_KILL ∧
      ExemptTargetSet.count killExemptModule.exemptedchans "#help".toList = true ∧
      (killExemptModule.OnPreCommand sampleServer "PART".toList
        ["#help".toList, "bye".toList] alice true).1 = .MOD_RES_PASSTHRU ∧
      (killExemptModule.OnPreCommand sampleServer "PART".toList
        ["#help".toList, "bye".toList] alice true).2.1 = ["#help".toList, "bye".toList] ∧
      (killExemptModule.OnPreCommand sampleServer "PART".toList
        ["#help".toList, "bye".toList] alice true).2.2.2 = [] ∧
      (killModule.FilterMatch sampleServer alice "bye".toList
        FilterFlags.FLAG_QUIT.toInt).map (fun f => f.action) = some FA_KILL ∧
      (killModule.OnPreCommand sampleServer "QUIT".toList ["bye".toList] alice false).1 =
        .MOD_RES_PASSTHRU ∧
      (killModule.OnPreCommand sampleServer "QUIT".toList ["bye".toList] alice false).2.1 =
        ["bye".toList] := by
  refine ⟨by decide, by decide, by decide, by decide, by decide, by decide, by decide,
    by decide⟩

/-- C18 (amended): when the reason of a validated QUIT matches a KILL rule,
`OnPreCommand` makes no call (in particular requests no disconnection),
rewrites the reason and returns pass-through; when the reason of a validated
PART to a channel that is not exempted matches a KILL rule, it tells the
sender, requests the sender's disconnection with the reason `Filtered: `
followed by the rule's reason, and denies the PART. -/
theorem C18_kill_on_quit_and_part (self : ModuleFilter) (ServerInstance : InspIRCd)
    (parameters : List Str) (user : User) (f : FilterResult) (hkill : f.action = FA_KILL) :
    (1 ≤ parameters.length →
      self.FilterMatch ServerInstance user (parameters.getD 0 [])
        FilterFlags.FLAG_QUIT.toInt = some f →
      self.OnPreCommand ServerInstance "QUIT".toList parameters user true =
        (.MOD_RES_PASSTHRU, parameters.set 0 "Reason filtered".toList,
          { self with flags := FilterFlags.FLAG_QUIT.toInt }, [])) ∧
    (2 ≤ parameters.length →
      ExemptTargetSet.count self.exemptedchans (parameters.getD 0 []) = false →
      self.FilterMatch ServerInstance user (parameters.getD 1 [])
        FilterFlags.FLAG_PART.toInt = some f →
      self.OnPreCommand ServerInstance "PART".toList parameters user true =
        (.MOD_RES_DENY, parameters.set 1 "Reason filtered".toList,
          { self with flags := FilterFlags.FLAG_PART.toInt },
          [Effect.WriteNotice user.nick
              ("*** Your PART message was filtered: ".toList ++ f.reason),
            Effect.QuitUser user.nick ("Filtered: ".toList ++ f.reason)])) := by
  constructor
  · intro hlen hf
    rw [OnPreCommand_QUIT _ _ _ _ hlen]
    unfold OnPreCommandMatch
    have hf2 : FilterMatch { self with flags := FilterFlags.FLAG_QUIT.toInt } ServerInstance user
        (parameters.getD 0 []) FilterFlags.FLAG_QUIT.toInt = some f := hf
    simp only [Bool.false_eq_true, ↓reduceIte, hf2]
    simp [hkill]
  · intro hlen hex hf
    rw [OnPreCommand_PART _ _ _ _ hlen hex]
    unfold OnPreCommandMatch
    have hf2 : FilterMatch { self with flags := FilterFlags.FLAG_PART.toInt } ServerInstance user
        (parameters.getD 1 []) FilterFlags.FLAG_PART.toInt = some f := hf
    simp only [Bool.false_eq_true, ↓reduceIte, hf2]
    simp [hkill]

/-- C18 (witness): the QUIT reason `bye` and the PART reason `bye` on
`killModule`. -/
theorem C18_kill_on_quit_and_part_witness :
    killModule.OnPreCommand sampleServer "QUIT".toList ["bye".toList] alice true =
        (.MOD_RES_PASSTHRU, ["bye".toList].set 0 "Reason filtered".toList,
          { killModule with flags := FilterFlags.FLAG_QUIT.toInt }, []) ∧
      killModule.OnPreCommand sampleServer "PART".toList ["#c".toList, "bye".toList] alice true =
        (.MOD_RES_DENY, ["#c".toList, "bye".toList].set 1 "Reason filtered".toList,
          { killModule with flags := FilterFlags.FLAG_PART.toInt },
          [Effect.WriteNotice alice.nick "*** Your PART message was filtered: bad".toList,
            Effect.QuitUser alice.nick "Filtered: bad".toList]) :=
  ⟨(C18_kill_on_quit_and_part killModule sampleServer ["bye".toList] alice
      (FilterResult.FillFlags { FilterResult.default with
        regex := some { Matches := fun t => t == "bye".toList }, freeform := "bye".toList,
        reason := "bad".toList, action := FA_KILL } "*".toList).2 rfl).1 (by decide) rfl,
    (C18_kill_on_quit_and_part killModule sampleServer ["#c".toList, "bye".toList] alice
      (FilterResult.FillFlags { FilterResult.default with
        regex := some { Matches := fun t => t == "bye".toList }, freeform := "bye".toList,
        reason := "bad".toList, action := FA_KILL } "*".toList).2 rfl).2
      (by decide) (by decide) rfl⟩

/-- C20: a PART with a reason whose channel parameter is in the channel
exemption set up to case passes through with its parameters unchanged and
without any call, whatever the rule list is: the result is the same for every
rule list put in place of the module's. A QUIT is not subject to any exemption:
its result, parameters and calls are the same whatever the two exemption sets
hold. -/
theorem C20_exempted_part_skips_matching (self : ModuleFilter) (ServerInstance : InspIRCd)
    (parameters : List Str) (user : User) (validated : Bool)
    (hlen : 2 ≤ parameters.length)
    (hex : self.exemptedTarget (.TYPE_CHANNEL (parameters.getD 0 [])) = true) :
    (∀ rules : List FilterResult,
      ({ self with filters := rules }.OnPreCommand ServerInstance "PART".toList parameters user
          validated).1 = .MOD_RES_PASSTHRU ∧
        ({ self with filters := rules }.OnPreCommand ServerInstance "PART".toList parameters user
          validated).2.1 = parameters ∧
        ({ self with filters := rules }.OnPreCommand ServerInstance "PART".toList parameters user
          validated).2.2.2 = []) ∧
    (∀ (chans nicks : List Str) (quitparameters : List Str),
      ({ self with exemptedchans := chans, exemptednicks := nicks }.OnPreCommand ServerInstance
          "QUIT".toList quitparameters user validated).1 =
        (self.OnPreCommand ServerInstance "QUIT".toList quitparameters user validated).1 ∧
      ({ self with exemptedchans := chans, exemptednicks := nicks }.OnPreCommand ServerInstance
          "QUIT".toList quitparameters user validated).2.1 =
        (self.OnPreCommand ServerInstance "QUIT".toList quitparameters user validated).2.1 ∧
      ({ self with exemptedchans := chans, exemptednicks := nicks }.OnPreCommand ServerInstance
          "QUIT".toList quitparameters user validated).2.2.2 =
        (self.OnPreCommand ServerInstance "QUIT".toList quitparameters user validated).2.2.2) := by
  have hcount : ExemptTargetSet.count self.exemptedchans (parameters.getD 0 []) = true := by
    rw [count_eq_any]; exact hex
  have h2 : ¬ parameters.length < 2 := by omega
  have hne : ¬ "PART".toList = "QUIT".toList := by decide
  constructor
  · intro rules
    cases validated with
    | false => simp [OnPreCommand]
    | true =>
      have hcount2 : ExemptTargetSet.count self.exemptedchans (parameters[0]?.getD []) = true := by
        simpa using hcount
      simp [OnPreCommand, hne, h2, hcount2]
  · intro chans nicks quitparameters
    cases validated with
    | false => simp [OnPreCommand]
    | true =>
      by_cases h1 : quitparameters.length < 1
      · simp [OnPreCommand, h1]
      · simp only [OnPreCommand, if_true, if_neg h1, OnPreCommandMatch, FilterMatch]
        generalize (FilterMatchLoop ServerInstance user _ _ self.filters []).1 = r
        cases r with
        | none => simp
        | some f => (simp; split_ifs <;> simp)

/-- C20 (witness): on `exemptModule`, where `#Help` is exempted, the PART of
`#HELP` with the reason `badword`, which the module's BLOCK rule matches; and a
QUIT with that reason, with and without the exemption sets. -/
theorem C20_exempted_part_skips_matching_witness :
    ((exemptModule.OnPreCommand sampleServer "PART".toList ["#HELP".toList, "badword".toList]
        alice true).1 = .MOD_RES_PASSTHRU ∧
      (exemptModule.OnPreCommand sampleServer "PART".toList ["#HELP".toList, "badword".toList]
        alice true).2.1 = ["#HELP".toList, "badword".toList] ∧
      (exemptModule.OnPreCommand sampleServer "PART".toList ["#HELP".toList, "badword".toList]
        alice true).2.2.2 = []) ∧
    (({ exemptModule with exemptedchans := [], exemptednicks := [] }.OnPreCommand sampleServer
          "QUIT".toList ["badword".toList] alice true).1 =
        (exemptModule.OnPreCommand sampleServer "QUIT".toList ["badword".toList] alice true).1 ∧
      ({ exemptModule with exemptedchans := [], exemptednicks := [] }.OnPreCommand sampleServer
          "QUIT".toList ["badword".toList] alice true).2.1 =
        (exemptModule.OnPreCommand sampleServer "QUIT".toList ["badword".toList] alice true).2.1 ∧
      ({ exemptModule with exemptedchans := [], exemptednicks := [] }.OnPreCommand sampleServer
          "QUIT".toList ["badword".toList] alice true).2.2.2 =
        (exemptModule.OnPreCommand sampleServer "QUIT".toList ["badword".toList] alice
          true).2.2.2) :=
  ⟨(C20_exempted_part_skips_matching exemptModule sampleServer
      ["#HELP".toList, "badword".toList] alice true (by decide) (by decide)).1
      exemptModule.filters,
    (C20_exempted_part_skips_matching exemptModule sampleServer
      ["#HELP".toList, "badword".toList] alice true (by decide) (by decide)).2
      [] [] ["badword".toList]⟩

end Commands

/-! ## Configuration reloads and module unloads -/

section Reload

open FilterAction ModuleFilter FilterResult

theorem foldl_ReadExempt_fields (targets : List Str) :
    ∀ self : ModuleFilter,
      (targets.foldl ReadExempt self).filters = self.filters ∧
      (targets.foldl ReadExempt self).RegexEngine = self.RegexEngine ∧
      (targets.foldl ReadExempt self).initing = self.initing ∧
      (targets.foldl ReadExempt self).factory = self.factory ∧
      (targets.foldl ReadExempt self).notifyuser = self.notifyuser := by
  induction targets with
  | nil => intro self; exact ⟨rfl, rfl, rfl, rfl, rfl⟩
  | cons target rest ih =>
    intro self
    rw [List.foldl_cons]
    obtain ⟨h1, h2, h3, h4, h5⟩ := ih (ReadExempt self target)
    rw [h1, h2, h3, h4, h5]
    unfold ReadExempt
    cases target with
    | nil => exact ⟨rfl, rfl, rfl, rfl, rfl⟩
    | cons c cs => by_cases hc : c = '#' <;> simp [hc]

theorem ReadKeyword_RegexEngine (self : ModuleFilter) (shun : Bool) (tag : KeywordTag) :
    (ReadKeyword self shun tag).RegexEngine = self.RegexEngine := by
  unfold ReadKeyword
  simp only
  split <;> rfl

theorem foldl_ReadKeyword_filters (shun : Bool) (keyword : List KeywordTag) :
    ∀ self : ModuleFilter,
      (keyword.foldl (fun self tag => ReadKeyword self shun tag) self).filters =
        self.filters ++ configRules self.RegexEngine shun keyword := by
  induction keyword with
  | nil => intro self; simp [configRules]
  | cons tag rest ih =>
    intro self
    rw [List.foldl_cons, ih, ReadKeyword_RegexEngine]
    unfold ReadKeyword configRules
    simp only [List.filterMap_cons]
    split <;> simp_all

theorem ReadFilters_filters (self : ModuleFilter) (shun : Bool) (keyword : List KeywordTag) :
    (self.ReadFilters shun keyword).filters =
      eraseConfigFilters self.filters ++ configRules self.RegexEngine shun keyword := by
  unfold ReadFilters
  rw [foldl_ReadKeyword_filters]

theorem ReadConfig_filters (self : ModuleFilter) (shun : Bool)
    (services : Str → Option RegexFactory) (config : FilterConfig) (engine : RegexFactory)
    (hnew : services (providerName config.engine) = some engine) :
    (self.ReadConfig shun services config).filters =
      (if !self.initing && self.RegexEngine.value.map (fun (e : RegexFactory) => e.addr)
            != some engine.addr then []
        else eraseConfigFilters self.filters) ++
        configRules { provider := providerName config.engine, value := some engine } shun
          config.keyword := by
  obtain ⟨h1, h2, h3, h4, h5⟩ := foldl_ReadExempt_fields config.exemptfromfilter
    { self with exemptedchans := [], exemptednicks := [] }
  unfold ReadConfig
  simp only [providerName] at hnew
  simp only [hnew, h2, h3]
  rw [ReadFilters_filters]
  split_ifs <;> simp_all [FreeFilters, providerName, eraseConfigFilters]

theorem new_from_config (RegexEngine : dynamic_reference) (free rea : Str) (act : FilterAction)
    (gt : Nat) (fla : Str) (cfg : Bool) (f : FilterResult)
    (h : FilterResult.new RegexEngine free rea act gt fla cfg = .ok f) :
    f.from_config = cfg := by
  unfold FilterResult.new at h
  split at h
  · exact Except.noConfusion h
  · split at h
    · exact Except.noConfusion h
    · have := Except.ok.inj h
      rw [← this]
      exact (FillFlags_fields _ _).2.2.2.2.2

theorem configRules_from_config (RegexEngine : dynamic_reference) (shun : Bool)
    (keyword : List KeywordTag) :
    ∀ f ∈ configRules RegexEngine shun keyword, f.from_config = true := by
  intro f hf
  unfold configRules at hf
  rw [List.mem_filterMap] at hf
  obtain ⟨tag, _, htag⟩ := hf
  split at htag
  · rename_i g hg
    have := Option.some.inj htag
    rw [← this]
    exact new_from_config _ _ _ _ _ _ _ _ hg
  · exact Option.noConfusion htag

/-- C14 (counterexample): `boundModule` is bound to `exactFactory`; a reload
that selects `otherFactory`, with one `keyword` tag configured, leaves a rule
list that is not empty: it holds the rule built from that tag. -/
theorem C14_reload_builds_configured_rules :
    boundModule.initing = false ∧
      boundModule.RegexEngine.value.map (fun (e : RegexFactory) => e.addr) = some 1 ∧
      ((boundModule.ReadConfig false sampleServices (otherConfig [spamTag])).RegexEngine.value).map
        (fun (e : RegexFactory) => e.addr) = some 2 ∧
      (boundModule.ReadConfig false sampleServices (otherConfig [spamTag])).filters.map
        (fun f => (f.freeform, f.from_config)) = [("spam".toList, true)] := by
  refine ⟨rfl, rfl, rfl, by decide⟩

/-- C14 (amended): after a configuration reload, other than the initial load,
that binds the engine to an available backend different from the one bound
before, no rule stored before the reload remains: the rule list consists
exactly of the rules built from the configured `keyword` tags with the new
backend, all of origin CONFIG, and it is empty when no tag is configured. -/
theorem C14_rebinding_drops_prior_rules (self : ModuleFilter) (shun : Bool)
    (services : Str → Option RegexFactory) (config : FilterConfig) (engine : RegexFactory)
    (hinit : self.initing = false)
    (hnew : services (providerName config.engine) = some engine)
    (hdiff : self.RegexEngine.value.map (fun (e : RegexFactory) => e.addr) ≠ some engine.addr) :
    (self.ReadConfig shun services config).filters =
        configRules { provider := providerName config.engine, value := some engine } shun
          config.keyword ∧
      (∀ f ∈ (self.ReadConfig shun services config).filters, f.from_config = true) ∧
      (config.keyword = [] → (self.ReadConfig shun services config).filters = []) := by
  have h := ReadConfig_filters self shun services config engine hnew
  have hc : (!self.initing && self.RegexEngine.value.map (fun (e : RegexFactory) => e.addr)
      != some engine.addr) = true := by
    simp [hinit, hdiff]
  rw [if_pos hc, List.nil_append] at h
  refine ⟨h, ?_, ?_⟩
  · rw [h]; exact configRules_from_config _ _ _
  · intro hk
    rw [h, hk]
    rfl

/-- C14 (witness): the reload of `boundModule` to `otherFactory` with one
`keyword` tag, and with none. -/
theorem C14_rebinding_drops_prior_rules_witness :
    ((boundModule.ReadConfig false sampleServices (otherConfig [spamTag])).filters =
        configRules otherReference false [spamTag] ∧
      (∀ f ∈ (boundModule.ReadConfig false sampleServices (otherConfig [spamTag])).filters,
        f.from_config = true) ∧
      ((otherConfig [spamTag]).keyword = [] →
        (boundModule.ReadConfig false sampleServices (otherConfig [spamTag])).filters = [])) ∧
    (boundModule.ReadConfig false sampleServices (otherConfig [])).filters = [] :=
  ⟨C14_rebinding_drops_prior_rules boundModule false sampleServices (otherConfig [spamTag])
      otherFactory rfl rfl (by decide),
    (C14_rebinding_drops_prior_rules boundModule false sampleServices (otherConfig [])
      otherFactory rfl rfl (by decide)).2.2 rfl⟩

/-- C15 (the code at the failing input): `switchedModule` was reached from a
module bound to `exactFactory` by a reload that switched to `otherFactory`,
followed by the addition of the rule `x`. It is bound to `otherFactory`, and
stays so across `OnUnloadModule`; the event nevertheless empties the rule list,
because `factory` still holds the address of the backend bound before the
reload. -/
theorem C15_unload_purges_after_switch :
    boundModule.RegexEngine.value.map (fun (e : RegexFactory) => e.addr) = some 1 ∧
      switchedModule.RegexEngine.value.map (fun (e : RegexFactory) => e.addr) = some 2 ∧
      switchedModule.factory = some 1 ∧
      switchedModule.filters.map (fun f => f.freeform) = ["x".toList] ∧
      switchedModule.OnUnloadModule.RegexEngine.value.map (fun (e : RegexFactory) => e.addr)
        = some 2 ∧
      switchedModule.OnUnloadModule.filters.map (fun f => f.freeform) = [] := by
  refine ⟨rfl, rfl, rfl, by decide, rfl, by decide⟩

/-- C16 (the code at the failing input): starting from the module as its
constructor leaves it, with no rule, one `ReadConfig` whose configuration holds
the same `keyword` tag twice stores two rules with the label `spam`. -/
theorem C16_reload_stores_duplicate_labels :
    freshModule.filters.map (fun f => f.freeform) = [] ∧
      (freshModule.ReadConfig false sampleServices (otherConfig [spamTag, spamTag])).filters.map
        (fun f => f.freeform) = ["spam".toList, "spam".toList] ∧
      ¬ ((freshModule.ReadConfig false sampleServices
        (otherConfig [spamTag, spamTag])).filters.map (fun f => f.freeform)).Nodup := by
  refine ⟨rfl, by decide, by decide⟩

end Reload

/-! ## Enforcement on messages -/

section Enforcement

open FilterAction ModuleFilter FilterResult

theorem OnUserPreMessage_act (self : ModuleFilter) (ServerInstance : InspIRCd) (user : User)
    (msgtarget : MessageTarget) (details : MessageDetails) (f : FilterResult)
    (hlocal : user.IsLocal = true)
    (hf : self.FilterMatch ServerInstance user details.text details.type.flag.toInt = some f)
    (hex : self.exemptedTarget msgtarget = false) :
    self.OnUserPreMessage ServerInstance user msgtarget details =
      OnUserPreMessageAction { self with flags := details.type.flag.toInt } ServerInstance user
        msgtarget details f msgtarget.targetName := by
  rw [OnUserPreMessage_some _ _ _ _ _ f hlocal hf]
  cases msgtarget with
  | TYPE_USER t =>
    have h : ExemptTargetSet.count self.exemptednicks t.nick = false := by
      rw [count_eq_any]; exact hex
    simp [h, MessageTarget.targetName]
  | TYPE_CHANNEL name =>
    have h : ExemptTargetSet.count self.exemptedchans name = false := by
      rw [count_eq_any]; exact hex
    simp [h, MessageTarget.targetName]
  | TYPE_SERVER name => rfl

theorem OnUserPreMessageAction_result (self : ModuleFilter) (ServerInstance : InspIRCd)
    (user : User) (msgtarget : MessageTarget) (details : MessageDetails) (f : FilterResult)
    (target : Str) :
    (OnUserPreMessageAction self ServerInstance user msgtarget details f target).1 =
      (if f.action = FA_WARN then .MOD_RES_PASSTHRU else .MOD_RES_DENY) := by
  unfold OnUserPreMessageAction
  by_cases h : f.action = FA_WARN <;> simp [h]

theorem OnUserPreMessageAction_warn (self : ModuleFilter) (ServerInstance : InspIRCd)
    (user : User) (msgtarget : MessageTarget) (details : MessageDetails) (f : FilterResult)
    (target : Str) (ha : f.action = FA_WARN) :
    OnUserPreMessageAction self ServerInstance user msgtarget details f target =
      (.MOD_RES_PASSTHRU, details, self,
        [Effect.WriteGlobalSno 'f' ("WARNING: ".toList ++ c_str user.nick
          ++ "'s message to ".toList ++ c_str target ++ " matched ".toList ++ c_str f.freeform
          ++ " (".toList ++ c_str f.reason ++ ")".toList)]) := by
  simp [OnUserPreMessageAction, ha]

theorem OnUserPreMessageAction_block (self : ModuleFilter) (ServerInstance : InspIRCd)
    (user : User) (msgtarget : MessageTarget) (details : MessageDetails) (f : FilterResult)
    (ha : f.action = FA_BLOCK) :
    OnUserPreMessageAction self ServerInstance user msgtarget details f msgtarget.targetName =
      (.MOD_RES_DENY,
        (if self.notifyuser then details else { details with echo_original := true }), self,
        Effect.WriteGlobalSno 'f' (c_str user.nick ++ " had their message to ".toList
            ++ c_str msgtarget.targetName ++ " filtered as it matched ".toList
            ++ c_str f.freeform ++ " (".toList ++ c_str f.reason ++ ")".toList)
          :: (if self.notifyuser then [rejection true user msgtarget f.reason] else [])
          ++ [filteredLog user msgtarget f]) := by
  cases hn : self.notifyuser <;> cases msgtarget <;>
    simp [OnUserPreMessageAction, ha, hn, rejection, filteredLog, MessageTarget.targetName]

theorem OnUserPreMessageAction_silent (self : ModuleFilter) (ServerInstance : InspIRCd)
    (user : User) (msgtarget : MessageTarget) (details : MessageDetails) (f : FilterResult)
    (ha : f.action = FA_SILENT) :
    OnUserPreMessageAction self ServerInstance user msgtarget details f msgtarget.targetName =
      (.MOD_RES_DENY,
        (if self.notifyuser then details else { details with echo_original := true }), self,
        (if self.notifyuser then [rejection false user msgtarget f.reason] else [])
          ++ [filteredLog user msgtarget f]) := by
  cases hn : self.notifyuser <;> cases msgtarget <;>
    simp [OnUserPreMessageAction, ha, hn, rejection, filteredLog, MessageTarget.targetName]

theorem banRequests_addLine (ServerInstance : InspIRCd) (line : XLine) (rest : List Effect) :
    banRequests (addLine ServerInstance line ++ rest) = line :: banRequests rest := by
  unfold addLine
  split <;> simp [banRequests]

theorem OnUserPreMessageAction_bans (self : ModuleFilter) (ServerInstance : InspIRCd)
    (user : User) (msgtarget : MessageTarget) (details : MessageDetails) (f : FilterResult)
    (target : Str) :
    banRequests (OnUserPreMessageAction self ServerInstance user msgtarget details f target).2.2.2
      = (if f.action = FA_GLINE then
          [XLine.GLine ServerInstance.Time f.duration (c_str ServerInstance.ServerName)
            (c_str f.reason) "*".toList user.GetIPString]
        else if f.action = FA_ZLINE then
          [XLine.ZLine ServerInstance.Time f.duration (c_str ServerInstance.ServerName)
            (c_str f.reason) user.GetIPString]
        else if f.action = FA_SHUN ∧ ServerInstance.shun = true then
          [XLine.Shun ServerInstance.Time f.duration (c_str ServerInstance.ServerName)
            (c_str f.reason) user.GetIPString]
        else []) := by
  unfold OnUserPreMessageAction
  cases ha : f.action <;> cases hs : ServerInstance.shun <;> cases hn : self.notifyuser <;>
    cases msgtarget <;>
    simp [banRequests, banRequests_addLine]

end Enforcement

section EnforcementClaims

open FilterAction ModuleFilter FilterResult

theorem requestedBans_eq (ServerInstance : InspIRCd) (user : User) (f : FilterResult) :
    requestedBans ServerInstance user f =
      (if f.action = FA_GLINE then
          [XLine.GLine ServerInstance.Time f.duration (c_str ServerInstance.ServerName)
            (c_str f.reason) "*".toList user.GetIPString]
        else if f.action = FA_ZLINE then
          [XLine.ZLine ServerInstance.Time f.duration (c_str ServerInstance.ServerName)
            (c_str f.reason) user.GetIPString]
        else if f.action = FA_SHUN ∧ ServerInstance.shun = true then
          [XLine.Shun ServerInstance.Time f.duration (c_str ServerInstance.ServerName)
            (c_str f.reason) user.GetIPString]
        else []) := by
  unfold requestedBans
  cases ha : f.action <;> cases hs : ServerInstance.shun <;> simp

theorem banRequests_addLine_only (ServerInstance : InspIRCd) (line : XLine) :
    banRequests (addLine ServerInstance line) = [line] := by
  unfold addLine
  split <;> simp [banRequests]

theorem OnPreCommandMatch_bans (self : ModuleFilter) (ServerInstance : InspIRCd)
    (command : Str) (parameters : List Str) (user : User) (parting : Bool) (f : FilterResult)
    (hf : self.FilterMatch ServerInstance user (parameters.getD (if parting then 1 else 0) [])
      self.flags = some f) :
    banRequests (OnPreCommandMatch self ServerInstance command parameters user parting).2.2.2 =
      requestedBans ServerInstance user f := by
  rw [requestedBans_eq]
  unfold OnPreCommandMatch
  simp only [hf]
  cases ha : f.action <;> cases hs : ServerInstance.shun <;> cases parting <;>
    simp [banRequests, banRequests_addLine_only]

theorem rejection_contains_c_str (opers : Bool) (user : User) (msgtarget : MessageTarget)
    (reason : Str) :
    List.IsInfix (c_str reason) (rejection opers user msgtarget reason).userText := by
  have hsuffix : ∀ (pre : Str), List.IsInfix (c_str reason) (pre ++ reason) := fun pre =>
    List.IsInfix.trans (c_str_initial reason).isInfix (List.suffix_append pre reason).isInfix
  cases msgtarget with
  | TYPE_CHANNEL name => exact ⟨_, ")".toList, rfl⟩
  | TYPE_USER t => exact hsuffix _
  | TYPE_SERVER name => exact hsuffix _

theorem rejection_contains_reason (opers : Bool) (user : User) (msgtarget : MessageTarget)
    (reason : Str) (h : NUL ∉ reason ∨ ∀ name, msgtarget ≠ .TYPE_CHANNEL name) :
    List.IsInfix reason (rejection opers user msgtarget reason).userText := by
  cases msgtarget with
  | TYPE_CHANNEL name =>
    rcases h with h | h
    · have e := rejection_contains_c_str opers user (.TYPE_CHANNEL name) reason
      rw [c_str_of_not_mem reason h] at e
      exact e
    · exact absurd rfl (h name)
  | TYPE_USER t => exact ⟨_, [], by rw [List.append_nil]; rfl⟩
  | TYPE_SERVER name => exact ⟨_, [], by rw [List.append_nil]; rfl⟩

/-- C21 (counterexample): the BLOCK rule of `nulReasonModule` has the reason
`a`, zero byte, `b` and matches the PRIVMSG `badword` that the local sender
`alice` sends to `#chan`, which is not exempted, with sender notification on.
The message is denied, but the numeric that `alice` gets reads
`Message to channel blocked and opers notified (a)`: it holds the reason only
as far as its zero byte, not the rule's reason. -/
theorem C21_channel_rejection_cuts_reason :
    alice.IsLocal = true ∧
      nulReasonModule.exemptedTarget (.TYPE_CHANNEL "#chan".toList) = false ∧
      nulReasonModule.notifyuser = true ∧
      (nulReasonModule.FilterMatch sampleServer alice badwordMessage.text
        FilterFlags.FLAG_PRIVMSG.toInt).map (fun f => (f.action, f.reason)) =
        some (FA_BLOCK, nulReason) ∧
      (nulReasonModule.OnUserPreMessage sampleServer alice (.TYPE_CHANNEL "#chan".toList)
        badwordMessage).1 = .MOD_RES_DENY ∧
      (nulReasonModule.OnUserPreMessage sampleServer alice (.TYPE_CHANNEL "#chan".toList)
        badwordMessage).2.2.2 =
        [Effect.WriteGlobalSno 'f'
            "alice had their message to #chan filtered as it matched badword (a)".toList,
          Effect.WriteNumeric "alice".toList ERR_CANNOTSENDTOCHAN "#chan".toList
            "Message to channel blocked and opers notified (a)".toList,
          Effect.Log ("alice had their message filtered, target was #chan: ".toList
            ++ nulReason ++ " Action: block".toList)] ∧
      ¬ List.IsInfix nulReason "Message to channel blocked and opers notified (a)".toList := by
  refine ⟨rfl, by decide, rfl, by decide, by decide, by decide, ?_⟩
  intro h
  have hmem : NUL ∈ "Message to channel blocked and opers notified (a)".toList :=
    h.subset (by decide)
  exact absurd hmem (by decide)

/-- C21 (amended): for a message of a local sender to a target that is not
exempted, matched by the rule `f`. BLOCK: the message is denied and the
operators get a server notice; with sender notification the sender gets a
rejection and the details are untouched, without it nothing is sent to the
sender and the echo-original flag is set. The rejection holds the rule's reason
as far as its first zero byte, and the whole reason when the reason has no zero
byte or the target is not a channel. SILENT: the same, with the wording that
leaves the operators out and without the server notice. WARN: the operators get
a server notice, the details are untouched and the message passes through. -/
theorem C21_block_silent_warn (self : ModuleFilter) (ServerInstance : InspIRCd) (user : User)
    (msgtarget : MessageTarget) (details : MessageDetails) (f : FilterResult)
    (hlocal : user.IsLocal = true)
    (hf : self.FilterMatch ServerInstance user details.text details.type.flag.toInt = some f)
    (hex : self.exemptedTarget msgtarget = false) :
    (f.action = FA_BLOCK →
      self.OnUserPreMessage ServerInstance user msgtarget details =
        (.MOD_RES_DENY,
          (if self.notifyuser then details else { details with echo_original := true }),
          { self with flags := details.type.flag.toInt },
          Effect.WriteGlobalSno 'f' (c_str user.nick ++ " had their message to ".toList
              ++ c_str msgtarget.targetName ++ " filtered as it matched ".toList
              ++ c_str f.freeform ++ " (".toList ++ c_str f.reason ++ ")".toList)
            :: (if self.notifyuser then [rejection true user msgtarget f.reason] else [])
            ++ [filteredLog user msgtarget f])) ∧
    (f.action = FA_SILENT →
      self.OnUserPreMessage ServerInstance user msgtarget details =
        (.MOD_RES_DENY,
          (if self.notifyuser then details else { details with echo_original := true }),
          { self with flags := details.type.flag.toInt },
          (if self.notifyuser then [rejection false user msgtarget f.reason] else [])
            ++ [filteredLog user msgtarget f])) ∧
    (f.action = FA_WARN →
      self.OnUserPreMessage ServerInstance user msgtarget details =
        (.MOD_RES_PASSTHRU, details, { self with flags := details.type.flag.toInt },
          [Effect.WriteGlobalSno 'f' ("WARNING: ".toList ++ c_str user.nick
            ++ "'s message to ".toList ++ c_str msgtarget.targetName ++ " matched ".toList
            ++ c_str f.freeform ++ " (".toList ++ c_str f.reason ++ ")".toList)])) ∧
    (∀ opers : Bool,
      List.IsInfix (c_str f.reason) (rejection opers user msgtarget f.reason).userText) ∧
    (∀ opers : Bool, (NUL ∉ f.reason ∨ ∀ name, msgtarget ≠ .TYPE_CHANNEL name) →
      List.IsInfix f.reason (rejection opers user msgtarget f.reason).userText) ∧
    (f.action = FA_SILENT →
      operNotices (self.OnUserPreMessage ServerInstance user msgtarget details).2.2.2 = []) := by
  rw [OnUserPreMessage_act self ServerInstance user msgtarget details f hlocal hf hex]
  refine ⟨fun ha => ?_, fun ha => ?_, fun ha => ?_,
    fun opers => rejection_contains_c_str opers user msgtarget f.reason,
    fun opers h => rejection_contains_reason opers user msgtarget f.reason h, fun ha => ?_⟩
  · exact OnUserPreMessageAction_block _ _ _ _ _ _ ha
  · exact OnUserPreMessageAction_silent _ _ _ _ _ _ ha
  · exact OnUserPreMessageAction_warn _ _ _ _ _ _ _ ha
  · rw [OnUserPreMessageAction_silent _ _ _ _ _ _ ha]
    cases self.notifyuser <;> cases msgtarget <;>
      simp [operNotices, rejection, filteredLog]

/-- C21 (witness): the PRIVMSG `badword` of `alice` to `#chan` on
`blockModule`. -/
theorem C21_block_silent_warn_witness :
    (blockModule.OnUserPreMessage sampleServer alice (.TYPE_CHANNEL "#chan".toList)
        badwordMessage).1 = .MOD_RES_DENY ∧
      (blockModule.OnUserPreMessage sampleServer alice (.TYPE_CHANNEL "#chan".toList)
        badwordMessage).2.2.2 =
        [Effect.WriteGlobalSno 'f'
            "alice had their message to #chan filtered as it matched badword (no)".toList,
          Effect.WriteNumeric "alice".toList ERR_CANNOTSENDTOCHAN "#chan".toList
            "Message to channel blocked and opers notified (no)".toList,
          Effect.Log
            "alice had their message filtered, target was #chan: no Action: block".toList] :=
  ⟨congrArg (fun r => r.1)
      ((C21_block_silent_warn blockModule sampleServer alice (.TYPE_CHANNEL "#chan".toList)
        badwordMessage _ rfl rfl (by decide)).1 rfl),
    congrArg (fun r => r.2.2.2)
      ((C21_block_silent_warn blockModule sampleServer alice (.TYPE_CHANNEL "#chan".toList)
        badwordMessage _ rfl rfl (by decide)).1 rfl)⟩

/-- C22 (counterexample): on `glineExemptModule` the GLINE rule matches the
PRIVMSG `spam bot` that `alice` sends to the exempted channel `#help`, yet the
message passes through and no ban is requested. On `nulGlineModule` the GLINE
rule has the reason `a`, zero byte, `b`; the QUIT reason `spam bot` gives one
request for a ban of 600 seconds whose reason is `a`, not the rule's reason. -/
theorem C22_exempted_target_no_ban :
    alice.IsLocal = true ∧
      (glineExemptModule.FilterMatch sampleServer alice spamMessage.text
        FilterFlags.FLAG_PRIVMSG.toInt).map (fun f => f.action) = some FA_GLINE ∧
      (glineExemptModule.OnUserPreMessage sampleServer alice (.TYPE_CHANNEL "#help".toList)
        spamMessage).1 = .MOD_RES_PASSTHRU ∧
      (glineExemptModule.OnUserPreMessage sampleServer alice (.TYPE_CHANNEL "#help".toList)
        spamMessage).2.2.2 = [] ∧
      (nulGlineModule.FilterMatch sampleServer alice "spam bot".toList
        FilterFlags.FLAG_QUIT.toInt).map (fun f => (f.action, f.duration, f.reason)) =
        some (FA_GLINE, 600, nulReason) ∧
      banRequests (nulGlineModule.OnPreCommand sampleServer "QUIT".toList ["spam bot".toList]
        alice true).2.2.2 =
        [XLine.GLine 1000 600 "irc.example.net".toList "a".toList "*".toList
          "192.0.2.7".toList] ∧
      nulReason ≠ "a".toList := by
  refine ⟨rfl, by decide, by decide, by decide, by decide, by decide, by decide⟩

/-- C22 (amended): the ban requests made for a matched rule `f` are those of
its action: for GLINE a ban on ident `*` at the sender's address, for ZLINE a
ban on the address, for SHUN a shun on the address exactly when the shun
capability is available, each with the rule's duration and the rule's reason as
far as its first zero byte, and none otherwise. This holds for a message of a
local sender to a target that is not exempted, for a validated QUIT with a
reason and for a validated PART with a reason to a channel that is not
exempted; for QUIT and PART the reason is rewritten as well. -/
theorem C22_ban_requests (self : ModuleFilter) (ServerInstance : InspIRCd) (user : User)
    (f : FilterResult) :
    (∀ (msgtarget : MessageTarget) (details : MessageDetails),
      user.IsLocal = true →
      self.FilterMatch ServerInstance user details.text details.type.flag.toInt = some f →
      self.exemptedTarget msgtarget = false →
      banRequests (self.OnUserPreMessage ServerInstance user msgtarget details).2.2.2 =
        requestedBans ServerInstance user f) ∧
    (∀ parameters : List Str, 1 ≤ parameters.length →
      self.FilterMatch ServerInstance user (parameters.getD 0 [])
        FilterFlags.FLAG_QUIT.toInt = some f →
      banRequests (self.OnPreCommand ServerInstance "QUIT".toList parameters user true).2.2.2 =
          requestedBans ServerInstance user f ∧
        (self.OnPreCommand ServerInstance "QUIT".toList parameters user true).2.1 =
          parameters.set 0 "Reason filtered".toList) ∧
    (∀ parameters : List Str, 2 ≤ parameters.length →
      ExemptTargetSet.count self.exemptedchans (parameters.getD 0 []) = false →
      self.FilterMatch ServerInstance user (parameters.getD 1 [])
        FilterFlags.FLAG_PART.toInt = some f →
      banRequests (self.OnPreCommand ServerInstance "PART".toList parameters user true).2.2.2 =
          requestedBans ServerInstance user f ∧
        (self.OnPreCommand ServerInstance "PART".toList parameters user true).2.1 =
          parameters.set 1 "Reason filtered".toList) ∧
    (f.action = FA_GLINE → requestedBans ServerInstance user f =
      [XLine.GLine ServerInstance.Time f.duration (c_str ServerInstance.ServerName)
        (c_str f.reason) "*".toList user.GetIPString]) ∧
    (f.action = FA_ZLINE → requestedBans ServerInstance user f =
      [XLine.ZLine ServerInstance.Time f.duration (c_str ServerInstance.ServerName)
        (c_str f.reason) user.GetIPString]) ∧
    (f.action = FA_SHUN → requestedBans ServerInstance user f =
      (if ServerInstance.shun then
        [XLine.Shun ServerInstance.Time f.duration (c_str ServerInstance.ServerName)
          (c_str f.reason) user.GetIPString]
      else [])) ∧
    (NUL ∉ f.reason → c_str f.reason = f.reason) := by
  refine ⟨?_, ?_, ?_, ?_, ?_, ?_, c_str_of_not_mem f.reason⟩
  · intro msgtarget details hlocal hf hex
    rw [OnUserPreMessage_act self ServerInstance user msgtarget details f hlocal hf hex,
      OnUserPreMessageAction_bans, requestedBans_eq]
  · intro parameters hlen hf
    rw [OnPreCommand_QUIT _ _ _ _ hlen]
    exact ⟨OnPreCommandMatch_bans { self with flags := FilterFlags.FLAG_QUIT.toInt }
        ServerInstance "QUIT".toList parameters user false f hf,
      OnPreCommandMatch_parameters { self with flags := FilterFlags.FLAG_QUIT.toInt }
        ServerInstance "QUIT".toList parameters user false f hf⟩
  · intro parameters hlen hex hf
    rw [OnPreCommand_PART _ _ _ _ hlen hex]
    exact ⟨OnPreCommandMatch_bans { self with flags := FilterFlags.FLAG_PART.toInt }
        ServerInstance "PART".toList parameters user true f hf,
      OnPreCommandMatch_parameters { self with flags := FilterFlags.FLAG_PART.toInt }
        ServerInstance "PART".toList parameters user true f hf⟩
  · intro ha; simp [requestedBans, ha]
  · intro ha; simp [requestedBans, ha]
  · intro ha; simp [requestedBans, ha]

/-- C22 (witness): on `glineModule` the QUIT reason `spam bot` gives one
request, for a ban of 600 seconds on `*` at the address of `alice`, and the
reason is rewritten. -/
theorem C22_ban_requests_witness :
    banRequests (glineModule.OnPreCommand sampleServer "QUIT".toList ["spam bot".toList] alice
        true).2.2.2 =
        [XLine.GLine 1000 600 "irc.example.net".toList "spam bot".toList "*".toList
          "192.0.2.7".toList] ∧
      (glineModule.OnPreCommand sampleServer "QUIT".toList ["spam bot".toList] alice true).2.1 =
        ["Reason filtered".toList] :=
  (C22_ban_requests glineModule sampleServer alice _).2.1 ["spam bot".toList] (by decide) rfl

/-- C30: a message of a sender who is not local passes through, and so does a
message that no rule matches; a message of a local sender to a target that is
not exempted, matched by the rule `f`, passes through exactly when the action
of `f` is WARN and is denied for every other action. -/
theorem C30_only_warn_passes (self : ModuleFilter) (ServerInstance : InspIRCd) (user : User)
    (msgtarget : MessageTarget) (details : MessageDetails) :
    (user.IsLocal = false →
      (self.OnUserPreMessage ServerInstance user msgtarget details).1 = .MOD_RES_PASSTHRU) ∧
    (user.IsLocal = true →
      self.FilterMatch ServerInstance user details.text details.type.flag.toInt = none →
      (self.OnUserPreMessage ServerInstance user msgtarget details).1 = .MOD_RES_PASSTHRU) ∧
    (∀ f : FilterResult, user.IsLocal = true →
      self.FilterMatch ServerInstance user details.text details.type.flag.toInt = some f →
      self.exemptedTarget msgtarget = false →
      ((self.OnUserPreMessage ServerInstance user msgtarget details).1 = .MOD_RES_PASSTHRU ↔
          f.action = FA_WARN) ∧
        (f.action ≠ FA_WARN →
          (self.OnUserPreMessage ServerInstance user msgtarget details).1 = .MOD_RES_DENY)) := by
  refine ⟨?_, ?_, ?_⟩
  · intro hlocal
    rw [OnUserPreMessage_remote _ _ _ _ _ hlocal]
  · intro hlocal hf
    rw [OnUserPreMessage_none _ _ _ _ _ hlocal hf]
  · intro f hlocal hf hex
    rw [OnUserPreMessage_act self ServerInstance user msgtarget details f hlocal hf hex,
      OnUserPreMessageAction_result]
    by_cases ha : f.action = FA_WARN
    · simp [ha]
    · simp [ha]

/-- C30 (witness): on `noneModule`, whose rule has the action NONE, the
PRIVMSG `badword` of `alice` to `#chan` is denied; the same message of a sender
who is not local passes through. -/
theorem C30_only_warn_passes_witness :
    (noneModule.OnUserPreMessage sampleServer alice (.TYPE_CHANNEL "#chan".toList)
        badwordMessage).1 = .MOD_RES_DENY ∧
      (noneModule.OnUserPreMessage sampleServer { alice with IsLocal := false }
        (.TYPE_CHANNEL "#chan".toList) badwordMessage).1 = .MOD_RES_PASSTHRU :=
  ⟨((C30_only_warn_passes noneModule sampleServer alice (.TYPE_CHANNEL "#chan".toList)
      badwordMessage).2.2 _ rfl rfl (by decide)).2 (by decide),
    (C30_only_warn_passes noneModule sampleServer { alice with IsLocal := false }
      (.TYPE_CHANNEL "#chan".toList) badwordMessage).1 rfl⟩

end EnforcementClaims

/-! ## Removal, replication and reload -/

section StoreOperations

open FilterAction ModuleFilter FilterResult

theorem DeleteFilterLoop_eq (freeform : Str) (l : List FilterResult) :
    DeleteFilterLoop freeform l =
      (if l.any (fun i => i.freeform == freeform) then
        some (l.eraseP (fun i => i.freeform == freeform))
      else none) := by
  induction l with
  | nil => rfl
  | cons i rest ih =>
    unfold DeleteFilterLoop
    by_cases h : i.freeform = freeform
    · simp [h]
    · rw [if_neg h, ih]
      by_cases hr : rest.any (fun i => i.freeform == freeform) = true
      · simp [h, hr, List.eraseP_cons]
      · simp [h, hr]

theorem OnSyncNetworkLoop_eq (l : List FilterResult) :
    OnSyncNetworkLoop l =
      (l.filter (fun f => !f.from_config)).map (fun f => ("filter".toList, EncodeFilter f)) := by
  induction l with
  | nil => rfl
  | cons f rest ih =>
    unfold OnSyncNetworkLoop
    cases h : f.from_config <;> simp [h, ih]

theorem eraseConfigFilters_eq (l : List FilterResult) :
    eraseConfigFilters l = l.filter (fun f => !f.from_config) := by
  induction l with
  | nil => rfl
  | cons f rest ih =>
    unfold eraseConfigFilters
    cases h : f.from_config <;> simp [h, ih]

/-- C23: `OnSyncNetwork` sends, in the order of the rule list, one metadata
record with the key `filter` per rule of origin RUNTIME, whose value is
`EncodeFilter` of that rule; it sends nothing for a rule of origin CONFIG and
leaves the module as it was. -/
theorem C23_OnSyncNetwork_runtime_rules (self : ModuleFilter) :
    self.OnSyncNetwork.1 =
        (self.filters.filter (fun f => !f.from_config)).map
          (fun f => ("filter".toList, EncodeFilter f)) ∧
      self.OnSyncNetwork.1.length = (self.filters.filter (fun f => !f.from_config)).length ∧
      self.OnSyncNetwork.2 = self := by
  have h : self.OnSyncNetwork.1 =
      (self.filters.filter (fun f => !f.from_config)).map
        (fun f => ("filter".toList, EncodeFilter f)) := OnSyncNetworkLoop_eq self.filters
  refine ⟨h, ?_, rfl⟩
  rw [h, List.length_map]

/-- C26: `DeleteFilter` returns true exactly when some rule has the label; the
list afterwards is the old list without the first rule of that label, the other
rules in their order; when it returns false nothing changes. -/
theorem C26_DeleteFilter_first (self : ModuleFilter) (freeform : Str) :
    ((self.DeleteFilter freeform).1 = true ↔ ∃ f ∈ self.filters, f.freeform = freeform) ∧
      (self.DeleteFilter freeform).2.filters =
        self.filters.eraseP (fun i => i.freeform == freeform) ∧
      ((self.DeleteFilter freeform).1 = true →
        ∃ (before : List FilterResult) (f : FilterResult) (after : List FilterResult),
          self.filters = before ++ f :: after ∧ f.freeform = freeform ∧
          (∀ r ∈ before, r.freeform ≠ freeform) ∧
          (self.DeleteFilter freeform).2.filters = before ++ after) ∧
      ((self.DeleteFilter freeform).1 = false → (self.DeleteFilter freeform).2 = self) := by
  unfold DeleteFilter
  rw [DeleteFilterLoop_eq]
  by_cases h : self.filters.any (fun i => i.freeform == freeform) = true
  · have hex := (any_freeform_iff self.filters freeform).1 h
    rw [if_pos h]
    refine ⟨⟨fun _ => hex, fun _ => rfl⟩, rfl, fun _ => ?_, fun hfalse => ?_⟩
    · obtain ⟨f, hf, he⟩ := hex
      obtain ⟨a, l₁, l₂, h1, h2, h3, h4⟩ :=
        List.exists_of_eraseP (p := fun i : FilterResult => i.freeform == freeform) hf
          (by simpa using he)
      refine ⟨l₁, a, l₂, h3, by simpa using h2, ?_, h4⟩
      intro r hr
      simpa using h1 r hr
    · exact Bool.noConfusion hfalse
  · have hno : ¬ ∃ f ∈ self.filters, f.freeform = freeform :=
      fun hex => h ((any_freeform_iff self.filters freeform).2 hex)
    have herase : self.filters.eraseP (fun i => i.freeform == freeform) = self.filters := by
      apply List.eraseP_of_forall_not
      intro a ha
      simp only [beq_iff_eq]
      exact fun e => hno ⟨a, ha, e⟩
    rw [if_neg h]
    refine ⟨⟨fun hc => Bool.noConfusion hc, fun hex => absurd hex hno⟩, herase.symm,
      fun hc => Bool.noConfusion hc, fun _ => rfl⟩

/-- C26 (witness): removing `hello world` from `boundModule`, which holds that
rule only. -/
theorem C26_DeleteFilter_first_witness :
    (boundModule.DeleteFilter "hello world".toList).1 = true ∧
      (boundModule.DeleteFilter "nothing".toList).2 = boundModule :=
  ⟨(C26_DeleteFilter_first boundModule "hello world".toList).1.2
      ⟨_, List.mem_singleton.2 rfl, rfl⟩,
    (C26_DeleteFilter_first boundModule "nothing".toList).2.2.2 rfl⟩

theorem namesFlag_GetFlags (r : FilterResult) :
    namesFlag 'o' r.GetFlags = r.flag_no_opers ∧ namesFlag 'P' r.GetFlags = r.flag_part_message ∧
      namesFlag 'q' r.GetFlags = r.flag_quit_message ∧ namesFlag 'p' r.GetFlags = r.flag_privmsg ∧
      namesFlag 'n' r.GetFlags = r.flag_notice ∧ namesFlag 'c' r.GetFlags = r.flag_strip_color := by
  obtain ⟨rx, ff, rs, a, d, fc, b1, b2, b3, b4, b5, b6⟩ := r
  cases b1 <;> cases b2 <;> cases b3 <;> cases b4 <;> cases b5 <;> cases b6 <;>
    exact ⟨rfl, rfl, rfl, rfl, rfl, rfl⟩

theorem AddFilter_present (self : ModuleFilter) (freeform : Str) (type : FilterAction)
    (reason : Str) (duration : Nat) (flgs : Str)
    (hdup : ∃ f ∈ self.filters, f.freeform = freeform) :
    self.AddFilter freeform type reason duration flgs =
      ((false, "Filter already exists".toList), self) := by
  unfold AddFilter
  rw [if_pos ((any_freeform_iff self.filters freeform).2 hdup)]

theorem AddFilter_nocompile (self : ModuleFilter) (freeform : Str) (type : FilterAction)
    (reason : Str) (duration : Nat) (flgs : Str)
    (hfail : self.RegexEngine.value = none ∨
      ∃ engine, self.RegexEngine.value = some engine ∧ compiles engine freeform = false) :
    (self.AddFilter freeform type reason duration flgs).2 = self := by
  unfold AddFilter
  split
  · rfl
  · unfold FilterResult.new
    rcases hfail with hv | ⟨engine, hv, hc⟩
    · rw [hv]
    · rw [hv]
      unfold compiles at hc
      cases hcr : engine.Create freeform with
      | error e => simp only [hcr]
      | ok rx => rw [hcr] at hc; exact Bool.noConfusion hc

/-- C24: a metadata record that has a target, or a key other than `filter`,
leaves the module as it was. For the key `filter` and no target: when decoding
fails, when the decoded label is stored already, and when no backend is bound
or the bound backend does not compile the label, the module is as it was (the
function always returns, no exception leaves it); otherwise exactly one rule is
appended, which has the decoded label, action, reason, duration and flags, the
matcher just compiled and origin RUNTIME. -/
theorem C24_OnDecodeMetaData (self : ModuleFilter) (shun : Bool) (target : Option Nat)
    (extname extdata : Str) :
    ((target ≠ none ∨ extname ≠ "filter".toList) →
      self.OnDecodeMetaData shun target extname extdata = self) ∧
    (∀ e : Str, DecodeFilter shun extdata = .error e →
      self.OnDecodeMetaData shun none "filter".toList extdata = self) ∧
    (∀ d : FilterResult, DecodeFilter shun extdata = .ok d →
      ((∃ f ∈ self.filters, f.freeform = d.freeform) →
        self.OnDecodeMetaData shun none "filter".toList extdata = self) ∧
      ((self.RegexEngine.value = none ∨
          ∃ engine, self.RegexEngine.value = some engine ∧ compiles engine d.freeform = false) →
        self.OnDecodeMetaData shun none "filter".toList extdata = self) ∧
      (∀ (engine : RegexFactory) (rx : Regex),
        (∀ f ∈ self.filters, f.freeform ≠ d.freeform) →
        self.RegexEngine.value = some engine → engine.Create d.freeform = .ok rx →
        ∃ f : FilterResult,
          self.OnDecodeMetaData shun none "filter".toList extdata =
            { self with filters := self.filters ++ [f] } ∧
          f.freeform = d.freeform ∧ f.action = d.action ∧ f.reason = d.reason ∧
          f.duration = d.duration ∧ f.from_config = false ∧ f.regex = some rx ∧
          f.flag_no_opers = d.flag_no_opers ∧ f.flag_part_message = d.flag_part_message ∧
          f.flag_quit_message = d.flag_quit_message ∧ f.flag_privmsg = d.flag_privmsg ∧
          f.flag_notice = d.flag_notice ∧ f.flag_strip_color = d.flag_strip_color)) := by
  refine ⟨?_, ?_, ?_⟩
  · intro h
    unfold OnDecodeMetaData
    rw [if_neg]
    intro hc
    rcases h with h | h
    · exact h hc.1
    · exact h hc.2
  · intro e he
    simp [OnDecodeMetaData, he]
  · intro d hd
    have hrun : self.OnDecodeMetaData shun none "filter".toList extdata =
        (self.AddFilter d.freeform d.action d.reason d.duration d.GetFlags).2 := by
      simp [OnDecodeMetaData, hd]
    rw [hrun]
    refine ⟨?_, ?_, ?_⟩
    · intro hdup
      rw [AddFilter_present _ _ _ _ _ _ hdup]
    · intro hfail
      exact AddFilter_nocompile _ _ _ _ _ _ hfail
    · intro engine rx hnew hv hc
      obtain ⟨f, hadd, ⟨g1, g2, g3, g4, g5, g6⟩, ⟨n1, n2, n3, n4, n5, n6⟩⟩ :=
        AddFilter_fresh_fields self d.freeform d.action d.reason d.duration d.GetFlags
          engine rx hnew hv hc
      obtain ⟨m1, m2, m3, m4, m5, m6⟩ := namesFlag_GetFlags d
      refine ⟨f, by rw [hadd], g2, g4, g3, g5, g6, g1, ?_, ?_, ?_, ?_, ?_, ?_⟩
      · rw [n1, m1]
      · rw [n2, m2]
      · rw [n3, m3]
      · rw [n4, m4]
      · rw [n5, m5]
      · rw [n6, m6]

/-- C24 (witness): on `boundModule` the example line, whose label is stored
already, changes nothing, and so does a line with an unknown action; the line
`x block c 0 :r` appends one rule. -/
theorem C24_OnDecodeMetaData_witness :
    boundModule.OnDecodeMetaData false none "filter".toList helloLine = boundModule ∧
      boundModule.OnDecodeMetaData false none "filter".toList "x bogus c 0 :r".toList =
        boundModule ∧
      (∃ f : FilterResult,
        boundModule.OnDecodeMetaData false none "filter".toList "x block c 0 :r".toList =
          { boundModule with filters := boundModule.filters ++ [f] } ∧
        f.freeform = "x".toList ∧ f.action = FA_BLOCK ∧ f.reason = "r".toList ∧
        f.duration = 0 ∧ f.from_config = false ∧
        f.regex = some { Matches := fun t => t == "x".toList } ∧
        f.flag_no_opers = false ∧ f.flag_part_message = false ∧
        f.flag_quit_message = false ∧ f.flag_privmsg = false ∧
        f.flag_notice = false ∧ f.flag_strip_color = true) :=
  ⟨((C24_OnDecodeMetaData boundModule false none "filter".toList helloLine).2.2 helloRule
      rfl).1 ⟨_, List.mem_singleton.2 rfl, rfl⟩,
    (C24_OnDecodeMetaData boundModule false none "filter".toList "x bogus c 0 :r".toList).2.1
      "Invalid action: bogus".toList rfl,
    ((C24_OnDecodeMetaData boundModule false none "filter".toList "x block c 0 :r".toList).2.2
      { FilterResult.default with
        freeform := "x".toList, action := FA_BLOCK, reason := "r".toList,
        flag_strip_color := true } rfl).2.2 exactFactory
      { Matches := fun t => t == "x".toList }
      (by intro f hf; rw [List.mem_singleton.1 hf]; decide) rfl rfl⟩

end StoreOperations

section Reloads

open FilterAction ModuleFilter FilterResult

theorem configRules_cons (RegexEngine : dynamic_reference) (shun : Bool) (tag : KeywordTag)
    (rest : List KeywordTag) :
    configRules RegexEngine shun (tag :: rest) =
      (match FilterResult.new RegexEngine tag.pattern tag.reason
          (match StringToFilterAction shun tag.action with
            | some fa => fa
            | none => FA_NONE)
          tag.duration (if tag.flags.isEmpty then "*".toList else tag.flags) true with
        | .ok f => [f]
        | .error _ => []) ++ configRules RegexEngine shun rest := by
  unfold configRules
  rw [List.filterMap_cons]
  cases FilterResult.new RegexEngine tag.pattern tag.reason
    (match StringToFilterAction shun tag.action with
      | some fa => fa
      | none => FA_NONE)
    tag.duration (if tag.flags.isEmpty then "*".toList else tag.flags) true <;> rfl

theorem new_ok_fields (RegexEngine : dynamic_reference) (engine : RegexFactory)
    (hv : RegexEngine.value = some engine) (free rea : Str) (act : FilterAction) (gt : Nat)
    (fla : Str) (cfg : Bool) :
    (∀ e, engine.Create free = .error e →
      FilterResult.new RegexEngine free rea act gt fla cfg = .error e) ∧
    (∀ rx, engine.Create free = .ok rx →
      ∃ f, FilterResult.new RegexEngine free rea act gt fla cfg = .ok f ∧
        f.freeform = free ∧ f.reason = rea ∧ f.duration = gt ∧ f.from_config = cfg) := by
  unfold FilterResult.new
  rw [hv]
  constructor
  · intro e he
    simp only [he]
  · intro rx hrx
    simp only [hrx]
    exact ⟨_, rfl, (FillFlags_fields _ _).2.1, (FillFlags_fields _ _).2.2.1,
      (FillFlags_fields _ _).2.2.2.2.1, (FillFlags_fields _ _).2.2.2.2.2⟩

theorem configRules_labels (RegexEngine : dynamic_reference) (engine : RegexFactory)
    (shun : Bool) (hv : RegexEngine.value = some engine) (keyword : List KeywordTag) :
    (configRules RegexEngine shun keyword).map
        (fun f => (f.freeform, f.reason, f.duration, f.from_config)) =
      (keyword.filter (fun tag => compiles engine tag.pattern)).map
        (fun tag => (tag.pattern, tag.reason, tag.duration, true)) := by
  induction keyword with
  | nil => rfl
  | cons tag rest ih =>
    rw [configRules_cons, List.map_append, ih, List.filter_cons]
    obtain ⟨herr, hok⟩ := new_ok_fields RegexEngine engine hv tag.pattern tag.reason
      (match StringToFilterAction shun tag.action with
        | some fa => fa
        | none => FA_NONE)
      tag.duration (if tag.flags.isEmpty then "*".toList else tag.flags) true
    cases hc : engine.Create tag.pattern with
    | error e =>
      rw [herr e hc]
      simp [compiles, hc]
    | ok rx =>
      obtain ⟨f, hf, g1, g2, g3, g4⟩ := hok rx hc
      rw [hf]
      simp [compiles, hc, g1, g2, g3, g4]

/-- C25: `ReadFilters` leaves the stored rules of origin RUNTIME, unchanged
and in their order, followed by the rules built from the `keyword` tags, all of
origin CONFIG; every rule of origin CONFIG stored before is gone. With a
backend bound there is one new rule per tag whose pattern the backend compiles,
in the order of the tags, with the tag's pattern as label and its reason and
duration. -/
theorem C25_ReadFilters_keeps_runtime (self : ModuleFilter) (shun : Bool)
    (keyword : List KeywordTag) :
    (self.ReadFilters shun keyword).filters =
        self.filters.filter (fun f => !f.from_config) ++
          configRules self.RegexEngine shun keyword ∧
      (∀ f ∈ configRules self.RegexEngine shun keyword, f.from_config = true) ∧
      (∀ engine : RegexFactory, self.RegexEngine.value = some engine →
        (configRules self.RegexEngine shun keyword).map
            (fun f => (f.freeform, f.reason, f.duration, f.from_config)) =
          (keyword.filter (fun tag => compiles engine tag.pattern)).map
            (fun tag => (tag.pattern, tag.reason, tag.duration, true))) := by
  refine ⟨?_, configRules_from_config _ _ _, ?_⟩
  · rw [ReadFilters_filters, eraseConfigFilters_eq]
  · intro engine hv
    exact configRules_labels _ engine shun hv keyword

/-- C25 (witness): on `boundModule` after a first reload that configured
`spam`, a second reload with the tags `spam` and the empty pattern: the
configured rules are exactly the one for `spam`. -/
theorem C25_ReadFilters_keeps_runtime_witness :
    (configRules (boundModule.ReadFilters false [spamTag]).RegexEngine false
        [spamTag, emptyTag]).map (fun f => (f.freeform, f.reason, f.duration, f.from_config)) =
      ([spamTag, emptyTag].filter (fun tag => compiles exactFactory tag.pattern)).map
        (fun tag => (tag.pattern, tag.reason, tag.duration, true)) :=
  (C25_ReadFilters_keeps_runtime (boundModule.ReadFilters false [spamTag]) false
    [spamTag, emptyTag]).2.2 exactFactory rfl

theorem AddFilter_success (self : ModuleFilter) (freeform : Str) (type : FilterAction)
    (reason : Str) (duration : Nat) (flgs : Str)
    (h : (self.AddFilter freeform type reason duration flgs).1.1 = true) :
    ∃ f : FilterResult,
      (self.AddFilter freeform type reason duration flgs).2 =
        { self with filters := self.filters ++ [f] } ∧
      f.freeform = freeform ∧ f.action = type ∧ f.reason = reason ∧ f.duration = duration ∧
      f.from_config = false := by
  unfold AddFilter at h ⊢
  split at h
  · exact Bool.noConfusion h
  · rename_i hany
    rw [if_neg hany]
    cases hnew : FilterResult.new self.RegexEngine freeform reason type duration flgs false with
    | error e => rw [hnew] at h; exact Bool.noConfusion h
    | ok f =>
      refine ⟨f, rfl, ?_⟩
      unfold FilterResult.new at hnew
      split at hnew
      · exact Except.noConfusion hnew
      · split at hnew
        · exact Except.noConfusion hnew
        · have hf := Except.ok.inj hnew
          rw [← hf]
          exact ⟨(FillFlags_fields _ _).2.1, (FillFlags_fields _ _).2.2.2.1,
            (FillFlags_fields _ _).2.2.1, (FillFlags_fields _ _).2.2.2.2.1,
            (FillFlags_fields _ _).2.2.2.2.2⟩

theorem Handle_add (creator : ModuleFilter) (ServerInstance : InspIRCd)
    (Duration : Str → Option Nat) (user : User) (parameters : List Str)
    (type : FilterAction) (reasonindex duration : Nat)
    (hlen : 4 ≤ parameters.length)
    (htype : StringToFilterAction ServerInstance.shun (parameters.getD 1 []) = some type)
    (htimed : (if type = FA_GLINE ∨ type = FA_ZLINE ∨ type = FA_SHUN then
        if parameters.length ≥ 5 then
          match Duration (parameters.getD 3 []) with
          | none => none
          | some duration => some (4, duration)
        else none
      else some (3, 0)) = some (reasonindex, duration)) :
    (CommandFilter.Handle creator ServerInstance Duration user parameters).1 =
        (if (creator.AddFilter (parameters.getD 0 []) type (parameters.getD reasonindex [])
            duration (parameters.getD 2 [])).1.1 then .CMD_SUCCESS else .CMD_FAILURE) ∧
      (CommandFilter.Handle creator ServerInstance Duration user parameters).2.1 =
        (creator.AddFilter (parameters.getD 0 []) type (parameters.getD reasonindex [])
          duration (parameters.getD 2 [])).2 := by
  have h1 : ¬ parameters.length = 1 := by omega
  unfold CommandFilter.Handle
  simp only [if_neg h1, ge_iff_le, if_pos hlen, htype]
  by_cases ht : type = FA_GLINE ∨ type = FA_ZLINE ∨ type = FA_SHUN
  · rw [if_pos ht] at htimed
    rw [if_pos ht]
    by_cases h5 : parameters.length ≥ 5
    · rw [if_pos h5] at htimed
      rw [if_pos h5]
      cases hd : Duration (parameters.getD 3 []) with
      | none => rw [hd] at htimed; exact Option.noConfusion htimed
      | some d =>
        rw [hd] at htimed
        have he := Option.some.inj htimed
        have e1 : reasonindex = 4 := (congrArg Prod.fst he).symm
        have e2 : duration = d := (congrArg Prod.snd he).symm
        subst e1 e2
        simp only
        rcases hres : creator.AddFilter (parameters.getD 0 []) type (parameters.getD 4 [])
          duration (parameters.getD 2 []) with ⟨⟨ok, second⟩, me⟩
        cases ok <;> simp
    · rw [if_neg h5] at htimed
      exact Option.noConfusion htimed
  · rw [if_neg ht] at htimed
    rw [if_neg ht]
    have he := Option.some.inj htimed
    have e1 : reasonindex = 3 := (congrArg Prod.fst he).symm
    have e2 : duration = 0 := (congrArg Prod.snd he).symm
    subst e1 e2
    simp only
    rcases hres : creator.AddFilter (parameters.getD 0 []) type (parameters.getD 3 [])
      0 (parameters.getD 2 []) with ⟨⟨ok, second⟩, me⟩
    cases ok <;> simp

end Reloads

/-! ## The administrative command -/

section Administration

open FilterAction ModuleFilter FilterResult

theorem timed_iff (type : FilterAction) :
    (type = FA_GLINE ∨ type = FA_ZLINE ∨ type = FA_SHUN) ↔ type.timed = true := by
  cases type <;> simp [FilterAction.timed]

/-- C27 (counterexample): the command `FILTER x block * 60 :spam` has five
parameters and succeeds, and the rule it stores has the reason `60`, the fourth
parameter, not the fifth. -/
theorem C27_block_takes_fourth_parameter :
    blockFiveParameters.length = 5 ∧
      (CommandFilter.Handle emptyModule sampleServer sampleDuration alice
        blockFiveParameters).1 = .CMD_SUCCESS ∧
      (CommandFilter.Handle emptyModule sampleServer sampleDuration alice
        blockFiveParameters).2.1.filters.map (fun f => (f.freeform, f.action, f.reason)) =
        [("x".toList, FA_BLOCK, "60".toList)] ∧
      blockFiveParameters.getD 4 [] = "spam".toList := by
  refine ⟨rfl, by decide, by decide, rfl⟩

/-- C27 (amended): when the add command is given with five parameters and
succeeds, exactly one rule is stored; for the actions that carry a duration
(GLINE, ZLINE, SHUN) its reason is the fifth parameter and its duration is what
the fourth parameter denotes; for every other action its reason is the fourth
parameter and its duration is 0, the fifth parameter being left out. -/
theorem C27_stored_reason (creator : ModuleFilter) (ServerInstance : InspIRCd)
    (Duration : Str → Option Nat) (user : User) (parameters : List Str)
    (hlen : parameters.length = 5)
    (hok : (CommandFilter.Handle creator ServerInstance Duration user parameters).1
      = .CMD_SUCCESS) :
    ∃ (type : FilterAction) (f : FilterResult),
      StringToFilterAction ServerInstance.shun (parameters.getD 1 []) = some type ∧
      (CommandFilter.Handle creator ServerInstance Duration user parameters).2.1 =
        { creator with filters := creator.filters ++ [f] } ∧
      f.freeform = parameters.getD 0 [] ∧ f.action = type ∧ f.from_config = false ∧
      f.reason = parameters.getD (if type.timed then 4 else 3) [] ∧
      (type.timed = true → Duration (parameters.getD 3 []) = some f.duration) ∧
      (type.timed = false → f.duration = 0) := by
  have h1 : ¬ parameters.length = 1 := by omega
  have h4 : 4 ≤ parameters.length := by omega
  have h5 : parameters.length ≥ 5 := by omega
  cases htype : StringToFilterAction ServerInstance.shun (parameters.getD 1 []) with
  | none =>
    have : (CommandFilter.Handle creator ServerInstance Duration user parameters).1
        = .CMD_FAILURE := by
      unfold CommandFilter.Handle
      simp only [if_neg h1, ge_iff_le, if_pos h4, htype]
    rw [this] at hok
    exact CmdResult.noConfusion hok
  | some type =>
    cases ht : type.timed with
    | true =>
      have htd := (timed_iff type).2 ht
      cases hd : Duration (parameters.getD 3 []) with
      | none =>
        have : (CommandFilter.Handle creator ServerInstance Duration user parameters).1
            = .CMD_FAILURE := by
          unfold CommandFilter.Handle
          simp only [if_neg h1, ge_iff_le, if_pos h4, htype, if_pos htd, if_pos h5, hd]
        rw [this] at hok
        exact CmdResult.noConfusion hok
      | some d =>
        obtain ⟨hres, hmod⟩ := Handle_add creator ServerInstance Duration user parameters type
          4 d h4 htype (by rw [if_pos htd, if_pos h5, hd])
        rw [hres] at hok
        have hadd : (creator.AddFilter (parameters.getD 0 []) type (parameters.getD 4 [])
            d (parameters.getD 2 [])).1.1 = true := by
          by_contra hc
          rw [if_neg hc] at hok
          exact CmdResult.noConfusion hok
        obtain ⟨f, hf, g1, g2, g3, g4, g5⟩ := AddFilter_success _ _ _ _ _ _ hadd
        refine ⟨type, f, rfl, by rw [hmod, hf], g1, g2, g5, by rw [ht]; exact g3, ?_, ?_⟩
        · intro _; rw [g4]
        · intro hc; rw [ht] at hc; exact Bool.noConfusion hc
    | false =>
      have htd : ¬ (type = FA_GLINE ∨ type = FA_ZLINE ∨ type = FA_SHUN) := by
        rw [timed_iff, ht]; exact Bool.noConfusion
      obtain ⟨hres, hmod⟩ := Handle_add creator ServerInstance Duration user parameters type
        3 0 h4 htype (by rw [if_neg htd])
      rw [hres] at hok
      have hadd : (creator.AddFilter (parameters.getD 0 []) type (parameters.getD 3 [])
          0 (parameters.getD 2 [])).1.1 = true := by
        by_contra hc
        rw [if_neg hc] at hok
        exact CmdResult.noConfusion hok
      obtain ⟨f, hf, g1, g2, g3, g4, g5⟩ := AddFilter_success _ _ _ _ _ _ hadd
      refine ⟨type, f, rfl, by rw [hmod, hf], g1, g2, g5, by rw [ht]; exact g3, ?_, ?_⟩
      · intro hc; rw [ht] at hc; exact Bool.noConfusion hc
      · intro _; exact g4

/-- C27 (witness): the command `FILTER x gline * 60 :spam` on `emptyModule`. -/
theorem C27_stored_reason_witness :
    ∃ (type : FilterAction) (f : FilterResult),
      StringToFilterAction sampleServer.shun (glineFiveParameters.getD 1 []) = some type ∧
      (CommandFilter.Handle emptyModule sampleServer sampleDuration alice
        glineFiveParameters).2.1 = { emptyModule with filters := emptyModule.filters ++ [f] } ∧
      f.freeform = glineFiveParameters.getD 0 [] ∧ f.action = type ∧ f.from_config = false ∧
      f.reason = glineFiveParameters.getD (if type.timed then 4 else 3) [] ∧
      (type.timed = true → sampleDuration (glineFiveParameters.getD 3 []) = some f.duration) ∧
      (type.timed = false → f.duration = 0) :=
  C27_stored_reason emptyModule sampleServer sampleDuration alice glineFiveParameters rfl
    (by decide)

end Administration

/-! ## Memoisation of the stripped text, and the flag parser -/

section Details

open FilterAction ModuleFilter FilterResult

/-- The counting loop is the loop of `FilterMatch`: it returns the same rule
and leaves the same `stripped_text`. -/
theorem FilterMatchCount_agrees (ServerInstance : InspIRCd) (user : User) (text : Str)
    (flgs : Nat) :
    ∀ (l : List FilterResult) (stripped_text : Str) (calls : Nat),
      ((FilterMatchCount ServerInstance user text flgs l stripped_text calls).1,
        (FilterMatchCount ServerInstance user text flgs l stripped_text calls).2.1) =
      FilterMatchLoop ServerInstance user text flgs l stripped_text := by
  intro l
  induction l with
  | nil => intro st n; rfl
  | cons filter rest ih =>
    intro st n
    unfold FilterMatchCount FilterMatchLoop
    cases happ : AppliesToMe user filter flgs with
    | false => simpa using ih st n
    | true =>
      cases hc : filter.flag_strip_color with
      | false =>
        cases hm : filter.regexMatches text with
        | false => simpa [hm] using ih st n
        | true => simp [hm]
      | true =>
        cases he : st.isEmpty with
        | false =>
          cases hm : filter.regexMatches st with
          | false => simpa [hm] using ih st n
          | true => simp [hm]
        | true =>
          cases hm : filter.regexMatches (ServerInstance.StripColor text) with
          | false => simpa [hm] using ih (ServerInstance.StripColor text) (n + 1)
          | true => simp [hm]

/-- When the stripped text is not empty, the loop calls `StripColor` at most
once. -/
theorem FilterMatchCount_le (ServerInstance : InspIRCd) (user : User) (text : Str)
    (flgs : Nat) (hne : ServerInstance.StripColor text ≠ []) :
    ∀ (l : List FilterResult) (stripped_text : Str) (calls : Nat),
      (stripped_text = [] ∨ stripped_text = ServerInstance.StripColor text) →
      (FilterMatchCount ServerInstance user text flgs l stripped_text calls).2.2 ≤
        (if stripped_text = [] then calls + 1 else calls) := by
  intro l
  induction l with
  | nil => intro st n _; simp only [FilterMatchCount]; split <;> omega
  | cons filter rest ih =>
    intro st n hst
    have ih1 := ih st n hst
    have ih2 := ih (ServerInstance.StripColor text) (n + 1) (Or.inr rfl)
    rw [if_neg hne] at ih2
    unfold FilterMatchCount
    cases happ : AppliesToMe user filter flgs with
    | false => simpa using ih1
    | true =>
      cases hc : filter.flag_strip_color with
      | false =>
        cases hm : filter.regexMatches text with
        | false => simpa [hm] using ih1
        | true => simp [hm]; split <;> omega
      | true =>
        rcases hst with rfl | rfl
        · cases hm : filter.regexMatches (ServerInstance.StripColor text) with
          | false => simpa [hm] using ih2
          | true => simp [hm]
        · have he : (ServerInstance.StripColor text).isEmpty = false := by
            cases h : ServerInstance.StripColor text with
            | nil => exact absurd h hne
            | cons c cs => rfl
          cases hm : filter.regexMatches (ServerInstance.StripColor text) with
          | false => simpa [hm, he] using ih1
          | true => simp [hm, he, hne]

/-- C28 (the code at the failing input): both rules of `stripModule` have
`stripFormatting` and apply to a PRIVMSG of `alice`; the text `boldOnly`
strips to the empty text, which neither matches; in one scan of the list
`StripColor` is called twice. -/
theorem C28_stripped_text_computed_twice :
    sampleServer.StripColor boldOnly = [] ∧
      stripModule.filters.map
        (fun f => (f.flag_strip_color, AppliesToMe alice f FilterFlags.FLAG_PRIVMSG.toInt))
        = [(true, true), (true, true)] ∧
      stripModule.FilterMatch sampleServer alice boldOnly FilterFlags.FLAG_PRIVMSG.toInt
        = none ∧
      (FilterMatchCount sampleServer alice boldOnly FilterFlags.FLAG_PRIVMSG.toInt
        stripModule.filters [] 0).2.2 = 2 := by
  refine ⟨by decide, by decide, rfl, by decide⟩

/-- C29 (counterexample): on the flag string that holds the single byte 0,
which is not one of the recognised characters, `FillFlags` returns 0. -/
theorem C29_zero_byte_returns_zero :
    (FilterResult.default.FillFlags [NUL]).1 = NUL ∧ recognisedFlag NUL = false ∧
      ¬ (∀ c ∈ [NUL], recognisedFlag c = true) := by
  refine ⟨rfl, by decide, by decide⟩

/-- C29 (amended): `FillFlags` returns the first character of the string that
is not one of `o P q p n c *` when there is one, and 0 when every character is
one of them; so it returns 0 exactly when every character is recognised or the
first one that is not is the byte 0. In every case the flags set afterwards are
exactly those named by a character (`*` naming all six) before the first
character that is not recognised, whatever the flags were before the call. -/
theorem C29_FillFlags_result (self : FilterResult) (s : Str) :
    (self.FillFlags s).1 = (firstUnrecognised s).getD NUL ∧
      ((∀ c ∈ s, recognisedFlag c = true) → (self.FillFlags s).1 = NUL) ∧
      (∀ c : Char, firstUnrecognised s = some c → (self.FillFlags s).1 = c) ∧
      ((self.FillFlags s).1 = NUL ↔
        ((∀ c ∈ s, recognisedFlag c = true) ∨ firstUnrecognised s = some NUL)) ∧
      ((self.FillFlags s).2.flag_no_opers = namesFlag 'o' s ∧
        (self.FillFlags s).2.flag_part_message = namesFlag 'P' s ∧
        (self.FillFlags s).2.flag_quit_message = namesFlag 'q' s ∧
        (self.FillFlags s).2.flag_privmsg = namesFlag 'p' s ∧
        (self.FillFlags s).2.flag_notice = namesFlag 'n' s ∧
        (self.FillFlags s).2.flag_strip_color = namesFlag 'c' s) := by
  have h1 : (self.FillFlags s).1 = (firstUnrecognised s).getD NUL := by
    unfold FilterResult.FillFlags
    exact FillFlagsLoop_fst s _
  have hnone : firstUnrecognised s = none ↔ ∀ c ∈ s, recognisedFlag c = true := by
    unfold firstUnrecognised
    rw [List.find?_eq_none]
    simp
  refine ⟨h1, ?_, ?_, ?_, FillFlags_namesFlag self s⟩
  · intro hall
    rw [h1, hnone.2 hall]
    rfl
  · intro c hc
    rw [h1, hc]
    rfl
  · rw [h1]
    cases hf : firstUnrecognised s with
    | none =>
      constructor
      · intro _; exact Or.inl (hnone.1 hf)
      · intro _; rfl
    | some c =>
      constructor
      · intro hc
        exact Or.inr (congrArg some hc)
      · rintro (hall | hc)
        · rw [hnone.2 hall] at hf
          exact Option.noConfusion hf
        · exact Option.some.inj hc

/-- C29 (witness): the flag string `pz*`: `z` is returned, and only the flag
named before it is set. -/
theorem C29_FillFlags_result_witness :
    (helloRule.FillFlags "pz*".toList).1 = 'z' ∧
      (helloRule.FillFlags "p*".toList).1 = NUL :=
  ⟨(C29_FillFlags_result helloRule "pz*".toList).2.2.1 'z' (by decide),
    (C29_FillFlags_result helloRule "p*".toList).2.1 (by decide)⟩

end Details

/-! ## The CTCP-blocking module -/

section NoCTCP

/-- A message of a sender who is not local, a message that is not a CTCP and a
CTCP `ACTION` pass through without any call. -/
theorem NoCTCP_passes (self : ModuleNoCTCP) (user : User) (target : MessageTarget)
    (details : MessageDetails)
    (h : user.IsLocal = false ∨ self.IsCTCP details = none ∨
      ∃ ctcpname, self.IsCTCP details = some ctcpname ∧
        equalsci ctcpname "ACTION".toList = true) :
    self.OnUserPreMessage user target details = (.MOD_RES_PASSTHRU, []) := by
  unfold ModuleNoCTCP.OnUserPreMessage
  cases hl : user.IsLocal with
  | false => rfl
  | true =>
    rcases h with h | h | ⟨ctcpname, h, ha⟩
    · rw [hl] at h; exact Bool.noConfusion h
    · simp [h]
    · simp only [h, ha, Bool.not_true, Bool.false_eq_true, if_false, if_true]

/-- A CTCP other than `ACTION` that a local user sends to a user who has `+T`
draws the numeric `ERR_CANTSENDTOUSER` and is then let through. -/
theorem NoCTCP_user_mode_T (self : ModuleNoCTCP) (user u : User) (details : MessageDetails)
    (ctcpname : Str) (hlocal : user.IsLocal = true)
    (hctcp : self.IsCTCP details = some ctcpname)
    (hname : equalsci ctcpname "ACTION".toList = false) (hmode : self.ncu u = true) :
    self.OnUserPreMessage user (.TYPE_USER u) details =
      (.MOD_RES_PASSTHRU,
        [Effect.WriteNumeric user.nick ERR_CANTSENDTOUSER u.nick
          "Can't send CTCP to user (+T set)".toList]) := by
  simp only [ModuleNoCTCP.OnUserPreMessage, hlocal, hctcp, hname, hmode, Bool.not_true,
    Bool.false_eq_true, if_false, if_true]

/-- C31 (the code at the failing input): `alice` is local, `versionRequest` is
the CTCP `VERSION`, and `bob` has `+T`; `OnUserPreMessage` sends `alice` the
numeric `Can't send CTCP to user (+T set)` and returns pass-through, not deny;
for a channel with `+C` the same CTCP is denied. The rest of the claim holds:
the PRIVMSG `badword`, which is no CTCP, and the same CTCP from a sender who is
not local pass through without any call. -/
theorem C31_ctcp_to_user_with_T_passes :
    alice.IsLocal = true ∧ sampleNoCTCP.IsCTCP versionRequest = some "VERSION".toList ∧
      equalsci "VERSION".toList "ACTION".toList = false ∧ sampleNoCTCP.ncu bob = true ∧
      sampleNoCTCP.OnUserPreMessage alice (.TYPE_USER bob) versionRequest =
        (.MOD_RES_PASSTHRU,
          [Effect.WriteNumeric "alice".toList ERR_CANTSENDTOUSER "bob".toList
            "Can't send CTCP to user (+T set)".toList]) ∧
      ({ sampleNoCTCP with nc := fun _ => true }.OnUserPreMessage alice
        (.TYPE_CHANNEL "#chan".toList) versionRequest).1 = .MOD_RES_DENY ∧
      sampleNoCTCP.OnUserPreMessage alice (.TYPE_USER bob) badwordMessage =
        (.MOD_RES_PASSTHRU, []) ∧
      sampleNoCTCP.OnUserPreMessage { alice with IsLocal := false } (.TYPE_USER bob)
        versionRequest = (.MOD_RES_PASSTHRU, []) := by
  refine ⟨rfl, by decide, by decide, by decide, by decide, by decide, by decide, by decide⟩

end NoCTCP
